import Mathlib

/-!
Verification development for the psearch SQL Transformation Pipeline and its
Task Manager (files `src/psearch/gen_ai/tasks/task_manager.py`,
`src/psearch/gen_ai/services/sql/...`).

The Python code is shallowly embedded: dictionaries become association
lists, wall-clock timestamps become caller-supplied `Nat` ticks, the
opaque LLM / BigQuery collaborators become oracle values (quantified over
in the theorems), and Python strings are modelled by Lean `String` /
`List Char` restricted to their ASCII behaviour (lower/upper case, the
`\s` whitespace class and the `\w` word class are modelled for ASCII,
which is the alphabet the pipeline manipulates).
-/

namespace PSearch

/-- Python truthiness of an `Optional[str]`: `None` and `""` are falsy. -/
def pyTruthy : Option String → Bool
  | some s => !(s == "")
  | none => false

/-- Python `a or default` for `a : Optional[str]` with a string default. -/
def pyOr (a : Option String) (d : String) : String :=
  if pyTruthy a then a.getD "" else d

/-- Python `a or b` for two `Optional` values (used for
`destination_schema or self.default_destination_schema`). -/
def pyOrOpt (a b : Option String) : Option String :=
  if pyTruthy a then a else b

/-- ASCII model of Python's `str.isspace` / regex `\s` class. -/
def isPyWs (c : Char) : Bool :=
  c == ' ' || c == '\t' || c == '\n' || c == '\x0d' || c == '\x0b' || c == '\x0c'

/-- ASCII model of the regex `\w` word-character class. -/
def isWordChar (c : Char) : Bool :=
  c.isAlphanum || c == '_'

/-- ASCII model of Python `str.lower`. -/
def pyLower (s : String) : String := s.map Char.toLower

/-- ASCII model of Python `str.upper`. -/
def pyUpper (s : String) : String := s.map Char.toUpper

/-- Python `str.strip()` on a list of characters (both ends). -/
def stripChars (l : List Char) : List Char :=
  ((l.dropWhile (fun c => isPyWs c)).reverse.dropWhile (fun c => isPyWs c)).reverse

/-- Python `str.strip()`. -/
def pyStrip (s : String) : String := ⟨stripChars s.toList⟩

/-- Python `str.lstrip()`. -/
def pyLStrip (s : String) : String := ⟨s.toList.dropWhile (fun c => isPyWs c)⟩

/-!
## Task Manager (`src/psearch/gen_ai/tasks/task_manager.py`)

`task_status` is a process-wide `Dict[str, Dict[str, Any]]`; we model it as
an association list keyed by task id (Python dicts keep the insertion
position of a key on overwrite, which `setTask` reproduces).  Timestamps
(`datetime.datetime.now(...).isoformat()`) are abstracted to a `Nat` tick
supplied by the caller of each operation; one operation uses one tick.
`input_details` (a dict in Python) is abstracted to its string rendering,
with `""` standing for the empty dict `{}`.
-/

structure Task where
  task_id : String
  task_type : String
  status : String
  input_details : String
  result : Option String
  error : Option String
  created_at : Nat
  updated_at : Nat
  logs : List (Nat × String)
  deriving Repr, DecidableEq

/-- The in-memory task store (the module-level `task_status` dict). -/
def TaskStore := List (String × Task)

instance : DecidableEq TaskStore := by
  unfold TaskStore; infer_instance

instance : Repr TaskStore := by
  unfold TaskStore; infer_instance

/-- Dict lookup `task_status.get(task_id)`. -/
def lookupTask (st : TaskStore) (id : String) : Option Task :=
  match st with
  | [] => none
  | (k, v) :: rest => if k = id then some v else lookupTask rest id

/-- Dict assignment `task_status[task_id] = t` (replaces in place, else
appends, like a Python dict preserving insertion order). -/
def setTask (st : TaskStore) (id : String) (t : Task) : TaskStore :=
  match st with
  | [] => [(id, t)]
  | (k, v) :: rest => if k = id then (id, t) :: rest else (k, v) :: setTask rest id t

/-- `add_task_log(task_id, message)`: appends `{timestamp, message}` to the
task's `logs`; a warning-only no-op when the task id is unknown. -/
def add_task_log (now : Nat) (id msg : String) (st : TaskStore) : TaskStore :=
  match lookupTask st id with
  | none => st
  | some t => setTask st id { t with logs := t.logs ++ [(now, msg)] }

/-- The log line `init_task` writes through `add_task_log`. -/
def initLogMsg (task_type : String) (input_details : Option String) : String :=
  "Task initialized. Type: " ++ task_type ++ ". Inputs: " ++
    (if pyTruthy input_details then input_details.getD "" else "N/A")

/-- `init_task(task_id, task_type, input_details)`: (re)creates the record
with status `"received"`, empty result/error, then immediately appends the
initialization log entry. -/
def init_task (now : Nat) (id task_type : String) (input_details : Option String)
    (st : TaskStore) : TaskStore :=
  let t : Task :=
    { task_id := id
      task_type := task_type
      status := "received"
      input_details := pyOr input_details ""
      result := none
      error := none
      created_at := now
      updated_at := now
      logs := [] }
  add_task_log now id (initLogMsg task_type input_details) (setTask st id t)

/-- `update_task_status(task_id, status, result=None, error=None)`:
no-op when the id is unknown; otherwise sets `status`/`updated_at`,
overwrites `result` only when the argument `is not None`, stores a truthy
`error` (with an `ERROR:` log line), clears a stale error when the new
status is not `failed`, and appends the `Status changed` log line. -/
def update_task_status (now : Nat) (id status : String)
    (result error : Option String) (st : TaskStore) : TaskStore :=
  match lookupTask st id with
  | none => st
  | some t0 =>
    let t1 := { t0 with status := status, updated_at := now }
    let t2 := match result with
      | some r => { t1 with result := some r }
      | none => t1
    let st2 :=
      if pyTruthy error then
        add_task_log now id ("ERROR: " ++ error.getD "")
          (setTask st id { t2 with error := error })
      else
        if status ≠ "failed" ∧ t2.error ≠ none then
          add_task_log now id "Previous error condition cleared."
            (setTask st id { t2 with error := none })
        else
          setTask st id t2
    add_task_log now id
      ("Status changed to: " ++ status ++ "." ++
        (if result.isSome then " Result updated." else ""))
      st2

/-- One external mutation of the task store (for quantifying over call
sequences of `update_task_status` / `add_task_log`). -/
inductive TMOp where
  | upd (now : Nat) (id status : String) (result error : Option String)
  | log (now : Nat) (id msg : String)

def applyTMOp (st : TaskStore) : TMOp → TaskStore
  | .upd now id status result error => update_task_status now id status result error st
  | .log now id msg => add_task_log now id msg st

def applyTMOps (ops : List TMOp) (st : TaskStore) : TaskStore :=
  ops.foldl applyTMOp st

/-!
## SQL Validator (`src/psearch/gen_ai/services/sql/validation/sql_validator.py`)

The BigQuery dry-run call is an oracle (`DryRunOutcome`): it either
succeeds with job metadata, raises the expected `BadRequest`, or raises
some other exception.  The three `re.search` extractions of the
`BadRequest` branch are embedded as deterministic scanners (each of those
patterns is backtracking-free: every quantified class is disjoint from the
character that follows it).
-/

/-- Case-insensitive character comparison (regex `re.IGNORECASE`, ASCII). -/
def ciEqChar (a b : Char) : Bool := a.toLower == b.toLower

/-- Consume a case-insensitive literal, returning the rest. -/
def ciPrefix : List Char → List Char → Option (List Char)
  | [], s => some s
  | _ :: _, [] => none
  | p :: ps, c :: cs => if ciEqChar p c then ciPrefix ps cs else none

/-- Consume a case-sensitive literal, returning the rest. -/
def litPrefix : List Char → List Char → Option (List Char)
  | [], s => some s
  | _ :: _, [] => none
  | p :: ps, c :: cs => if p == c then litPrefix ps cs else none

/-- Split off the maximal prefix satisfying `p` (a greedy character
class). -/
def takeWhileSplit (p : Char → Bool) (s : List Char) : List Char × List Char :=
  (s.takeWhile p, s.dropWhile p)

/-- Leftmost-search driver: try the head matcher at every start position
(the behaviour of `re.search`). -/
def scanFor {α : Type} (m : List Char → Option α) : List Char → Option α
  | [] => m []
  | c :: cs =>
    match m (c :: cs) with
    | some a => some a
    | none => scanFor m cs

/-- The optional location tail `(?:LEAD(\d+:\d+)\])?` shared by the three
BadRequest diagnostics patterns; `lead` is `" [at "` or `"[at "`, compared
case-insensitively when `ci` is set. -/
def matchLocFrom (lead : List Char) (ci : Bool) (s : List Char) : Option String :=
  match (if ci then ciPrefix lead s else litPrefix lead s) with
  | none => none
  | some r =>
    let (d1, r1) := takeWhileSplit Char.isDigit r
    if d1 = [] then none
    else
      match r1 with
      | ':' :: r2 =>
        let (d2, r3) := takeWhileSplit Char.isDigit r2
        if d2 = [] then none
        else
          match r3 with
          | ']' :: _ => some ⟨d1 ++ ':' :: d2⟩
          | _ => none
      | _ => none

/-- Head match of `Invalid field name \"([^\"]+)\"(?: \[at (\d+:\d+)\])?`
(searched with `re.IGNORECASE`). -/
def matchInvalidFieldAt (s : List Char) : Option (String × Option String) :=
  match ciPrefix "Invalid field name \"".toList s with
  | none => none
  | some r1 =>
    let (g1, r2) := takeWhileSplit (fun c => !(c == '"')) r1
    if g1 = [] then none
    else
      match r2 with
      | '"' :: r3 => some (⟨g1⟩, matchLocFrom " [at ".toList true r3)
      | _ => none

/-- Head match of `Unrecognized name: ([a-zA-Z0-9_.]+)(?: \[at (\d+:\d+)\])?`
(case-sensitive). -/
def matchUnrecognizedAt (s : List Char) : Option (String × Option String) :=
  match litPrefix "Unrecognized name: ".toList s with
  | none => none
  | some r1 =>
    let (g1, r2) := takeWhileSplit (fun c => c.isAlphanum || c == '_' || c == '.') r1
    if g1 = [] then none
    else some (⟨g1⟩, matchLocFrom " [at ".toList false r2)

/-- Head match of `Syntax error: ([^\[]+)(?:\[at (\d+:\d+)\])?`
(case-sensitive). -/
def matchSynErrAt (s : List Char) : Option (String × Option String) :=
  match litPrefix "Syntax error: ".toList s with
  | none => none
  | some r1 =>
    let (g1, r2) := takeWhileSplit (fun c => !(c == '[')) r1
    if g1 = [] then none
    else some (⟨g1⟩, matchLocFrom "[at ".toList false r2)

/-- The parsed-diagnostics dict built in the `BadRequest` branch
(`error_details` in the source; `syn_error_message` stands for the
source's `syntax_error_message` key). -/
structure VDetailsErr where
  raw_error : String
  invalid_field : Option String
  unrecognized_name : Option String
  syn_error_message : Option String
  error_location : Option String
  deriving Repr, DecidableEq

/-- The `details` payload of a validation result. -/
inductive VDetails where
  | okD (estimated_bytes_processed : Nat) (job_id : String) (location : String)
  | errD (d : VDetailsErr)
  | otherD (error_type : String)
  deriving Repr, DecidableEq

/-- The dictionary returned by `validate_sql_dry_run`. -/
structure VRes where
  valid : Bool
  message : Option String
  error_message : Option String
  details : Option VDetails
  deriving Repr, DecidableEq

/-- Oracle for the BigQuery dry-run call: success with job metadata, the
expected `BadRequest` exception, or any other exception (class name and
message). -/
inductive DryRunOutcome where
  | ok (total_bytes_processed : Option Nat) (job_id : String) (location : String)
  | badRequest (msg : String)
  | otherExc (typeName msg : String)
  deriving Repr, DecidableEq

/-- `f"{n:,}"`: decimal rendering with thousands separators. -/
def commaRev : List Char → Nat → List Char
  | [], _ => []
  | c :: cs, i =>
    if (i + 1) % 3 = 0 ∧ cs ≠ [] then c :: ',' :: commaRev cs (i + 1)
    else c :: commaRev cs (i + 1)

def pyThousands (n : Nat) : String :=
  ⟨(commaRev (toString n).toList.reverse 0).reverse⟩

/-- `error_details` as built by the source's `BadRequest` branch: the raw
error plus the three best-effort parses (`error_location` is written by
each parse in turn, so the last successful one wins). -/
def badRequestDetails (msg : String) : VDetailsErr :=
  let m1 := scanFor matchInvalidFieldAt msg.toList
  let m2 := scanFor matchUnrecognizedAt msg.toList
  let m3 := scanFor matchSynErrAt msg.toList
  { raw_error := msg
    invalid_field := m1.map (·.1)
    unrecognized_name := m2.map (·.1)
    syn_error_message := m3.map (fun x => pyStrip x.1)
    error_location :=
      (m3.bind (·.2)).orElse fun _ => (m2.bind (·.2)).orElse fun _ => m1.bind (·.2) }

/-- `SQLValidator.validate_sql_dry_run(sql_script, timeout_seconds)` with
the dry-run collaborator abstracted to `dr`. -/
def validate_sql_dry_run (dr : DryRunOutcome) (sql_script : String)
    (_timeout_seconds : Nat := 30) : VRes :=
  if sql_script = "" ∨ pyStrip sql_script = "" then
    { valid := false
      message := some "SQL script is empty."
      error_message := some "SQL script is empty."
      details := none }
  else
    match dr with
    | .ok total_bytes_processed job_id location =>
      let estimated := total_bytes_processed.getD 0
      { valid := true
        message := some ("SQL syntax validated successfully (Estimated bytes: "
          ++ pyThousands estimated ++ ")")
        error_message := none
        details := some (.okD estimated job_id location) }
    | .badRequest msg =>
      { valid := false
        message := some "SQL validation failed."
        error_message := some msg
        details := some (.errD (badRequestDetails msg)) }
    | .otherExc typeName msg =>
      { valid := false
        message := some ("An unexpected error occurred during SQL validation: "
          ++ typeName ++ ".")
        error_message := some msg
        details := some (.otherD typeName) }

/-!
## Field Analyzer (`src/psearch/gen_ai/services/sql/enhancement/field_analyzer.py`)

`identify_defaulted_fields` lower-cases the SQL text and, per critical
field, looks for placeholder-default patterns: nested (dotted) fields use
plain substring containment of `struct(<default> as <child>` forms, flat
fields use `re.search(r"\b" + re.escape(pattern) + r"\b", ...)`, i.e. a
word-boundary-delimited literal search.  (The `struct_patterns` regex list
in the source is built but never used; only `simple_struct_checks` is.)
-/

/-- Word-ness of an optional character (`\b` treats the outside of the
string as non-word). -/
def isWordOpt : Option Char → Bool
  | some c => isWordChar c
  | none => false

/-- Head match of `\b<pat>\b` at the current position; `prev` is the
character just before the position. -/
def wbHere (pat : List Char) (prev : Option Char) (s : List Char) : Bool :=
  match pat.head?, pat.getLast? with
  | some p0, some pl =>
    pat.isPrefixOf s && (isWordOpt prev != isWordChar p0)
      && (isWordOpt (s.drop pat.length).head? != isWordChar pl)
  | _, _ => false

/-- `re.search(r"\b" + re.escape(pat) + r"\b", s)` as a Boolean. -/
def wbScan (pat : List Char) (prev : Option Char) (s : List Char) : Bool :=
  match s with
  | [] => wbHere pat prev []
  | c :: cs => wbHere pat prev (c :: cs) || wbScan pat (some c) cs

/-- Python's `in` operator on strings (contiguous substring). -/
def containsSub (pat : List Char) (s : List Char) : Bool :=
  match s with
  | [] => pat.isEmpty
  | _ :: cs => pat.isPrefixOf s || containsSub pat cs

/-- `FieldAnalyzer.DEFAULT_CRITICAL_FIELDS`. -/
def DEFAULT_CRITICAL_FIELDS : List String :=
  ["id", "name", "title", "description", "images", "categories", "brands",
   "priceInfo.price", "priceInfo.currencyCode"]

/-- `simple_struct_checks` for a nested field's child name (the source
strings `struct(null as {child}` … `struct(\"\" as {child}`). -/
def structChecks (child : List Char) : List (List Char) :=
  [ "struct(null as ".toList ++ child
  , "struct(0 as ".toList ++ child
  , "struct(false as ".toList ++ child
  , "struct([] as ".toList ++ child
  , "struct(\x7b\x7d as ".toList ++ child
  , "struct(\x27\x27 as ".toList ++ child
  , "struct(\"\" as ".toList ++ child ]

/-- `simple_direct_checks` for a flat field (the source strings
`null as {field}` … `\"\" as {field}`). -/
def directChecks (fieldLower : List Char) : List (List Char) :=
  [ "null as ".toList ++ fieldLower
  , "0 as ".toList ++ fieldLower
  , "false as ".toList ++ fieldLower
  , "[] as ".toList ++ fieldLower
  , "\x7b\x7d as ".toList ++ fieldLower
  , "\x27\x27 as ".toList ++ fieldLower
  , "\"\" as ".toList ++ fieldLower ]

/-- The per-field body of `identify_defaulted_fields`'s loop. -/
def fieldDefaulted (sqlLower : List Char) (field : String) : Bool :=
  let fieldLower := field.toList.map Char.toLower
  if field.toList.contains '.' then
    let child := (takeWhileSplit (fun c => !(c == '.')) fieldLower).2.drop 1
    (structChecks child).any fun pat => containsSub pat sqlLower
  else
    (directChecks fieldLower).any fun pat => wbScan pat none sqlLower

/-- `FieldAnalyzer.identify_defaulted_fields(sql_query, critical_fields)`.
The final `list(set(...))` deduplication is modelled as order-preserving
`eraseDups` (Python's set order is unspecified; the claims below only
exercise results of at most one element). -/
def identify_defaulted_fields (sql_query : String)
    (critical_fields : Option (List String)) : List String :=
  let fieldsToCheck := critical_fields.getD DEFAULT_CRITICAL_FIELDS
  if sql_query = "" then []
  else
    let sqlLower := sql_query.toList.map Char.toLower
    (fieldsToCheck.filter (fun f => fieldDefaulted sqlLower f)).eraseDups

/-!
## Programmatic formatting fixes
(`InitialSQLGenerator._apply_programmatic_fixes`, duplicated verbatim in
`SemanticEnhancer._apply_programmatic_fixes`)

The three `re.sub(..., count=1, flags=re.IGNORECASE)` calls are embedded as
leftmost-match single replacements.  Each of the three patterns is
backtracking-free: every quantified piece (`\s+`, `\s*`, `[^``]+`) is a
character class disjoint from the literal that follows it, so the greedy
match is forced and the embedding can use deterministic maximal-munch
scanners.
-/

/-- The backtick character (spelled numerically). -/
def btick : Char := Char.ofNat 96

/-- Case-insensitive literal that also returns the consumed characters
(with their original case), for regex group capture. -/
def ciPrefixC : List Char → List Char → Option (List Char × List Char)
  | [], s => some ([], s)
  | _ :: _, [] => none
  | p :: ps, c :: cs =>
    if ciEqChar p c then
      match ciPrefixC ps cs with
      | some (t, r) => some (c :: t, r)
      | none => none
    else none

/-- Head match of `CREATE\s+OR\s+REPLACE\s+TABLE\s*`NAME`\s*AS` (pattern 1,
`re.IGNORECASE`); returns the captured `NAME` (group 1) and the rest after
the match. -/
def tryM1 (s : List Char) : Option (List Char × List Char) :=
  match ciPrefix "CREATE".toList s with
  | none => none
  | some r1 =>
    let (w1, r2) := takeWhileSplit isPyWs r1
    if w1 = [] then none
    else
      match ciPrefix "OR".toList r2 with
      | none => none
      | some r3 =>
        let (w2, r4) := takeWhileSplit isPyWs r3
        if w2 = [] then none
        else
          match ciPrefix "REPLACE".toList r4 with
          | none => none
          | some r5 =>
            let (w3, r6) := takeWhileSplit isPyWs r5
            if w3 = [] then none
            else
              match ciPrefix "TABLE".toList r6 with
              | none => none
              | some r7 =>
                let (_w4, r8) := takeWhileSplit isPyWs r7
                match r8 with
                | [] => none
                | c :: r9 =>
                  if c == btick then
                    let (g, r10) := takeWhileSplit (fun ch => !(ch == btick)) r9
                    if g = [] then none
                    else
                      match r10 with
                      | [] => none
                      | c2 :: r11 =>
                        if c2 == btick then
                          let (_w5, r12) := takeWhileSplit isPyWs r11
                          match ciPrefix "AS".toList r12 with
                          | none => none
                          | some r13 => some (g, r13)
                        else none
                  else none

/-- The replacement of pattern 1:
`f"CREATE OR REPLACE TABLE `{m.group(1)}` AS"`. -/
def canon1 (g : List Char) : List Char :=
  "CREATE OR REPLACE TABLE ".toList ++ btick :: (g ++ btick :: " AS".toList)

/-- `re.sub` of pattern 1 with `count=1` (leftmost match only). -/
def sub1 : List Char → List Char
  | [] => []
  | c :: cs =>
    match tryM1 (c :: cs) with
    | some (g, rest) => canon1 g ++ rest
    | none => c :: sub1 cs

/-- Head match of `(CREATE\s+OR\s+REPLACE\s+TABLE)\s+(?=`)` (pattern 2,
`re.IGNORECASE`); returns group 1 verbatim and the rest starting at the
look-ahead backtick. -/
def tryM2 (s : List Char) : Option (List Char × List Char) :=
  match ciPrefixC "CREATE".toList s with
  | none => none
  | some (k1, r1) =>
    let (w1, r2) := takeWhileSplit isPyWs r1
    if w1 = [] then none
    else
      match ciPrefixC "OR".toList r2 with
      | none => none
      | some (k2, r3) =>
        let (w2, r4) := takeWhileSplit isPyWs r3
        if w2 = [] then none
        else
          match ciPrefixC "REPLACE".toList r4 with
          | none => none
          | some (k3, r5) =>
            let (w3, r6) := takeWhileSplit isPyWs r5
            if w3 = [] then none
            else
              match ciPrefixC "TABLE".toList r6 with
              | none => none
              | some (k4, r7) =>
                let (w4, r8) := takeWhileSplit isPyWs r7
                if w4 = [] then none
                else
                  match r8 with
                  | [] => none
                  | c :: _ =>
                    if c == btick then
                      some (k1 ++ w1 ++ k2 ++ w2 ++ k3 ++ w3 ++ k4, r8)
                    else none

/-- `re.sub` of pattern 2 with `count=1`: replacement `r"\1 "`. -/
def sub2 : List Char → List Char
  | [] => []
  | c :: cs =>
    match tryM2 (c :: cs) with
    | some (g, rest) => g ++ ' ' :: rest
    | none => c :: sub2 cs

/-- Head match (after a backtick look-behind) of `\s+(AS\s+SELECT)`
(pattern 3, `re.IGNORECASE`); returns group 1 verbatim and the rest. -/
def tryM3 (s : List Char) : Option (List Char × List Char) :=
  let (w, r1) := takeWhileSplit isPyWs s
  if w = [] then none
  else
    match ciPrefixC "AS".toList r1 with
    | none => none
    | some (kAS, r2) =>
      let (w2, r3) := takeWhileSplit isPyWs r2
      if w2 = [] then none
      else
        match ciPrefixC "SELECT".toList r3 with
        | none => none
        | some (kSel, r4) => some (kAS ++ w2 ++ kSel, r4)

/-- `re.sub` of pattern 3 with `count=1`: replacement `r" \1"`, guarded by
the `(?<=`)` look-behind carried in `prev`. -/
def sub3 (prev : Option Char) : List Char → List Char
  | [] => []
  | c :: cs =>
    if prev == some btick then
      match tryM3 (c :: cs) with
      | some (g, rest) => ' ' :: (g ++ rest)
      | none => c :: sub3 (some c) cs
    else c :: sub3 (some c) cs

/-- `startswith` on a character list. -/
def startsWithL (p : String) (s : List Char) : Bool :=
  p.toList.isPrefixOf s

/-- The two final `if`/`elif` backtick strips of
`_apply_programmatic_fixes`. -/
def backtickStrip (s : List Char) : List Char :=
  if startsWithL "``" s then s.drop 2
  else if startsWithL "`" s && !(startsWithL "```" s) then s.drop 1
  else s

/-- `_apply_programmatic_fixes(sql_query)` (the identical function of
`InitialSQLGenerator` and `SemanticEnhancer`). -/
def apply_programmatic_fixes (sql_query : String) : String :=
  if sql_query = "" then ""
  else ⟨backtickStrip (sub3 none (sub2 (sub1 sql_query.toList)))⟩

/-!
## `GenAIClient.extract_sql_from_text`
(`src/psearch/gen_ai/services/sql/common/client_utils.py`)
-/

/-- `endswith` on a character list. -/
def endsWithL (p : String) (s : List Char) : Bool :=
  p.toList.reverse.isPrefixOf s.reverse

/-- Upper-cased copy of a character list. -/
def upperL (l : List Char) : List Char := l.map Char.toUpper

/-- The tails of `w` that start right after a newline of `w`, in order of
decreasing matched `\s*` length. -/
def tailsAfterNewline : List Char → List (List Char)
  | [] => []
  | c :: cs => (if c == '\n' then [cs] else []) ++ tailsAfterNewline cs

/-- Backtracking over `\s*\n(.*?)\n```$`: try each newline of the
whitespace run (longest `\s*` first), requiring the remaining region to
end in `"\n```"`; the group is the region without that 4-character tail. -/
def mdPick : List (List Char) → List Char → Option (List Char)
  | [], _ => none
  | t :: ts, r2 =>
    let region := t ++ r2
    if endsWithL "\n```" region then some (region.take (region.length - 4))
    else mdPick ts r2

/-- `re.match(r"^```(?:[a-zA-Z]+)?\s*\n(.*?)\n```$", s, DOTALL|IGNORECASE)`:
returns group 1 on success. -/
def mdBlockMatch (s : List Char) : Option (List Char) :=
  match litPrefix "```".toList s with
  | none => none
  | some r0 =>
    let (_alpha, r1) := takeWhileSplit Char.isAlpha r0
    let (wsr, r2) := takeWhileSplit isPyWs r1
    mdPick (tailsAfterNewline wsr).reverse r2

/-- `re.match(r"^([a-zA-Z]+)\s+", temp)`: the leading word when followed
by whitespace. -/
def firstWordMatch (s : List Char) : Option (List Char) :=
  let (w, r) := takeWhileSplit Char.isAlpha s
  if w = [] then none
  else
    match r with
    | [] => none
    | c :: _ => if isPyWs c then some w else none

/-- The `startswith` tuple check on the upper-cased candidate. -/
def looksLikeHead (prefixes : List String) (l : List Char) : Bool :=
  prefixes.any fun p => startsWithL p (upperL l)

/-- The tuple from `extract_sql_from_text`'s final gate. -/
def extractPrefixes : List String :=
  ["CREATE OR REPLACE TABLE", "SELECT", "INSERT", "UPDATE", "DELETE", "WITH"]

/-- The tuple used by the generator/enhancer raw-text fallback and final
shape gate. -/
def sqlStartPrefixes : List String :=
  ["CREATE OR REPLACE TABLE", "SELECT"]

/-- The markdown-stripping part of `extract_sql_from_text` (everything
before the final "looks like SQL" gate). -/
def extractCandidate (stripped : List Char) : List Char :=
  match mdBlockMatch stripped with
  | some body => stripChars body
  | none =>
    if startsWithL "```" stripped && endsWithL "```" stripped then
      let inner := stripped.drop 3
      let temp := stripChars (inner.take (inner.length - 3))
      match firstWordMatch temp with
      | some w =>
        let lang := w.map Char.toLower
        if lang = "sql".toList ∨ lang = "googlesql".toList ∨ lang = "bigquery".toList then
          (temp.drop lang.length).dropWhile isPyWs
        else temp
      | none => temp
    else stripped

/-- `GenAIClient.extract_sql_from_text(text_content)`. -/
def extract_sql_from_text (text_content : Option String) : Option String :=
  if ¬ pyTruthy text_content then none
  else
    let stripped := stripChars (text_content.getD "").toList
    let sql_query := extractCandidate stripped
    if looksLikeHead extractPrefixes sql_query then some ⟨sql_query⟩ else none

/-!
## Semantic Enhancer (`semantic_enhancer.py`)

The `GenAIClient.generate_content` call is abstracted to an oracle
`GenOutcome` (the text response, the error message and the finish-reason
name that the client wrapper returns for a `tools=None` call).
-/

structure GenOutcome where
  text : Option String
  error : Option String
  finishReasonName : Option String
  deriving Repr, DecidableEq

/-- The tail of `enhance_sql` after a candidate was obtained: programmatic
fixes, then the final shape gate (returns the original SQL with an error
when the gate fails). -/
def enhanceFinish (current_sql_query refined : String) : String × Option String :=
  let fixed := apply_programmatic_fixes refined
  if looksLikeHead sqlStartPrefixes fixed.toList then (fixed, none)
  else
    (current_sql_query,
      some ("Semantically enhanced SQL content after fixes does not appear to be a valid SQL query: "
        ++ ⟨fixed.toList.take 200⟩ ++ "..."))

/-- `SemanticEnhancer.enhance_sql(...)` with the generation call
abstracted to `G`; returns `(refined_or_original_sql, error_message)`. -/
def enhance_sql (G : GenOutcome) (current_sql_query : String)
    (destination_schema : Option String) (default_destination_schema : Option String) :
    String × Option String :=
  if ¬ pyTruthy (pyOrOpt destination_schema default_destination_schema) then
    (current_sql_query,
      some "No destination schema provided for semantic enhancement and no default schema loaded.")
  else if pyTruthy G.error then
    (current_sql_query, G.error)
  else if ¬ pyTruthy G.text then
    (current_sql_query, some "No text response received from GenAI for semantic SQL enhancement.")
  else
    let text := G.text.getD ""
    let extractErr := "Could not extract SQL from GenAI response for semantic enhancement. Finish Reason: "
      ++ G.finishReasonName.getD "UNKNOWN" ++ ". Response text: " ++ ⟨text.toList.take 500⟩ ++ "..."
    match extract_sql_from_text (some text) with
    | some refined => enhanceFinish current_sql_query refined
    | none =>
      if looksLikeHead sqlStartPrefixes (stripChars text.toList) then
        enhanceFinish current_sql_query ⟨stripChars text.toList⟩
      else (current_sql_query, some extractErr)

/-!
## Transformation Pipeline (`transformation_pipeline.py`)

`execute_pipeline` is embedded with its collaborators as oracles
(`Collab`): the generator, the BigQuery sample fetch, the enhancer, the
validator and the fixer may each return any value or raise (`Except`).
Validator and fixer behaviours are indexed by their call count, so a
theorem can quantify over "the validator reports invalid on every
attempt".  The embedding records in `PState` the argument of every
validator and fixer call (`vtrace` / `ftrace`), which is how call counts
and call arguments are observed; `clock` supplies the timestamp ticks.
-/

/-- Outcome of the best-effort sample fetch block: the BigQuery client
constructor may raise (before the "Fetching source data sample" log), the
query may raise (after it), or the query returns `n` rows (serialised to
`json`) or no rows. -/
inductive FetchOutcome where
  | clientError (e : String)
  | queryError (e : String)
  | rows (n : Nat) (json : String)
  | noRows

/-- The pipeline's collaborators. -/
structure Collab where
  generate : Except String (Option String × Option String)
  fetchSample : FetchOutcome
  enhance : String → String → List String → Except String (String × Option String)
  validate : Nat → String → Except String VRes
  fix : Nat → String → String → Except String (Option String × Option String)

/-- `TransformationPipeline.DEFAULT_MAX_FIX_ATTEMPTS`. -/
def DEFAULT_MAX_FIX_ATTEMPTS : Nat := 3

/-- Pipeline-side state: the task store, the timestamp tick, and the
traces of validator/fixer call arguments. -/
structure PState where
  store : TaskStore
  clock : Nat
  vtrace : List String
  ftrace : List String
  deriving Repr, DecidableEq

/-- `task_manager.add_task_log` from inside the pipeline. -/
def plog (tid msg : String) (ps : PState) : PState :=
  { ps with store := add_task_log ps.clock tid msg ps.store, clock := ps.clock + 1 }

/-- `task_manager.update_task_status` from inside the pipeline. -/
def pstatus (tid status : String) (result error : Option String) (ps : PState) : PState :=
  { ps with store := update_task_status ps.clock tid status result error ps.store
            clock := ps.clock + 1 }

/-- `str(n)` for the f-string status/log labels. -/
def natStr (n : Nat) : String := toString n

/-- Python `s[:n]`. -/
def pyTake (n : Nat) (s : String) : String := ⟨s.toList.take n⟩

/-- How the validation/fix `for` loop ends: early `return` after
`completed`, a raised exception, or normal exhaustion of `range` (the
latter is unreachable for `max_fix_attempts ≥ 0` but embedded since the
dead code after the loop exists in the source). -/
inductive LoopExit where
  | completed
  | raised (msg : String)
  | exhausted (lastError : Option String) (sql : String)
  deriving Repr, DecidableEq

/-- The body of `for attempt in range(max_fix_attempts + 1)` (source lines
167–194): `remaining` is the number of loop iterations left and `attempt`
the current 0-based index. -/
def valLoop (C : Collab) (tid : String) (maxFix : Nat) :
    Nat → Nat → Option String → String → PState → PState × LoopExit
  | 0, _, lastErr, sql, ps => (ps, .exhausted lastErr sql)
  | r + 1, attempt, _, sql, ps =>
    let ps := pstatus tid ("validating_sql_attempt_" ++ natStr (attempt + 1)) none none ps
    let ps := plog tid ("Step 4: " ++
      (if attempt = 0 then "Initial Validation" else "Validation Attempt " ++ natStr (attempt + 1))
      ++ ".") ps
    let k := ps.vtrace.length
    let ps := { ps with vtrace := ps.vtrace ++ [sql] }
    match C.validate k sql with
    | .error e => (ps, .raised e)
    | .ok v =>
      if v.valid then
        let ps := plog tid ("SQL validation successful. " ++ v.message.getD "") ps
        let ps := pstatus tid "completed" (some sql) none ps
        (ps, .completed)
      else
        let ed := v.error_message.getD "Unknown validation error"
        let ps := plog tid ("SQL validation failed: " ++ ed) ps
        if attempt ≥ maxFix then
          (ps, .raised ("Max fix attempts (" ++ natStr maxFix
            ++ ") reached. SQL remains invalid. Last error: " ++ ed))
        else
          let ps := pstatus tid ("fixing_sql_attempt_" ++ natStr (attempt + 1)) none none ps
          let ps := plog tid ("Step 5: Attempting SQL fix (Attempt " ++ natStr (attempt + 1)
            ++ "/" ++ natStr maxFix ++ "). Error: " ++ pyTake 100 ed ++ "...") ps
          let kf := ps.ftrace.length
          let ps := { ps with ftrace := ps.ftrace ++ [sql] }
          match C.fix kf sql ed with
          | .error e => (ps, .raised e)
          | .ok (fixedSql, fixErr) =>
            if pyTruthy fixErr || !(pyTruthy fixedSql) then
              (ps, .raised ("SQL fixing attempt " ++ natStr (attempt + 1) ++ " failed: "
                ++ pyOr fixErr "No SQL returned by fixer"))
            else
              let fixed := fixedSql.getD ""
              let ps := plog tid ("SQL fix attempt " ++ natStr (attempt + 1)
                ++ " applied (preview: " ++ pyTake 100 fixed ++ "...).") ps
              valLoop C tid maxFix r (attempt + 1) (some ed) fixed ps

/-- The sample-fetch block (source lines 113–135): returns the sample JSON
threaded to the enhancement step, with its logging. -/
def fetchBlock (C : Collab) (tid srcTable : String)
    (source_data_sample_json : Option String) (ps : PState) : Option String × PState :=
  if pyTruthy source_data_sample_json then (source_data_sample_json, ps)
  else
    let ps := plog tid
      "Source data sample not provided by caller, attempting to fetch from BigQuery." ps
    match C.fetchSample with
    | .clientError e =>
      (none, plog tid ("WARNING: Failed to fetch source data sample: " ++ e) ps)
    | .queryError e =>
      let ps := plog tid ("Fetching source data sample with query: SELECT * FROM `"
        ++ srcTable ++ "` LIMIT 3") ps
      (none, plog tid ("WARNING: Failed to fetch source data sample: " ++ e) ps)
    | .rows n json =>
      let ps := plog tid ("Fetching source data sample with query: SELECT * FROM `"
        ++ srcTable ++ "` LIMIT 3") ps
      if n ≠ 0 then
        (some json, plog tid ("Successfully fetched " ++ natStr n
          ++ " sample rows from source table.") ps)
      else
        (none, plog tid
          "No rows returned from source data sample query. Semantic enhancement might be skipped or limited." ps)
    | .noRows =>
      let ps := plog tid ("Fetching source data sample with query: SELECT * FROM `"
        ++ srcTable ++ "` LIMIT 3") ps
      (none, plog tid
        "No rows returned from source data sample query. Semantic enhancement might be skipped or limited." ps)

/-- Python `repr` of a list of strings, as interpolated into the
"Defaulted critical fields found" and "Step 3" log lines. -/
def pyReprList (l : List String) : String :=
  "[" ++ String.intercalate ", " (l.map fun s => "\x27" ++ s ++ "\x27") ++ "]"

/-- The enhancement block (source lines 137–164): returns the state and
either the (possibly updated) `current_sql` or the exception message a
raising enhancer sends to the boundary. -/
def enhanceBlock (C : Collab) (tid : String) (sql : String)
    (fetched : Option String) (critical_fields : Option (List String))
    (ps : PState) : PState × Except String String :=
  if pyTruthy fetched then
    let ps := pstatus tid "analyzing_for_semantic_enhancement" none none ps
    let ps := plog tid "Step 2: Identifying fields for semantic refinement." ps
    let fieldsToCheck := critical_fields.getD DEFAULT_CRITICAL_FIELDS
    let defaulted := identify_defaulted_fields sql (some fieldsToCheck)
    let ps := plog tid ("Defaulted critical fields found: "
      ++ (if defaulted ≠ [] then pyReprList defaulted else "None") ++ ".") ps
    if defaulted ≠ [] then
      let ps := pstatus tid "performing_semantic_enhancement" none none ps
      let ps := plog tid ("Step 3: Performing semantic enhancement for: "
        ++ pyReprList defaulted ++ ".") ps
      match C.enhance sql (fetched.getD "") defaulted with
      | .error e => (ps, .error e)
      | .ok (enhanced, enhErr) =>
        if pyTruthy enhErr then
          (plog tid ("WARNING: Semantic enhancement issue: " ++ enhErr.getD ""
            ++ ". Continuing with previous SQL.") ps, .ok enhanced)
        else
          (plog tid ("Semantic enhancement applied (preview: "
            ++ pyTake 100 enhanced ++ "...).") ps, .ok enhanced)
    else
      (plog tid
        "Skipping semantic enhancement: No critical fields identified as needing refinement." ps,
       .ok sql)
  else
    (plog tid
      "Skipping semantic enhancement: No source data sample could be provided or fetched." ps,
     .ok sql)

/-- The loop exit processed by the code after the `for` (source lines
196–202): `completed` already returned, `raised` propagates, and normal
exhaustion writes `failed_validation_final_sql_available` (dead code for
`max_fix_attempts ≥ 0`; reaching it with no bound `error_detail` would be
a Python `NameError`). -/
def loopAftermath (tid : String) (maxFix : Nat) :
    PState × LoopExit → PState × Option String
  | (ps, .completed) => (ps, none)
  | (ps, .raised e) => (ps, some e)
  | (ps, .exhausted lastErr sql) =>
    match lastErr with
    | none => (ps, some "name \x27error_detail\x27 is not defined")
    | some ed =>
      let femsg := "Max fix attempts (" ++ natStr maxFix
        ++ ") reached. SQL remains invalid. Last error: " ++ ed
      let ps := plog tid ("ERROR: " ++ femsg) ps
      let ps := pstatus tid "failed_validation_final_sql_available" (some sql) (some ed) ps
      (ps, none)

/-- The validation/fix loop plus the post-loop code, as entered with the
current SQL (source lines 166–202). -/
def pipelineLoopPart (C : Collab) (tid : String) (maxFix : Nat) (sql : String)
    (ps : PState) : PState × Option String :=
  loopAftermath tid maxFix (valLoop C tid maxFix (maxFix + 1) 0 none sql ps)

/-- Source lines 110–202: everything after a successful initial SQL
generation. -/
def pipelineAfterGen (C : Collab) (tid srcTable : String)
    (source_data_sample_json : Option String)
    (critical_fields : Option (List String)) (maxFix : Nat) (sql : String)
    (ps : PState) : PState × Option String :=
  let ps := plog tid ("Initial SQL generated (preview: " ++ pyTake 100 sql ++ "...).") ps
  let (fetched, ps) := fetchBlock C tid srcTable source_data_sample_json ps
  match enhanceBlock C tid sql fetched critical_fields ps with
  | (ps, .error e) => (ps, some e)
  | (ps, .ok sql) => pipelineLoopPart C tid maxFix sql ps

/-- The `try:` body of `execute_pipeline` (source lines 98–202); returns
the state and `some message` when an exception reaches the boundary. -/
def pipelineTry (C : Collab) (tid srcTable : String)
    (source_data_sample_json : Option String)
    (critical_fields : Option (List String)) (maxFix : Nat)
    (ps : PState) : PState × Option String :=
  let ps := pstatus tid "generating_initial_sql" none none ps
  let ps := plog tid "Step 1: Generating initial SQL." ps
  match C.generate with
  | .error e => (ps, some e)
  | .ok (sqlOpt, genErr) =>
    if ¬ pyTruthy sqlOpt then
      (ps, some ("Initial SQL generation failed: " ++ pyOr genErr "No SQL returned"))
    else
      pipelineAfterGen C tid srcTable source_data_sample_json critical_fields maxFix
        (sqlOpt.getD "") ps

/-- `TransformationPipeline.execute_pipeline(task_id, ...)` (source lines
61–208).  `default_destination_schema` is the value `SchemaLoader` put on
the pipeline object; schemas are abstracted to their truthiness-bearing
rendering. -/
def execute_pipeline (C : Collab) (default_destination_schema : Option String)
    (tid srcTable dstTable : String)
    (destination_schema : Option String)
    (source_data_sample_json : Option String)
    (critical_fields : Option (List String))
    (maxFix : Nat) (ps : PState) : PState :=
  let ps := plog tid ("SQL Transformation Pipeline started for " ++ srcTable
    ++ " to " ++ dstTable ++ ".") ps
  let ps := pstatus tid "pipeline_started" none none ps
  let schema := pyOrOpt destination_schema default_destination_schema
  if ¬ pyTruthy schema then
    let msg := "No destination schema available."
    let ps := plog tid ("ERROR: " ++ msg) ps
    pstatus tid "failed" none (some msg) ps
  else
    match pipelineTry C tid srcTable source_data_sample_json critical_fields maxFix ps with
    | (ps, none) => ps
    | (ps, some e) =>
      let ps := plog tid ("FATAL ERROR in pipeline: " ++ e) ps
      pstatus tid "failed" none (some e) ps

/-!
### Concrete collaborator fixtures (for closed evaluations)
-/

/-- A collaborator assembly whose validator reports `invalid` on every
attempt (error text `boom`) and whose fixer always returns a usable SQL
string. -/
def cAlwaysInvalid : Collab :=
  { generate := .ok (some "SELECT 1", none)
    fetchSample := .noRows
    enhance := fun s _ _ => .ok (s, none)
    validate := fun _ _ => .ok
      { valid := false
        message := some "SQL validation failed."
        error_message := some "boom"
        details := none }
    fix := fun k _ _ => .ok (some ("FIX" ++ natStr k), none) }

/-- Like `cAlwaysInvalid` but the generator raises an exception whose
`str` is empty. -/
def cRaiseEmpty : Collab :=
  { cAlwaysInvalid with generate := .error "" }

/-- A pipeline state holding one freshly initialized task `t1`. -/
def psInit : PState :=
  { store := init_task 0 "t1" "sql_generation" none []
    clock := 1
    vtrace := []
    ftrace := [] }

/-- Observer: the exception message that reaches the `except` boundary of
`execute_pipeline`, if any (the pre-`try` part and the missing-schema path
raise nothing). -/
def pipelineRaised (C : Collab) (default_destination_schema : Option String)
    (tid srcTable dstTable : String)
    (destination_schema : Option String)
    (source_data_sample_json : Option String)
    (critical_fields : Option (List String))
    (maxFix : Nat) (ps : PState) : Option String :=
  let ps := plog tid ("SQL Transformation Pipeline started for " ++ srcTable
    ++ " to " ++ dstTable ++ ".") ps
  let ps := pstatus tid "pipeline_started" none none ps
  let schema := pyOrOpt destination_schema default_destination_schema
  if ¬ pyTruthy schema then none
  else (pipelineTry C tid srcTable source_data_sample_json critical_fields maxFix ps).2

/-- Observer: the candidate SQL that `enhance_sql` subjects to the
programmatic fixes and the final shape gate (the extraction result, or the
raw-text fallback of source lines 201–211), when one exists. -/
def enhanceCandidate (G : GenOutcome) : Option String :=
  match extract_sql_from_text G.text with
  | some r => some r
  | none =>
    if looksLikeHead sqlStartPrefixes (stripChars (G.text.getD "").toList) then
      some ⟨stripChars (G.text.getD "").toList⟩
    else none

/-- The "Could not extract SQL" error message of `enhance_sql`. -/
def enhanceExtractErr (G : GenOutcome) : String :=
  "Could not extract SQL from GenAI response for semantic enhancement. Finish Reason: "
    ++ G.finishReasonName.getD "UNKNOWN" ++ ". Response text: "
    ++ ⟨(G.text.getD "").toList.take 500⟩ ++ "..."

/-- A failing text-generation outcome (the collaborator returned an
error). -/
def gWitness : GenOutcome :=
  { text := none, error := some "LLM down", finishReasonName := none }

/-- A collaborator assembly whose enhancer is the embedded `enhance_sql`
over `gWitness` (so enhancement fails and returns the original SQL). -/
def cEnhWitness : Collab :=
  { cAlwaysInvalid with
    generate := .ok (some "SELECT NULL AS name FROM t", none)
    enhance := fun s _ _ => Except.ok (enhance_sql gWitness s (some "s") none) }

-- ### Embedded regex machinery for `_apply_programmatic_fixes` (claim C4)

/-- Pointwise case-insensitive match of a text chunk against a literal
pattern (pattern char first in `ciEqChar`, as in `ciPrefix`). -/
def ciMatch : List Char → List Char → Bool
  | [], [] => true
  | c :: cs, p :: ps => ciEqChar p c && ciMatch cs ps
  | _, _ => false

/-- Entirely regex whitespace (possibly empty, a `\s*` segment). -/
def IsWs (w : List Char) : Prop := w.all isPyWs = true

/-- Nonempty whitespace chunk (a `\s+` segment). -/
def IsWs1 (w : List Char) : Prop := w ≠ [] ∧ w.all isPyWs = true

/-- The chunk case-insensitively spells the literal `pat`. -/
def IsCi (k : List Char) (pat : String) : Prop := ciMatch k pat.toList = true

/-- Backtick-free chunk (the regex class excluding the backtick). -/
def NonB (g : List Char) : Prop := g.all (fun c => !(c == btick)) = true

/-- `r` is empty or starts with a character failing `f`. -/
def HeadNot (f : Char → Bool) : List Char → Prop
  | [] => True
  | c :: _ => f c = false

/-- Body of a pattern-1 match with captured group `g`. -/
def IsM1 (m g : List Char) : Prop :=
  ∃ k1 w1 k2 w2 k3 w3 k4 w4 w5 k5,
    m = k1 ++ w1 ++ k2 ++ w2 ++ k3 ++ w3 ++ k4 ++ w4 ++
      btick :: (g ++ btick :: (w5 ++ k5)) ∧
    IsCi k1 "CREATE" ∧ IsWs1 w1 ∧ IsCi k2 "OR" ∧ IsWs1 w2 ∧ IsCi k3 "REPLACE" ∧
    IsWs1 w3 ∧ IsCi k4 "TABLE" ∧ IsWs w4 ∧ g ≠ [] ∧ NonB g ∧ IsWs w5 ∧ IsCi k5 "AS"

/-- Group 1 of a pattern-2 match. -/
def IsG2 (k : List Char) : Prop :=
  ∃ k1 w1 k2 w2 k3 w3 k4,
    k = k1 ++ w1 ++ k2 ++ w2 ++ k3 ++ w3 ++ k4 ∧
    IsCi k1 "CREATE" ∧ IsWs1 w1 ∧ IsCi k2 "OR" ∧ IsWs1 w2 ∧ IsCi k3 "REPLACE" ∧
    IsWs1 w3 ∧ IsCi k4 "TABLE"

/-- Group 1 of a pattern-3 match. -/
def IsG3 (g : List Char) : Prop :=
  ∃ kAS w2 kSel, g = kAS ++ w2 ++ kSel ∧ IsCi kAS "AS" ∧ IsWs1 w2 ∧ IsCi kSel "SELECT"

/-- No suffix of `d ++ q` that starts inside `d` matches pattern 1. -/
def tailsFail1 : List Char → List Char → Prop
  | [], _ => True
  | c :: d, q => tryM1 (c :: (d ++ q)) = none ∧ tailsFail1 d q

/-- No suffix of `d ++ q` that starts inside `d` matches pattern 2. -/
def tailsFail2 : List Char → List Char → Prop
  | [], _ => True
  | c :: d, q => tryM2 (c :: (d ++ q)) = none ∧ tailsFail2 d q

/-- Scanning `d ++ q` with incoming look-behind `p`, no position inside
`d` fires pattern 3. -/
def tailsFail3 : Option Char → List Char → List Char → Prop
  | _, [], _ => True
  | p, c :: d, q =>
    (p = some btick → tryM3 (c :: (d ++ q)) = none) ∧ tailsFail3 (some c) d q

/-- Invariant: the leftmost pattern-1 match, if any, is already canonical,
so `sub1` leaves the string unchanged. -/
def Hyp1 (x : List Char) : Prop :=
  tailsFail1 x [] ∨
  ∃ d g r, x = d ++ (canon1 g ++ r) ∧ g ≠ [] ∧ NonB g ∧ tailsFail1 d (canon1 g ++ r)

/-- Invariant: the leftmost pattern-2 match, if any, already has a single
space before its look-ahead backtick, so `sub2` leaves the string
unchanged. -/
def Hyp2 (x : List Char) : Prop :=
  tailsFail2 x [] ∨
  ∃ d k z, x = d ++ (k ++ ' ' :: btick :: z) ∧ IsG2 k ∧
    tailsFail2 d (k ++ ' ' :: btick :: z)

/-- Look-behind after scanning `a` from incoming look-behind `p`. -/
def prevAfter (p : Option Char) (a : List Char) : Option Char :=
  match a.getLast? with
  | some c => some c
  | none => p

/-- Invariant: the leftmost pattern-3 site (scanning with no incoming
look-behind), if any, already has a single space after its backtick. -/
def Hyp3 (x : List Char) : Prop :=
  tailsFail3 none x [] ∨
  ∃ a g3 r, x = a ++ (' ' :: (g3 ++ r)) ∧ (∃ a2, a = a2 ++ [btick]) ∧ IsG3 g3 ∧
    tailsFail3 none a (' ' :: (g3 ++ r))

@[simp] theorem lookupTask_setTask_self (st : TaskStore) (id : String) (t : Task) :
    lookupTask (setTask st id t) id = some t := by
  induction st with
  | nil => simp [setTask, lookupTask]
  | cons kv rest ih =>
    obtain ⟨k, v⟩ := kv
    by_cases h : k = id <;> simp [setTask, lookupTask, h, ih]

theorem lookupTask_setTask_ne (st : TaskStore) (id id' : String) (t : Task)
    (h : id ≠ id') : lookupTask (setTask st id' t) id = lookupTask st id := by
  induction st with
  | nil => simp [setTask, lookupTask]; exact fun hh => h hh.symm
  | cons kv rest ih =>
    obtain ⟨k, v⟩ := kv
    by_cases hk : k = id' <;> by_cases hk2 : k = id <;>
      simp_all [setTask, lookupTask]

theorem lookupTask_add_task_log_map {α : Type} (f : Task → α)
    (hf : ∀ t logs, f { t with logs := logs } = f t)
    (now : Nat) (i m : String) (st : TaskStore) (j : String) :
    (lookupTask (add_task_log now i m st) j).map f = (lookupTask st j).map f := by
  unfold add_task_log
  cases h : lookupTask st i with
  | none => rfl
  | some t =>
    by_cases hij : j = i
    · subst hij; rw [lookupTask_setTask_self, h]; simp [hf]
    · rw [lookupTask_setTask_ne _ _ _ _ hij]

theorem lookupTask_add_task_log_result (now : Nat) (i m : String)
    (st : TaskStore) (j : String) :
    (lookupTask (add_task_log now i m st) j).map Task.result
      = (lookupTask st j).map Task.result :=
  lookupTask_add_task_log_map Task.result (fun _ _ => rfl) now i m st j

theorem lookupTask_add_task_log_status (now : Nat) (i m : String)
    (st : TaskStore) (j : String) :
    (lookupTask (add_task_log now i m st) j).map Task.status
      = (lookupTask st j).map Task.status :=
  lookupTask_add_task_log_map Task.status (fun _ _ => rfl) now i m st j

theorem lookupTask_add_task_log_error (now : Nat) (i m : String)
    (st : TaskStore) (j : String) :
    (lookupTask (add_task_log now i m st) j).map Task.error
      = (lookupTask st j).map Task.error :=
  lookupTask_add_task_log_map Task.error (fun _ _ => rfl) now i m st j

/-- After `update_task_status` on a present id, the stored `result` is the
argument when it `is not None`, and the previous value otherwise. -/
theorem update_result_eq (now : Nat) (id status : String)
    (result error : Option String) (st : TaskStore) (t : Task)
    (h : lookupTask st id = some t) :
    (lookupTask (update_task_status now id status result error st) id).map Task.result
      = some (match result with | some r => some r | none => t.result) := by
  unfold update_task_status
  rw [h]
  rw [lookupTask_add_task_log_result]
  by_cases he : pyTruthy error
  · rw [if_pos he, lookupTask_add_task_log_result, lookupTask_setTask_self]
    cases result <;> rfl
  · rw [if_neg he]
    by_cases hc : status ≠ "failed" ∧
        (match result with
          | some r => { t with status := status, updated_at := now, result := some r }
          | none => { t with status := status, updated_at := now }).error ≠ none
    · rw [if_pos hc, lookupTask_add_task_log_result, lookupTask_setTask_self]
      cases result <;> rfl
    · rw [if_neg hc, lookupTask_setTask_self]
      cases result <;> rfl

/-- After `update_task_status` on a present id, the stored `status` is the
new status. -/
theorem update_status_eq (now : Nat) (id status : String)
    (result error : Option String) (st : TaskStore) (t : Task)
    (h : lookupTask st id = some t) :
    (lookupTask (update_task_status now id status result error st) id).map Task.status
      = some status := by
  unfold update_task_status
  rw [h]
  rw [lookupTask_add_task_log_status]
  by_cases he : pyTruthy error
  · rw [if_pos he, lookupTask_add_task_log_status, lookupTask_setTask_self]
    cases result <;> rfl
  · rw [if_neg he]
    by_cases hc : status ≠ "failed" ∧
        (match result with
          | some r => { t with status := status, updated_at := now, result := some r }
          | none => { t with status := status, updated_at := now }).error ≠ none
    · rw [if_pos hc, lookupTask_add_task_log_status, lookupTask_setTask_self]
      cases result <;> rfl
    · rw [if_neg hc, lookupTask_setTask_self]
      cases result <;> rfl

/-- After `update_task_status` on a present id with a truthy error, the
stored `error` is that error. -/
theorem update_error_eq (now : Nat) (id status : String)
    (result error : Option String) (st : TaskStore) (t : Task)
    (h : lookupTask st id = some t) (he : pyTruthy error) :
    (lookupTask (update_task_status now id status result error st) id).map Task.error
      = some error := by
  unfold update_task_status
  rw [h]
  rw [lookupTask_add_task_log_error, if_pos he, lookupTask_add_task_log_error,
    lookupTask_setTask_self]
  cases result <;> rfl

/-- `update_task_status` on one id does not touch another id's record. -/
theorem update_other_id (now : Nat) (id id' status : String)
    (result error : Option String) (st : TaskStore) (h : id ≠ id') :
    lookupTask (update_task_status now id' status result error st) id
      = lookupTask st id := by
  unfold update_task_status
  cases ht : lookupTask st id' with
  | none => rfl
  | some t =>
    have hlog : ∀ m st', lookupTask (add_task_log now id' m st') id = lookupTask st' id := by
      intro m st'
      unfold add_task_log
      cases h2 : lookupTask st' id' with
      | none => rfl
      | some u => rw [lookupTask_setTask_ne _ _ _ _ h]
    rw [hlog]
    by_cases he : pyTruthy error
    · rw [if_pos he, hlog, lookupTask_setTask_ne _ _ _ _ h]
    · rw [if_neg he]
      by_cases hc : status ≠ "failed" ∧
          (match result with
            | some r => { t with status := status, updated_at := now, result := some r }
            | none => { t with status := status, updated_at := now }).error ≠ none
      · rw [if_pos hc, hlog, lookupTask_setTask_ne _ _ _ _ h]
      · rw [if_neg hc, lookupTask_setTask_ne _ _ _ _ h]

/-- `add_task_log` on one id does not touch another id's record. -/
theorem add_task_log_other_id (now : Nat) (id id' m : String)
    (st : TaskStore) (h : id ≠ id') :
    lookupTask (add_task_log now id' m st) id = lookupTask st id := by
  unfold add_task_log
  cases h2 : lookupTask st id' with
  | none => rfl
  | some u => rw [lookupTask_setTask_ne _ _ _ _ h]

/-- Claim C6 fails as stated: on a fresh id, `init_task` does not leave an
empty `logs` sequence — it immediately appends the initialization entry
(`task_manager.py` line 55 calls `add_task_log` before returning). -/
theorem claim_C6_counterexample :
    (lookupTask (init_task 0 "t1" "sql_generation" none []) "t1").map Task.logs
        = some [(0, "Task initialized. Type: sql_generation. Inputs: N/A")] ∧
      ¬ (lookupTask (init_task 0 "t1" "sql_generation" none []) "t1").map Task.logs
        = some [] := by
  constructor
  · rfl
  · intro h
    simp only [init_task, add_task_log, lookupTask_setTask_self, setTask,
      lookupTask] at h
    cases h

/-- Claim C6 (amended): after `init_task(taskId, taskType, inputDetails)`
on a fresh task id, the stored record has status `received`, result null,
error null, and its logs hold exactly the single initialization entry. -/
theorem claim_C6_amended (now : Nat) (id ttype : String)
    (details : Option String) (st : TaskStore)
    (h : lookupTask st id = none) :
    lookupTask (init_task now id ttype details st) id =
      some { task_id := id
             task_type := ttype
             status := "received"
             input_details := pyOr details ""
             result := none
             error := none
             created_at := now
             updated_at := now
             logs := [(now, initLogMsg ttype details)] } := by
  simp only [init_task, add_task_log, lookupTask_setTask_self, List.nil_append]

theorem claim_C6_amended_witness :
    lookupTask [] "t9" = none ∧
      lookupTask (init_task 7 "t9" "sql_generation" (some "src to dst") []) "t9" =
        some { task_id := "t9"
               task_type := "sql_generation"
               status := "received"
               input_details := pyOr (some "src to dst") ""
               result := none
               error := none
               created_at := 7
               updated_at := 7
               logs := [(7, initLogMsg "sql_generation" (some "src to dst"))] } :=
  ⟨rfl, claim_C6_amended 7 "t9" "sql_generation" (some "src to dst") [] rfl⟩

/-- Claim C7: on a task id absent from the store, `update_task_status` and
`add_task_log` return with the store entirely unchanged (so in particular
no record is created for the unknown id, and nothing is raised — the
embedding is a total function). -/
theorem claim_C7 (now : Nat) (id status msg : String)
    (result error : Option String) (st : TaskStore)
    (h : lookupTask st id = none) :
    update_task_status now id status result error st = st ∧
      add_task_log now id msg st = st := by
  constructor
  · unfold update_task_status; rw [h]
  · unfold add_task_log; rw [h]

theorem claim_C7_witness :
    update_task_status 3 "ghost" "completed" (some "SELECT 1") (some "e") [] = [] ∧
      add_task_log 3 "ghost" "hello" [] = [] :=
  claim_C7 3 "ghost" "completed" "hello" (some "SELECT 1") (some "e") [] rfl

/-- Claim C10: (i) `update_task_status` called with `result = None` on a
present task id leaves the stored `result` unchanged; (ii) once a task's
`result` is non-null, no sequence of `update_task_status` / `add_task_log`
calls (on any ids) ever makes it null again. -/
theorem claim_C10 :
    (∀ now id status error st t, lookupTask st id = some t →
      (lookupTask (update_task_status now id status none error st) id).map Task.result
        = some t.result) ∧
    (∀ st id t r ops, lookupTask st id = some t → t.result = some r →
      ∃ t2 r2, lookupTask (applyTMOps ops st) id = some t2 ∧ t2.result = some r2) := by
  constructor
  · intro now id status error st t h
    rw [update_result_eq now id status none error st t h]
  · intro st id t r ops h hr
    induction ops generalizing st t r with
    | nil => exact ⟨t, r, h, hr⟩
    | cons op rest ih =>
      have step : ∃ t' r', lookupTask (applyTMOp st op) id = some t' ∧
          t'.result = some r' := by
        cases op with
        | upd now id' status result error =>
          by_cases hid : id = id'
          · subst hid
            cases result with
            | none =>
              have hm := update_result_eq now id status none error st t h
              cases hlk : lookupTask (update_task_status now id status none error st) id with
              | none => rw [hlk] at hm; cases hm
              | some t' =>
                rw [hlk] at hm
                have h2 : t'.result = t.result := by simpa using hm
                exact ⟨t', r, hlk, by rw [h2, hr]⟩
            | some r2 =>
              have hm := update_result_eq now id status (some r2) error st t h
              cases hlk : lookupTask (update_task_status now id status (some r2) error st) id with
              | none => rw [hlk] at hm; cases hm
              | some t' =>
                rw [hlk] at hm
                exact ⟨t', r2, hlk, by simpa using hm⟩
          · refine ⟨t, r, ?_, hr⟩
            show lookupTask (update_task_status now id' status result error st) id = some t
            rw [update_other_id now id id' status result error st hid]
            exact h
        | log now id' msg =>
          by_cases hid : id = id'
          · subst hid
            have hm := lookupTask_add_task_log_result now id msg st id
            rw [h] at hm
            cases hlk : lookupTask (add_task_log now id msg st) id with
            | none => rw [hlk] at hm; cases hm
            | some t' =>
              rw [hlk] at hm
              have h2 : t'.result = t.result := by simpa using hm
              exact ⟨t', r, hlk, by rw [h2, hr]⟩
          · refine ⟨t, r, ?_, hr⟩
            show lookupTask (add_task_log now id' msg st) id = some t
            rw [add_task_log_other_id now id id' msg st hid]
            exact h
      obtain ⟨t', r', hl, hr'⟩ := step
      exact ih (applyTMOp st op) t' r' hl hr'

/-- Claim C8: a blank SQL script is immediately invalid with a descriptive
message and the verdict is independent of the dry-run collaborator (no
external call is made); and any unexpected exception kind from the
collaborator yields `valid = false` carrying the exception's class name
(in `message`/`details`) and its message (in `error_message`) instead of
escaping. -/
theorem claim_C8 (sql : String) (t : Nat) :
    (sql = "" ∨ pyStrip sql = "" →
      (∀ dr, validate_sql_dry_run dr sql t =
        { valid := false
          message := some "SQL script is empty."
          error_message := some "SQL script is empty."
          details := none }) ∧
      (∀ dr dr', validate_sql_dry_run dr sql t = validate_sql_dry_run dr' sql t)) ∧
    (¬ (sql = "" ∨ pyStrip sql = "") →
      ∀ tname m, validate_sql_dry_run (.otherExc tname m) sql t =
        { valid := false
          message := some ("An unexpected error occurred during SQL validation: "
            ++ tname ++ ".")
          error_message := some m
          details := some (.otherD tname) }) := by
  constructor
  · intro hblank
    constructor
    · intro dr
      unfold validate_sql_dry_run
      rw [if_pos hblank]
    · intro dr dr'
      unfold validate_sql_dry_run
      rw [if_pos hblank, if_pos hblank]
  · intro hnb tname m
    unfold validate_sql_dry_run
    rw [if_neg hnb]

theorem claim_C8_witness :
    (∀ dr, validate_sql_dry_run dr "   " 30 =
      { valid := false
        message := some "SQL script is empty."
        error_message := some "SQL script is empty."
        details := none }) ∧
    validate_sql_dry_run (.otherExc "TimeoutError" "deadline exceeded") "SELECT 1" 30 =
      { valid := false
        message := some "An unexpected error occurred during SQL validation: TimeoutError."
        error_message := some "deadline exceeded"
        details := some (.otherD "TimeoutError") } :=
  ⟨((claim_C8 "   " 30).1 (Or.inr (by decide))).1,
   (claim_C8 "SELECT 1" 30).2 (by decide) "TimeoutError" "deadline exceeded"⟩

theorem isPrefixOf_append_self (l t : List Char) : l.isPrefixOf (l ++ t) = true := by
  induction l with
  | nil => simp [List.isPrefixOf]
  | cons c cs ih => simp [List.isPrefixOf, ih]

theorem getLast?_cons_ne_none (x : Char) (xs : List Char) :
    (x :: xs).getLast? ≠ none := by
  induction xs generalizing x with
  | nil => simp [List.getLast?]
  | cons y ys ih => rw [List.getLast?_cons_cons]; exact ih y

theorem getLast?_cons (c : Char) (a : List Char) :
    (c :: a).getLast? = (a.getLast?.orElse fun _ => some c) := by
  cases a with
  | nil => rfl
  | cons x xs =>
    rw [List.getLast?_cons_cons]
    cases h : (x :: xs).getLast? with
    | none => exact absurd h (getLast?_cons_ne_none x xs)
    | some y => rfl

theorem wbHere_cons (p0 pl : Char) (pr : List Char) (prev : Option Char)
    (s : List Char) (hlast : (p0 :: pr).getLast? = some pl) :
    wbHere (p0 :: pr) prev s =
      ((p0 :: pr).isPrefixOf s && (isWordOpt prev != isWordChar p0)
        && (isWordOpt (s.drop (p0 :: pr).length).head? != isWordChar pl)) := by
  unfold wbHere
  rw [List.head?_cons, hlast]

/-- Completeness of the word-bounded scanner: an occurrence of the pattern
with non-matching word-ness on both sides is found. -/
theorem wbScan_complete (p0 pl : Char) (pr b : List Char)
    (hlast : (p0 :: pr).getLast? = some pl) :
    ∀ (a : List Char) (prev : Option Char),
      isWordOpt (a.getLast?.orElse fun _ => prev) ≠ isWordChar p0 →
      isWordOpt b.head? ≠ isWordChar pl →
      wbScan (p0 :: pr) prev (a ++ (p0 :: pr) ++ b) = true := by
  intro a
  induction a with
  | nil =>
    intro prev hL hR
    simp only [List.getLast?_nil, Option.orElse] at hL
    have hhere : wbHere (p0 :: pr) prev (p0 :: (pr ++ b)) = true := by
      rw [wbHere_cons p0 pl pr prev _ hlast]
      rw [show p0 :: (pr ++ b) = (p0 :: pr) ++ b from rfl]
      rw [isPrefixOf_append_self]
      rw [List.drop_left]
      simp only [Bool.and_eq_true, bne_iff_ne]
      exact ⟨⟨trivial, hL⟩, hR⟩
    show wbScan (p0 :: pr) prev (p0 :: (pr ++ b)) = true
    simp only [wbScan]
    rw [hhere]
    simp
  | cons c a' ih =>
    intro prev hL hR
    have hmid : wbScan (p0 :: pr) (some c) (a' ++ (p0 :: pr) ++ b) = true := by
      apply ih (some c) _ hR
      rw [getLast?_cons] at hL
      cases hal : a'.getLast? with
      | none => rw [hal] at hL; simpa using hL
      | some y => rw [hal] at hL; simpa using hL
    show wbScan (p0 :: pr) prev (c :: (a' ++ (p0 :: pr) ++ b)) = true
    simp only [wbScan]
    rw [hmid]
    simp

/-- Claim C9, first half: if the lower-cased SQL contains `null as name`
delimited by word boundaries (in particular if the SQL contains the
standalone phrase `NULL AS name`), then
`identify_defaulted_fields(sql, ["name"])` returns exactly `["name"]`;
second half: if none of the seven placeholder-default patterns for `name`
occurs word-bounded in the lower-cased SQL (e.g. when the field's only
mapping is `source.name AS name`), it returns `[]`. -/
theorem claim_C9 :
    (∀ (s : String) (a b : List Char),
      s.toList.map Char.toLower = a ++ "null as name".toList ++ b →
      isWordOpt a.getLast? = false →
      isWordOpt b.head? = false →
      identify_defaulted_fields s (some ["name"]) = ["name"]) ∧
    (∀ s : String,
      containsSub "source.name as name".toList (s.toList.map Char.toLower) = true →
      (∀ pat ∈ directChecks "name".toList, wbScan pat none (s.toList.map Char.toLower) = false) →
      identify_defaulted_fields s (some ["name"]) = []) := by
  constructor
  · intro s a b hdecomp hL hR
    have hne : ¬ s = "" := by
      intro h0
      subst h0
      have h2 : ([] : List Char) = a ++ "null as name".toList ++ b := by
        simpa using hdecomp
      simp at h2
    have hscan : wbScan "null as name".toList none (s.toList.map Char.toLower) = true := by
      rw [hdecomp]
      rw [show "null as name".toList = 'n' :: "ull as name".toList from rfl]
      apply wbScan_complete 'n' 'e' "ull as name".toList b (by decide) a none
      · have ho : (a.getLast?.orElse fun _ => (none : Option Char)) = a.getLast? := by
          cases a.getLast? <;> rfl
        rw [ho, hL]
        decide
      · rw [hR]; decide
    have hfd : fieldDefaulted (s.toList.map Char.toLower) "name" = true := by
      unfold fieldDefaulted
      rw [if_neg (by decide)]
      show (directChecks ("name".toList.map Char.toLower)).any
        (fun pat => wbScan pat none (s.toList.map Char.toLower)) = true
      rw [show directChecks ("name".toList.map Char.toLower)
            = "null as name".toList :: (directChecks "name".toList).tail from by decide]
      rw [List.any_cons, hscan]
      simp
    unfold identify_defaulted_fields
    rw [if_neg hne]
    show (List.filter (fun f => fieldDefaulted (s.toList.map Char.toLower) f)
      ["name"]).eraseDups = ["name"]
    rw [List.filter_cons, hfd, List.filter_nil, if_pos (by trivial)]
    decide
  · intro s hsrc hnone
    have hfd : fieldDefaulted (s.toList.map Char.toLower) "name" = false := by
      unfold fieldDefaulted
      rw [if_neg (by decide)]
      show (directChecks ("name".toList.map Char.toLower)).any
        (fun pat => wbScan pat none (s.toList.map Char.toLower)) = false
      rw [show directChecks ("name".toList.map Char.toLower)
            = directChecks "name".toList from by decide]
      rw [List.any_eq_false]
      intro pat hpat
      rw [hnone pat hpat]
      simp
    unfold identify_defaulted_fields
    by_cases hne : s = ""
    · rw [if_pos hne]
    · rw [if_neg hne]
      show (List.filter (fun f => fieldDefaulted (s.toList.map Char.toLower) f)
        ["name"]).eraseDups = []
      rw [List.filter_cons, hfd, List.filter_nil, if_neg (by simp)]
      decide

theorem claim_C9_witness :
    identify_defaulted_fields "SELECT NULL AS name FROM src" (some ["name"]) = ["name"] ∧
      identify_defaulted_fields "SELECT source.name AS name FROM src" (some ["name"]) = [] :=
  ⟨claim_C9.1 "SELECT NULL AS name FROM src" "select ".toList " from src".toList
      (by decide) (by decide) (by decide),
   claim_C9.2 "SELECT source.name AS name FROM src" (by decide) (by decide)⟩

/-- Claim C1 describes the intended dead code of source lines 196–202: in
the actual code the `raise` at lines 183–184 fires first on the last
failed validation attempt, so the run ends `failed` via the boundary
handler, `result` is never set and the status
`failed_validation_final_sql_available` is unreachable.  Concretely: with
`max_fix_attempts = 2`, a validator that reports invalid on all 3 attempts
and a fixer that always returns usable SQL, the terminal status is
`failed` (error = the max-fix-attempts message, result = null), exactly 3
validator and 2 fixer calls are made, and the status is not
`failed_validation_final_sql_available`. -/
theorem claim_C1_code_bug :
    ((lookupTask (execute_pipeline cAlwaysInvalid (some "schema") "t1" "src" "dst"
        none (some "[sample]") none 2 psInit).store "t1").map
        (fun t => (t.status, t.result, t.error)) =
      some ("failed", none,
        some "Max fix attempts (2) reached. SQL remains invalid. Last error: boom")) ∧
    (execute_pipeline cAlwaysInvalid (some "schema") "t1" "src" "dst"
        none (some "[sample]") none 2 psInit).vtrace.length = 3 ∧
    (execute_pipeline cAlwaysInvalid (some "schema") "t1" "src" "dst"
        none (some "[sample]") none 2 psInit).ftrace.length = 2 ∧
    ¬ ((lookupTask (execute_pipeline cAlwaysInvalid (some "schema") "t1" "src" "dst"
        none (some "[sample]") none 2 psInit).store "t1").map Task.status =
      some "failed_validation_final_sql_available") := by
  refine ⟨by decide, by decide, by decide, by decide⟩

theorem plog_traces (tid m : String) (ps : PState) :
    (plog tid m ps).vtrace = ps.vtrace ∧ (plog tid m ps).ftrace = ps.ftrace :=
  ⟨rfl, rfl⟩

theorem pstatus_traces (tid s : String) (r e : Option String) (ps : PState) :
    (pstatus tid s r e ps).vtrace = ps.vtrace ∧ (pstatus tid s r e ps).ftrace = ps.ftrace :=
  ⟨rfl, rfl⟩

theorem fetchBlock_traces (C : Collab) (tid src : String) (sj : Option String)
    (ps : PState) :
    (fetchBlock C tid src sj ps).2.vtrace = ps.vtrace ∧
      (fetchBlock C tid src sj ps).2.ftrace = ps.ftrace := by
  unfold fetchBlock
  split
  · exact ⟨rfl, rfl⟩
  · split
    · exact ⟨rfl, rfl⟩
    · exact ⟨rfl, rfl⟩
    · split
      · exact ⟨rfl, rfl⟩
      · exact ⟨rfl, rfl⟩
    · exact ⟨rfl, rfl⟩

theorem enhanceBlock_traces (C : Collab) (tid sql : String) (f : Option String)
    (cf : Option (List String)) (ps : PState) :
    (enhanceBlock C tid sql f cf ps).1.vtrace = ps.vtrace ∧
      (enhanceBlock C tid sql f cf ps).1.ftrace = ps.ftrace := by
  refine ⟨?_, ?_⟩ <;>
  · unfold enhanceBlock
    dsimp only
    repeat' split
    all_goals rfl

theorem loopAftermath_traces (tid : String) (maxFix : Nat) (ps : PState)
    (ex : LoopExit) :
    (loopAftermath tid maxFix (ps, ex)).1.vtrace = ps.vtrace ∧
      (loopAftermath tid maxFix (ps, ex)).1.ftrace = ps.ftrace := by
  cases ex with
  | completed => exact ⟨rfl, rfl⟩
  | raised e => exact ⟨rfl, rfl⟩
  | exhausted le sql =>
    cases le with
    | none => exact ⟨rfl, rfl⟩
    | some ed => exact ⟨rfl, rfl⟩

/-- Call-count bound of the validate/fix loop: with `r` iterations left
(and the `range` invariant `attempt + r = maxFix + 1`), the loop performs
at most `r` further validator calls and `r - 1` further fixer calls. -/
theorem valLoop_counts (C : Collab) (tid : String) (maxFix : Nat) :
    ∀ (r attempt : Nat) (le : Option String) (sql : String) (ps : PState),
      attempt + r = maxFix + 1 →
      (valLoop C tid maxFix r attempt le sql ps).1.vtrace.length ≤ ps.vtrace.length + r ∧
      (valLoop C tid maxFix r attempt le sql ps).1.ftrace.length ≤ ps.ftrace.length + (r - 1) := by
  intro r
  induction r with
  | zero => intro attempt le sql ps _; exact ⟨Nat.le_refl _, Nat.le_refl _⟩
  | succ r ih =>
    intro attempt le sql ps hinv
    constructor
    · simp only [valLoop]
      split
      · dsimp only [plog, pstatus]; first | (simp; omega) | simp
      · split
        · dsimp only [plog, pstatus]; first | (simp; omega) | simp
        · split
          · dsimp only [plog, pstatus]; first | (simp; omega) | simp
          · split
            · dsimp only [plog, pstatus]; first | (simp; omega) | simp
            · split
              · dsimp only [plog, pstatus]; first | (simp; omega) | simp
              · refine le_trans (ih (attempt + 1) _ _ _ (by omega)).1 ?_
                dsimp only [plog, pstatus]; first | (simp; omega) | simp
    · simp only [valLoop]
      split
      · dsimp only [plog, pstatus]; first | (simp; omega) | simp
      · split
        · dsimp only [plog, pstatus]; first | (simp; omega) | simp
        · split
          · dsimp only [plog, pstatus]; first | (simp; omega) | simp
          · split
            · dsimp only [plog, pstatus]; first | (simp; omega) | simp
            · split
              · dsimp only [plog, pstatus]; first | (simp; omega) | simp
              · refine le_trans (ih (attempt + 1) _ _ _ (by omega)).2 ?_
                dsimp only [plog, pstatus]; first | (simp; omega) | simp

theorem pipelineLoopPart_counts (C : Collab) (tid : String) (n : Nat)
    (sql : String) (ps : PState) :
    (pipelineLoopPart C tid n sql ps).1.vtrace.length ≤ ps.vtrace.length + (n + 1) ∧
      (pipelineLoopPart C tid n sql ps).1.ftrace.length ≤ ps.ftrace.length + n := by
  unfold pipelineLoopPart
  rcases hv : valLoop C tid n (n + 1) 0 none sql ps with ⟨pl, ex⟩
  have hc := valLoop_counts C tid n (n + 1) 0 none sql ps (by omega)
  rw [hv] at hc
  have ha := loopAftermath_traces tid n pl ex
  constructor
  · rw [ha.1]; simpa using hc.1
  · rw [ha.2]; simpa using hc.2

theorem pipelineAfterGen_counts (C : Collab) (tid src : String)
    (sample : Option String) (crit : Option (List String)) (n : Nat)
    (sql : String) (ps : PState) :
    (pipelineAfterGen C tid src sample crit n sql ps).1.vtrace.length
        ≤ ps.vtrace.length + (n + 1) ∧
      (pipelineAfterGen C tid src sample crit n sql ps).1.ftrace.length
        ≤ ps.ftrace.length + n := by
  unfold pipelineAfterGen
  dsimp only
  rcases hfb : fetchBlock C tid src sample
      (plog tid ("Initial SQL generated (preview: " ++ pyTake 100 sql ++ "...).") ps)
    with ⟨fetched, ps1⟩
  have hf := fetchBlock_traces C tid src sample
    (plog tid ("Initial SQL generated (preview: " ++ pyTake 100 sql ++ "...).") ps)
  rw [hfb] at hf
  rcases hen : enhanceBlock C tid sql fetched crit ps1 with ⟨ps2, ex⟩
  have he := enhanceBlock_traces C tid sql fetched crit ps1
  rw [hen] at he
  have hps2v : ps2.vtrace = ps.vtrace := by
    have h1 := he.1; simp only at h1; rw [h1, hf.1]; rfl
  have hps2f : ps2.ftrace = ps.ftrace := by
    have h1 := he.2; simp only at h1; rw [h1, hf.2]; rfl
  cases ex with
  | error e =>
    dsimp only
    rw [hps2v, hps2f]
    exact ⟨Nat.le_add_right _ _, Nat.le_add_right _ _⟩
  | ok sql2 =>
    dsimp only
    have hl := pipelineLoopPart_counts C tid n sql2 ps2
    rw [hps2v, hps2f] at hl
    exact hl

theorem pipelineTry_counts (C : Collab) (tid src : String)
    (sample : Option String) (crit : Option (List String)) (n : Nat) (ps : PState) :
    (pipelineTry C tid src sample crit n ps).1.vtrace.length ≤ ps.vtrace.length + (n + 1) ∧
      (pipelineTry C tid src sample crit n ps).1.ftrace.length ≤ ps.ftrace.length + n := by
  unfold pipelineTry
  dsimp only
  cases hg : C.generate with
  | error e =>
    simp only [hg]
    dsimp only [plog, pstatus]
    exact ⟨Nat.le_add_right _ _, Nat.le_add_right _ _⟩
  | ok p =>
    obtain ⟨sqlOpt, genErr⟩ := p
    simp only [hg]
    by_cases hc : pyTruthy sqlOpt = true
    · rw [if_neg (by simp [hc])]
      have ha := pipelineAfterGen_counts C tid src sample crit n (sqlOpt.getD "")
        (plog tid "Step 1: Generating initial SQL."
          (pstatus tid "generating_initial_sql" none none ps))
      dsimp only [plog, pstatus] at ha
      exact ha
    · rw [if_pos hc]
      dsimp only [plog, pstatus]
      exact ⟨Nat.le_add_right _ _, Nat.le_add_right _ _⟩

/-- Claim C3: one run of `execute_pipeline` with `max_fix_attempts = n`
calls the validator at most `n + 1` times and the fixer at most `n` times
(observed through the call traces), for every collaborator behaviour. -/
theorem claim_C3 (C : Collab) (dflt : Option String) (tid src dst : String)
    (dsch sample : Option String) (crit : Option (List String)) (n : Nat)
    (ps : PState) :
    (execute_pipeline C dflt tid src dst dsch sample crit n ps).vtrace.length
        ≤ ps.vtrace.length + (n + 1) ∧
      (execute_pipeline C dflt tid src dst dsch sample crit n ps).ftrace.length
        ≤ ps.ftrace.length + n := by
  unfold execute_pipeline
  dsimp only
  split
  · dsimp only [plog, pstatus]
    exact ⟨Nat.le_add_right _ _, Nat.le_add_right _ _⟩
  · rcases htr : pipelineTry C tid src sample crit n
        (pstatus tid "pipeline_started" none none
          (plog tid ("SQL Transformation Pipeline started for " ++ src ++ " to " ++ dst ++ ".") ps))
      with ⟨ps1, exc⟩
    have hc := pipelineTry_counts C tid src sample crit n
      (pstatus tid "pipeline_started" none none
        (plog tid ("SQL Transformation Pipeline started for " ++ src ++ " to " ++ dst ++ ".") ps))
    rw [htr] at hc
    dsimp only [plog, pstatus] at hc
    cases exc with
    | none => simpa using hc
    | some e =>
      dsimp only [plog, pstatus]
      simpa using hc

theorem presence_add_task_log (now : Nat) (i m : String) (st : TaskStore) (j : String) :
    (lookupTask (add_task_log now i m st) j).isSome = (lookupTask st j).isSome := by
  unfold add_task_log
  cases h : lookupTask st i with
  | none => rfl
  | some t =>
    by_cases hj : j = i
    · subst hj
      rw [lookupTask_setTask_self, h]
      rfl
    · rw [lookupTask_setTask_ne _ _ _ _ hj]

theorem presence_update_task_status (now : Nat) (i s : String) (r e : Option String)
    (st : TaskStore) (j : String) :
    (lookupTask (update_task_status now i s r e st) j).isSome = (lookupTask st j).isSome := by
  by_cases hj : j = i
  · subst hj
    cases h : lookupTask st j with
    | none =>
      unfold update_task_status
      rw [h]
      show (lookupTask st j).isSome = (none : Option Task).isSome
      rw [h]
    | some t =>
      have hs := update_status_eq now j s r e st t h
      cases h2 : lookupTask (update_task_status now j s r e st) j with
      | none => rw [h2] at hs; cases hs
      | some t2 => rfl
  · rw [update_other_id now j i s r e st hj]

theorem presence_plog (tid m : String) (ps : PState) (j : String) :
    (lookupTask (plog tid m ps).store j).isSome = (lookupTask ps.store j).isSome := by
  unfold plog
  exact presence_add_task_log ps.clock tid m ps.store j

theorem presence_pstatus (tid s : String) (r e : Option String) (ps : PState) (j : String) :
    (lookupTask (pstatus tid s r e ps).store j).isSome = (lookupTask ps.store j).isSome := by
  unfold pstatus
  exact presence_update_task_status ps.clock tid s r e ps.store j

/-- The status written by `pstatus` on a present task. -/
theorem pstatus_status (tid s : String) (r e : Option String) (ps : PState)
    (hp : (lookupTask ps.store tid).isSome = true) :
    (lookupTask (pstatus tid s r e ps).store tid).map Task.status = some s := by
  obtain ⟨t, ht⟩ := Option.isSome_iff_exists.mp hp
  exact update_status_eq ps.clock tid s r e ps.store t ht

/-- The error written by `pstatus` on a present task when truthy. -/
theorem pstatus_error (tid s : String) (r e : Option String) (ps : PState)
    (hp : (lookupTask ps.store tid).isSome = true) (he : pyTruthy e) :
    (lookupTask (pstatus tid s r e ps).store tid).map Task.error = some e := by
  obtain ⟨t, ht⟩ := Option.isSome_iff_exists.mp hp
  exact update_error_eq ps.clock tid s r e ps.store t ht he

/-- The status is untouched by `plog`. -/
theorem plog_status (tid m : String) (ps : PState) (j : String) :
    (lookupTask (plog tid m ps).store j).map Task.status
      = (lookupTask ps.store j).map Task.status := by
  unfold plog
  exact lookupTask_add_task_log_status ps.clock tid m ps.store j

/-- Task presence and the `completed` status through the validate/fix
loop: the task stays present, and an exit via `completed` leaves its
status `completed`. -/
theorem valLoop_c2 (C : Collab) (tid : String) (maxFix : Nat) :
    ∀ (r attempt : Nat) (le : Option String) (sql : String) (ps : PState),
      (lookupTask ps.store tid).isSome = true →
      (lookupTask ((valLoop C tid maxFix r attempt le sql ps).1).store tid).isSome = true ∧
      ((valLoop C tid maxFix r attempt le sql ps).2 = .completed →
        (lookupTask ((valLoop C tid maxFix r attempt le sql ps).1).store tid).map Task.status
          = some "completed") := by
  intro r
  induction r with
  | zero =>
    intro attempt le sql ps hp
    exact ⟨hp, by intro h; cases h⟩
  | succ r ih =>
    intro attempt le sql ps hp
    constructor
    · simp only [valLoop]
      split
      · simp [plog, presence_add_task_log, presence_update_task_status, pstatus, hp]
      · split
        · simp [plog, presence_add_task_log, presence_update_task_status, pstatus, hp]
        · split
          · simp [plog, presence_add_task_log, presence_update_task_status, pstatus, hp]
          · split
            · simp [plog, presence_add_task_log, presence_update_task_status, pstatus, hp]
            · split
              · simp [plog, presence_add_task_log, presence_update_task_status, pstatus, hp]
              · refine (ih (attempt + 1) _ _ _ ?_).1
                simp [plog, presence_add_task_log, presence_update_task_status, pstatus, hp]
    · simp only [valLoop]
      split
      · intro h; cases h
      · split
        · intro _
          apply pstatus_status
          simp [plog, presence_add_task_log, presence_update_task_status, pstatus, hp]
        · split
          · intro h; cases h
          · split
            · intro h; cases h
            · split
              · intro h; cases h
              · refine (ih (attempt + 1) _ _ _ ?_).2
                simp [plog, presence_add_task_log, presence_update_task_status, pstatus, hp]

theorem fetchBlock_presence (C : Collab) (tid src : String) (sj : Option String)
    (ps : PState) (j : String) :
    (lookupTask (fetchBlock C tid src sj ps).2.store j).isSome
      = (lookupTask ps.store j).isSome := by
  unfold fetchBlock
  split
  · rfl
  · split <;>
      simp [plog, presence_add_task_log]
    split <;> simp [plog, presence_add_task_log]

theorem enhanceBlock_presence (C : Collab) (tid sql : String) (f : Option String)
    (cf : Option (List String)) (ps : PState) (j : String) :
    (lookupTask (enhanceBlock C tid sql f cf ps).1.store j).isSome
      = (lookupTask ps.store j).isSome := by
  unfold enhanceBlock
  dsimp only
  repeat' split
  all_goals
    simp [plog, pstatus, presence_add_task_log, presence_update_task_status]

/-- Presence and terminal-status totality through `pipelineLoopPart`. -/
theorem pipelineLoopPart_c2 (C : Collab) (tid : String) (n : Nat) (sql : String)
    (ps : PState) (hp : (lookupTask ps.store tid).isSome = true) :
    (lookupTask (pipelineLoopPart C tid n sql ps).1.store tid).isSome = true ∧
      ((pipelineLoopPart C tid n sql ps).2 = none →
        (lookupTask (pipelineLoopPart C tid n sql ps).1.store tid).map Task.status
            = some "completed" ∨
          (lookupTask (pipelineLoopPart C tid n sql ps).1.store tid).map Task.status
            = some "failed_validation_final_sql_available") := by
  unfold pipelineLoopPart
  rcases hv : valLoop C tid n (n + 1) 0 none sql ps with ⟨pl, ex⟩
  have hvc := valLoop_c2 C tid n (n + 1) 0 none sql ps hp
  rw [hv] at hvc
  cases ex with
  | completed =>
    refine ⟨hvc.1, fun _ => Or.inl ?_⟩
    exact hvc.2 rfl
  | raised e =>
    exact ⟨hvc.1, by intro h; cases h⟩
  | exhausted le sqlf =>
    cases le with
    | none => exact ⟨hvc.1, by intro h; cases h⟩
    | some ed =>
      refine ⟨?_, fun _ => Or.inr ?_⟩
      · unfold loopAftermath
        dsimp only [plog, pstatus]
        simp [presence_add_task_log, presence_update_task_status, hvc.1]
      · unfold loopAftermath
        dsimp only
        apply pstatus_status
        simp [plog, presence_add_task_log, hvc.1]

/-- Presence and terminal-status totality through `pipelineAfterGen`. -/
theorem pipelineAfterGen_c2 (C : Collab) (tid src : String) (sample : Option String)
    (crit : Option (List String)) (n : Nat) (sql : String) (ps : PState)
    (hp : (lookupTask ps.store tid).isSome = true) :
    (lookupTask (pipelineAfterGen C tid src sample crit n sql ps).1.store tid).isSome = true ∧
      ((pipelineAfterGen C tid src sample crit n sql ps).2 = none →
        (lookupTask (pipelineAfterGen C tid src sample crit n sql ps).1.store tid).map Task.status
            = some "completed" ∨
          (lookupTask (pipelineAfterGen C tid src sample crit n sql ps).1.store tid).map Task.status
            = some "failed_validation_final_sql_available") := by
  unfold pipelineAfterGen
  dsimp only
  rcases hfb : fetchBlock C tid src sample
      (plog tid ("Initial SQL generated (preview: " ++ pyTake 100 sql ++ "...).") ps)
    with ⟨fetched, ps1⟩
  have hf := fetchBlock_presence C tid src sample
    (plog tid ("Initial SQL generated (preview: " ++ pyTake 100 sql ++ "...).") ps) tid
  rw [hfb] at hf
  have hp1 : (lookupTask ps1.store tid).isSome = true := by
    rw [show (fetched, ps1).2 = ps1 from rfl] at hf
    rw [hf, presence_plog]
    exact hp
  rcases hen : enhanceBlock C tid sql fetched crit ps1 with ⟨ps2, ex⟩
  have he := enhanceBlock_presence C tid sql fetched crit ps1 tid
  rw [hen] at he
  have hp2 : (lookupTask ps2.store tid).isSome = true := by
    rw [show (ps2, ex).1 = ps2 from rfl] at he
    rw [he]; exact hp1
  cases ex with
  | error e => exact ⟨hp2, by intro h; cases h⟩
  | ok sql2 => exact pipelineLoopPart_c2 C tid n sql2 ps2 hp2

/-- Presence and terminal-status totality through `pipelineTry`. -/
theorem pipelineTry_c2 (C : Collab) (tid src : String) (sample : Option String)
    (crit : Option (List String)) (n : Nat) (ps : PState)
    (hp : (lookupTask ps.store tid).isSome = true) :
    (lookupTask (pipelineTry C tid src sample crit n ps).1.store tid).isSome = true ∧
      ((pipelineTry C tid src sample crit n ps).2 = none →
        (lookupTask (pipelineTry C tid src sample crit n ps).1.store tid).map Task.status
            = some "completed" ∨
          (lookupTask (pipelineTry C tid src sample crit n ps).1.store tid).map Task.status
            = some "failed_validation_final_sql_available") := by
  unfold pipelineTry
  dsimp only
  cases hg : C.generate with
  | error e =>
    simp only [hg]
    refine ⟨?_, by intro h; cases h⟩
    simp [plog, pstatus, presence_add_task_log, presence_update_task_status, hp]
  | ok p =>
    obtain ⟨sqlOpt, genErr⟩ := p
    simp only [hg]
    by_cases hc : pyTruthy sqlOpt = true
    · rw [if_neg (by simp [hc])]
      apply pipelineAfterGen_c2
      simp [plog, pstatus, presence_add_task_log, presence_update_task_status, hp]
    · rw [if_pos hc]
      refine ⟨?_, by intro h; cases h⟩
      simp [plog, pstatus, presence_add_task_log, presence_update_task_status, hp]

/-- Claim C2 fails as stated on one detail: an exception whose message is
the empty string is caught and converted to status `failed`, but
`update_task_status`'s truthiness test `if error:` then skips storing the
message, so the task's `error` field keeps its previous value (`None`)
rather than the exception's (empty) message. -/
theorem claim_C2_counterexample :
    ((lookupTask (execute_pipeline cRaiseEmpty (some "schema") "t1" "src" "dst"
        none (some "[sample]") none 2 psInit).store "t1").map
        (fun t => (t.status, t.error)) = some ("failed", none)) ∧
      ¬ ((lookupTask (execute_pipeline cRaiseEmpty (some "schema") "t1" "src" "dst"
        none (some "[sample]") none 2 psInit).store "t1").map Task.error
          = some (some "")) := by
  exact ⟨by decide, by decide⟩

/-- Claim C2 (amended): for every initialized task and every collaborator
behaviour, when `execute_pipeline` returns the task's status is exactly
one of `completed`, `failed`, `failed_validation_final_sql_available`;
any exception reaching the pipeline boundary is caught (the embedding is a
total function) and converted to status `failed`, and its message is
stored in the task's `error` field whenever the message is non-empty
(Python truthiness: an empty message leaves the previous error value). -/
theorem claim_C2_amended (C : Collab) (dflt : Option String) (tid src dst : String)
    (dsch sample : Option String) (crit : Option (List String)) (n : Nat)
    (ps : PState) (t0 : Task) (h : lookupTask ps.store tid = some t0) :
    ((lookupTask (execute_pipeline C dflt tid src dst dsch sample crit n ps).store tid).map
        Task.status = some "completed" ∨
      (lookupTask (execute_pipeline C dflt tid src dst dsch sample crit n ps).store tid).map
        Task.status = some "failed" ∨
      (lookupTask (execute_pipeline C dflt tid src dst dsch sample crit n ps).store tid).map
        Task.status = some "failed_validation_final_sql_available") ∧
    (∀ e, pipelineRaised C dflt tid src dst dsch sample crit n ps = some e →
      (lookupTask (execute_pipeline C dflt tid src dst dsch sample crit n ps).store tid).map
          Task.status = some "failed" ∧
        (¬ e = "" →
          (lookupTask (execute_pipeline C dflt tid src dst dsch sample crit n ps).store tid).map
            Task.error = some (some e))) := by
  have hp : (lookupTask ps.store tid).isSome = true := by rw [h]; rfl
  unfold execute_pipeline pipelineRaised
  dsimp only
  split
  · constructor
    · right; left
      apply pstatus_status
      simp [presence_plog, presence_pstatus, hp]
    · intro e he
      cases he
  · rcases htr : pipelineTry C tid src sample crit n
        (pstatus tid "pipeline_started" none none
          (plog tid ("SQL Transformation Pipeline started for " ++ src ++ " to " ++ dst ++ ".") ps))
      with ⟨ps2, exc⟩
    have hc2 := pipelineTry_c2 C tid src sample crit n
      (pstatus tid "pipeline_started" none none
        (plog tid ("SQL Transformation Pipeline started for " ++ src ++ " to " ++ dst ++ ".") ps))
      (by simp [presence_pstatus, presence_plog, hp])
    rw [htr] at hc2
    cases exc with
    | none =>
      dsimp only
      constructor
      · rcases hc2.2 rfl with hcomp | hfva
        · exact Or.inl hcomp
        · exact Or.inr (Or.inr hfva)
      · intro e he
        cases he
    | some e2 =>
      dsimp only
      have hp2 : (lookupTask ps2.store tid).isSome = true := hc2.1
      constructor
      · right; left
        apply pstatus_status
        simp [presence_plog, hp2]
      · intro e he
        have he2 : e2 = e := by injection he
        subst he2
        constructor
        · apply pstatus_status
          simp [presence_plog, hp2]
        · intro hne
          apply pstatus_error
          · simp [presence_plog, hp2]
          · simp [pyTruthy, hne]

theorem claim_C2_amended_witness :
    ((lookupTask (execute_pipeline cAlwaysInvalid (some "schema") "t1" "src" "dst"
        none (some "[sample]") none 2 psInit).store "t1").map
        Task.status = some "completed" ∨
      (lookupTask (execute_pipeline cAlwaysInvalid (some "schema") "t1" "src" "dst"
        none (some "[sample]") none 2 psInit).store "t1").map
        Task.status = some "failed" ∨
      (lookupTask (execute_pipeline cAlwaysInvalid (some "schema") "t1" "src" "dst"
        none (some "[sample]") none 2 psInit).store "t1").map
        Task.status = some "failed_validation_final_sql_available") ∧
    (∀ e, pipelineRaised cAlwaysInvalid (some "schema") "t1" "src" "dst"
        none (some "[sample]") none 2 psInit = some e →
      (lookupTask (execute_pipeline cAlwaysInvalid (some "schema") "t1" "src" "dst"
        none (some "[sample]") none 2 psInit).store "t1").map
          Task.status = some "failed" ∧
        (¬ e = "" →
          (lookupTask (execute_pipeline cAlwaysInvalid (some "schema") "t1" "src" "dst"
            none (some "[sample]") none 2 psInit).store "t1").map
            Task.error = some (some e))) :=
  claim_C2_amended cAlwaysInvalid (some "schema") "t1" "src" "dst"
    none (some "[sample]") none 2 psInit
    { task_id := "t1"
      task_type := "sql_generation"
      status := "received"
      input_details := ""
      result := none
      error := none
      created_at := 0
      updated_at := 0
      logs := [(0, "Task initialized. Type: sql_generation. Inputs: N/A")] }
    (by decide)

theorem valLoop_vtrace_extends (C : Collab) (tid : String) (maxFix : Nat) :
    ∀ (r attempt : Nat) (le : Option String) (sql : String) (ps : PState),
      ∃ t, (valLoop C tid maxFix r attempt le sql ps).1.vtrace = ps.vtrace ++ t := by
  intro r
  induction r with
  | zero => intro attempt le sql ps; exact ⟨[], by simp [valLoop]⟩
  | succ r ih =>
    intro attempt le sql ps
    simp only [valLoop]
    split
    · exact ⟨[sql], by dsimp [plog, pstatus]⟩
    · split
      · exact ⟨[sql], by dsimp [plog, pstatus]⟩
      · split
        · exact ⟨[sql], by dsimp [plog, pstatus]⟩
        · split
          · exact ⟨[sql], by dsimp [plog, pstatus]⟩
          · split
            · exact ⟨[sql], by dsimp [plog, pstatus]⟩
            · have step : ∀ (le' : Option String) (sql' : String) (PS : PState),
                  PS.vtrace = ps.vtrace ++ [sql] →
                  ∃ t, (valLoop C tid maxFix r (attempt + 1) le' sql' PS).1.vtrace
                    = ps.vtrace ++ t := by
                intro le' sql' PS hPS
                obtain ⟨t, ht⟩ := ih (attempt + 1) le' sql' PS
                exact ⟨sql :: t, by rw [ht, hPS]; simp [List.append_assoc]⟩
              apply step
              dsimp [plog, pstatus]

theorem valLoop_vtrace_first (C : Collab) (tid : String) (maxFix : Nat)
    (r attempt : Nat) (le : Option String) (sql : String) (ps : PState) :
    ∃ t, (valLoop C tid maxFix (r + 1) attempt le sql ps).1.vtrace
      = ps.vtrace ++ sql :: t := by
  simp only [valLoop]
  split
  · exact ⟨[], by dsimp [plog, pstatus]⟩
  · split
    · exact ⟨[], by dsimp [plog, pstatus]⟩
    · split
      · exact ⟨[], by dsimp [plog, pstatus]⟩
      · split
        · exact ⟨[], by dsimp [plog, pstatus]⟩
        · split
          · exact ⟨[], by dsimp [plog, pstatus]⟩
          · have step : ∀ (le' : Option String) (sql' : String) (PS : PState),
                PS.vtrace = ps.vtrace ++ [sql] →
                ∃ t, (valLoop C tid maxFix r (attempt + 1) le' sql' PS).1.vtrace
                  = ps.vtrace ++ sql :: t := by
              intro le' sql' PS hPS
              obtain ⟨t, ht⟩ := valLoop_vtrace_extends C tid maxFix r (attempt + 1) le' sql' PS
              exact ⟨t, by rw [ht, hPS]; simp [List.append_assoc]⟩
            apply step
            dsimp [plog, pstatus]

theorem pipelineLoopPart_vtrace_first (C : Collab) (tid : String) (n : Nat)
    (sql : String) (ps : PState) :
    ∃ t, (pipelineLoopPart C tid n sql ps).1.vtrace = ps.vtrace ++ sql :: t := by
  unfold pipelineLoopPart
  rcases hv : valLoop C tid n (n + 1) 0 none sql ps with ⟨pl, ex⟩
  obtain ⟨t, ht⟩ := valLoop_vtrace_first C tid n n 0 none sql ps
  rw [hv] at ht
  have ha := loopAftermath_traces tid n pl ex
  exact ⟨t, by rw [ha.1]; simpa using ht⟩

/-- On the happy prefix (schema present, no collaborator error, non-empty
text), `enhance_sql` is the candidate selection followed by
`enhanceFinish`. -/
theorem enhance_sql_viaCandidate (G : GenOutcome) (origSql : String)
    (dsch dflt : Option String) (hsch : pyTruthy (pyOrOpt dsch dflt) = true)
    (herrF : pyTruthy G.error = false) (htxtT : pyTruthy G.text = true) :
    enhance_sql G origSql dsch dflt =
      (match enhanceCandidate G with
       | some cand => enhanceFinish origSql cand
       | none => (origSql, some (enhanceExtractErr G))) := by
  have hsome : some (G.text.getD "") = G.text := by
    cases htx : G.text with
    | none => rw [htx] at htxtT; simp [pyTruthy] at htxtT
    | some s => rfl
  unfold enhance_sql enhanceCandidate enhanceExtractErr
  rw [if_neg (not_not_intro hsch), if_neg (by simp [herrF]), if_neg (by simp [htxtT])]
  dsimp only
  rw [hsome]
  cases hx : extract_sql_from_text G.text with
  | some r => rfl
  | none =>
    dsimp only
    by_cases hlr : looksLikeHead sqlStartPrefixes (stripChars (G.text.getD "").toList) = true
    · rw [if_pos hlr, if_pos hlr]
    · rw [if_neg hlr, if_neg hlr]

/-- Claim C5: (a) for every failing outcome of the text-generation
collaborator — an error returned, an empty response, output from which no
SQL can be extracted and that does not look like SQL, or a candidate that
fails the looks-like-SQL check after cleanup — `enhance_sql` returns the
original input SQL unchanged together with an error message; (b) in the
pipeline, whenever the enhancement step runs and the enhancer returns
(which per (a) includes every such failure, with the original SQL), the
pipeline proceeds to validation with exactly the SQL the enhancer
returned: the next validator call argument is `(enhance_sql ...).1`.  In
particular the enhancement step by itself never terminates the run. -/
theorem claim_C5 (G : GenOutcome) (origSql : String) (dsch dflt : Option String) :
    (pyTruthy (pyOrOpt dsch dflt) = true →
      (pyTruthy G.error = true →
        enhance_sql G origSql dsch dflt = (origSql, G.error)) ∧
      (pyTruthy G.error = false → pyTruthy G.text = false →
        enhance_sql G origSql dsch dflt =
          (origSql, some "No text response received from GenAI for semantic SQL enhancement.")) ∧
      (pyTruthy G.error = false → pyTruthy G.text = true →
        extract_sql_from_text G.text = none →
        looksLikeHead sqlStartPrefixes (stripChars (G.text.getD "").toList) = false →
        ∃ e, enhance_sql G origSql dsch dflt = (origSql, some e)) ∧
      (pyTruthy G.error = false → pyTruthy G.text = true →
        ∀ cand, enhanceCandidate G = some cand →
        looksLikeHead sqlStartPrefixes (apply_programmatic_fixes cand).toList = false →
        ∃ e, enhance_sql G origSql dsch dflt = (origSql, some e))) ∧
    (∀ (C : Collab) (pdflt : Option String) (tid src dst : String)
        (pd sample : Option String) (crit : Option (List String)) (n : Nat)
        (ps : PState) (gsql : String) (genErr : Option String),
      C.generate = .ok (some gsql, genErr) →
      pyTruthy (some gsql) = true →
      C.enhance = (fun s _ _ => Except.ok (enhance_sql G s dsch dflt)) →
      pyTruthy (pyOrOpt pd pdflt) = true →
      pyTruthy sample = true →
      identify_defaulted_fields gsql (some (crit.getD DEFAULT_CRITICAL_FIELDS)) ≠ [] →
      ∃ tail, (execute_pipeline C pdflt tid src dst pd sample crit n ps).vtrace
        = ps.vtrace ++ (enhance_sql G gsql dsch dflt).1 :: tail) := by
  constructor
  · intro hsch
    refine ⟨?_, ?_, ?_, ?_⟩
    · intro herr
      unfold enhance_sql
      rw [if_neg (not_not_intro hsch), if_pos herr]
    · intro herrF htxtF
      unfold enhance_sql
      rw [if_neg (not_not_intro hsch), if_neg (by simp [herrF]), if_pos (by simp [htxtF])]
    · intro herrF htxtT hx hraw
      have hnone : enhanceCandidate G = none := by
        unfold enhanceCandidate
        rw [hx]
        have hraw2 : looksLikeHead sqlStartPrefixes (stripChars (G.text.getD "").data) = false := hraw
        have hng : ¬ looksLikeHead sqlStartPrefixes (stripChars (G.text.getD "").toList) = true := by
          simp [hraw2]
        rw [if_neg hng]
      rw [enhance_sql_viaCandidate G origSql dsch dflt hsch herrF htxtT, hnone]
      exact ⟨_, rfl⟩
    · intro herrF htxtT cand hcand hgate
      rw [enhance_sql_viaCandidate G origSql dsch dflt hsch herrF htxtT, hcand]
      dsimp only
      unfold enhanceFinish
      have hgate2 : looksLikeHead sqlStartPrefixes (apply_programmatic_fixes cand).data = false := hgate
      have hng : ¬ looksLikeHead sqlStartPrefixes (apply_programmatic_fixes cand).toList = true := by
        simp [hgate2]
      rw [if_neg hng]
      exact ⟨_, rfl⟩
  · intro C pdflt tid src dst pd sample crit n ps gsql genErr hgen hgt henh hpd hsmp hdef
    unfold execute_pipeline
    dsimp only
    rw [if_neg (not_not_intro hpd)]
    unfold pipelineTry
    dsimp only
    rw [hgen]
    dsimp only
    rw [if_neg (not_not_intro hgt)]
    unfold pipelineAfterGen
    dsimp only
    unfold fetchBlock
    rw [if_pos hsmp]
    unfold enhanceBlock
    rw [if_pos hsmp]
    dsimp only
    simp only [Option.getD_some]
    rw [if_pos hdef]
    rw [henh]
    dsimp only
    rcases hpair : enhance_sql G gsql dsch dflt with ⟨enh, eErr⟩
    dsimp only
    have step : ∀ PS : PState, PS.vtrace = ps.vtrace →
        ∃ tail, (match pipelineLoopPart C tid n enh PS with
          | (ps2, none) => ps2
          | (ps2, some e) => pstatus tid "failed" none (some e)
              (plog tid ("FATAL ERROR in pipeline: " ++ e) ps2)).vtrace
          = ps.vtrace ++ enh :: tail := by
      intro PS hPS
      obtain ⟨t, ht⟩ := pipelineLoopPart_vtrace_first C tid n enh PS
      rcases hlp : pipelineLoopPart C tid n enh PS with ⟨pl, ex⟩
      rw [hlp] at ht
      refine ⟨t, ?_⟩
      cases ex with
      | none =>
        dsimp only
        rw [ht, hPS]
      | some e =>
        dsimp only
        have hbr : (pstatus tid "failed" none (some e)
            (plog tid ("FATAL ERROR in pipeline: " ++ e) pl)).vtrace = pl.vtrace := rfl
        rw [hbr, ht, hPS]
    by_cases herr2 : pyTruthy eErr = true
    · rw [if_pos herr2]
      dsimp only
      apply step
      dsimp [plog, pstatus]
    · rw [if_neg herr2]
      dsimp only
      apply step
      dsimp [plog, pstatus]

/-- Witness for claim C5 at concrete inputs: (a) with `gWitness` (the
generator returned an error) `enhance_sql` hands back the original SQL
with that error, and (b) with `cEnhWitness` the full pipeline validates
exactly the SQL the enhancer returned. -/
theorem claim_C5_witness :
    (pyTruthy (pyOrOpt (some "s") (none : Option String)) = true ∧
     pyTruthy gWitness.error = true ∧
     enhance_sql gWitness "SELECT 1" (some "s") none = ("SELECT 1", gWitness.error)) ∧
    ∃ tail, (execute_pipeline cEnhWitness none "t1" "src" "dst" (some "sch")
        (some "[]") (some ["name"]) 2 psInit).vtrace
      = psInit.vtrace
        ++ (enhance_sql gWitness "SELECT NULL AS name FROM t" (some "s") none).1 :: tail := by
  refine ⟨⟨by decide, by decide, ?_⟩, ?_⟩
  · exact ((claim_C5 gWitness "SELECT 1" (some "s") none).1 (by decide)).1 (by decide)
  · exact (claim_C5 gWitness "SELECT NULL AS name FROM t" (some "s") none).2
      cEnhWitness none "t1" "src" "dst" (some "sch") (some "[]") (some ["name"]) 2 psInit
      "SELECT NULL AS name FROM t" none rfl (by decide) rfl (by decide) (by decide)
      (by decide)

-- ### Idempotence analysis of `_apply_programmatic_fixes` (claim C4)

theorem ws_cases (c : Char) (h : isPyWs c = true) :
    c = ' ' ∨ c = '\t' ∨ c = '\n' ∨ c = '\x0d' ∨ c = '\x0b' ∨ c = '\x0c' := by
  simp only [isPyWs, Bool.or_eq_true, beq_iff_eq] at h
  tauto

theorem ws_toLower (c : Char) (h : isPyWs c = true) : c.toLower = c := by
  rcases ws_cases c h with h | h | h | h | h | h <;> subst h <;> decide

theorem ciEq_toLower (p c : Char) (h : ciEqChar p c = true) : p.toLower = c.toLower := by
  simpa [ciEqChar] using h

theorem ciEq_not_ws (p c : Char) (hp : isPyWs p.toLower = false)
    (h : ciEqChar p c = true) : isPyWs c = false := by
  by_contra hc
  have hc2 : isPyWs c = true := by
    cases hcc : isPyWs c with
    | true => rfl
    | false => exact absurd hcc hc
  have h2 : p.toLower = c := (ciEq_toLower p c h).trans (ws_toLower c hc2)
  rw [h2, hc2] at hp
  exact absurd hp (by decide)

theorem ws_not_btick (c : Char) (h : isPyWs c = true) : (c == btick) = false := by
  rcases ws_cases c h with h | h | h | h | h | h <;> subst h <;> decide

theorem ciEq_not_btick (p c : Char) (hp : (p.toLower == btick) = false)
    (h : ciEqChar p c = true) : (c == btick) = false := by
  cases hcc : (c == btick) with
  | false => rfl
  | true =>
    have hc : c = btick := by simpa using hcc
    subst hc
    have h2 : p.toLower = btick := (ciEq_toLower p btick h).trans (by decide)
    rw [h2] at hp
    exact absurd hp (by decide)

theorem ciMatch_nil (k : List Char) (h : ciMatch k [] = true) : k = [] := by
  cases k with
  | nil => rfl
  | cons c cs => simp [ciMatch] at h

theorem ciMatch_cons (k : List Char) (p : Char) (ps : List Char)
    (h : ciMatch k (p :: ps) = true) :
    ∃ c k2, k = c :: k2 ∧ ciEqChar p c = true ∧ ciMatch k2 ps = true := by
  cases k with
  | nil => simp [ciMatch] at h
  | cons c k2 =>
    simp only [ciMatch, Bool.and_eq_true] at h
    exact ⟨c, k2, rfl, h.1, h.2⟩

theorem ciMatch_length (k pat : List Char) (h : ciMatch k pat = true) :
    k.length = pat.length := by
  induction pat generalizing k with
  | nil => rw [ciMatch_nil k h]
  | cons p ps ih =>
    obtain ⟨c, k2, rfl, _, h2⟩ := ciMatch_cons k p ps h
    simp [ih k2 h2]

theorem ciMatch_append_last (ps : List Char) (p : Char) (k : List Char)
    (h : ciMatch k (ps ++ [p]) = true) :
    ∃ k2 c, k = k2 ++ [c] ∧ ciMatch k2 ps = true ∧ ciEqChar p c = true := by
  induction ps generalizing k with
  | nil =>
    obtain ⟨c, k2, rfl, h1, h2⟩ := ciMatch_cons k p [] h
    rw [ciMatch_nil k2 h2]
    exact ⟨[], c, rfl, rfl, h1⟩
  | cons q qs ih =>
    obtain ⟨c, k2, rfl, h1, h2⟩ := ciMatch_cons k q (qs ++ [p]) h
    obtain ⟨k3, c2, rfl, h3, h4⟩ := ih k2 h2
    exact ⟨c :: k3, c2, rfl, by simp [ciMatch, h1, h3], h4⟩

theorem ciMatch_all (k pat : List Char) (h : ciMatch k pat = true) :
    ∀ c ∈ k, ∃ p ∈ pat, ciEqChar p c = true := by
  induction pat generalizing k with
  | nil => rw [ciMatch_nil k h]; intro c hc; cases hc
  | cons p ps ih =>
    obtain ⟨c, k2, rfl, h1, h2⟩ := ciMatch_cons k p ps h
    intro d hd
    rcases List.mem_cons.mp hd with rfl | hd2
    · exact ⟨p, List.mem_cons_self p ps, h1⟩
    · obtain ⟨q, hq, hq2⟩ := ih k2 h2 d hd2
      exact ⟨q, List.mem_cons_of_mem p hq, hq2⟩

theorem IsWs_nonB (w : List Char) (h : IsWs w) : NonB w := by
  simp only [IsWs, List.all_eq_true] at h
  simp only [NonB, List.all_eq_true]
  intro c hc
  simpa using ws_not_btick c (h c hc)

theorem NonB_append (a b : List Char) (ha : NonB a) (hb : NonB b) : NonB (a ++ b) := by
  simp only [NonB, List.all_eq_true] at *
  intro c hc
  rcases List.mem_append.mp hc with h | h
  · exact ha c h
  · exact hb c h

theorem NonB_cons_iff (c : Char) (a : List Char) :
    NonB (c :: a) ↔ (c == btick) = false ∧ NonB a := by
  simp [NonB]

theorem NonB_of_append_left (a b : List Char) (h : NonB (a ++ b)) : NonB a := by
  simp only [NonB, List.all_eq_true] at *
  intro c hc
  exact h c (List.mem_append_left b hc)

theorem NonB_of_append_right (a b : List Char) (h : NonB (a ++ b)) : NonB b := by
  simp only [NonB, List.all_eq_true] at *
  intro c hc
  exact h c (List.mem_append_right a hc)

theorem NonB_not_btick_mem (a : List Char) (h : NonB a) (hm : btick ∈ a) : False := by
  simp only [NonB, List.all_eq_true] at h
  simpa using h btick hm

theorem IsWs_append (a b : List Char) (ha : IsWs a) (hb : IsWs b) : IsWs (a ++ b) := by
  simp only [IsWs, List.all_eq_true] at *
  intro c hc
  rcases List.mem_append.mp hc with h | h
  · exact ha c h
  · exact hb c h

theorem IsWs_of_append_left (a b : List Char) (h : IsWs (a ++ b)) : IsWs a := by
  simp only [IsWs, List.all_eq_true] at *
  intro c hc
  exact h c (List.mem_append_left b hc)

theorem IsWs_of_append_right (a b : List Char) (h : IsWs (a ++ b)) : IsWs b := by
  simp only [IsWs, List.all_eq_true] at *
  intro c hc
  exact h c (List.mem_append_right a hc)

theorem IsWs_cons_iff (c : Char) (a : List Char) :
    IsWs (c :: a) ↔ isPyWs c = true ∧ IsWs a := by
  simp [IsWs]

theorem IsWs_space : IsWs [' '] := rfl

theorem IsCi_ne_nil (k : List Char) (pat : String) (hpat : pat.toList ≠ [])
    (h : IsCi k pat) : k ≠ [] := by
  intro hk
  subst hk
  simp only [IsCi] at h
  cases hp : pat.toList with
  | nil => exact hpat hp
  | cons p ps =>
    rw [hp] at h
    obtain ⟨c, k2, hck, _, _⟩ := ciMatch_cons [] p ps h
    cases hck

theorem dropWhile_headNot (f : Char → Bool) (l : List Char) :
    HeadNot f (l.dropWhile f) := by
  induction l with
  | nil => trivial
  | cons c cs ih =>
    by_cases hc : f c = true
    · rw [List.dropWhile_cons_of_pos hc]; exact ih
    · rw [List.dropWhile_cons_of_neg hc]
      simp only [HeadNot]
      cases hfc : f c with
      | false => rfl
      | true => exact absurd hfc hc

theorem tws_spec (f : Char → Bool) (l w r : List Char)
    (h : takeWhileSplit f l = (w, r)) :
    l = w ++ r ∧ w.all f = true ∧ HeadNot f r := by
  have h1 : w = l.takeWhile f := congrArg Prod.fst h |>.symm
  have h2 : r = l.dropWhile f := congrArg Prod.snd h |>.symm
  subst h1; subst h2
  refine ⟨(List.takeWhile_append_dropWhile f l).symm, ?_, dropWhile_headNot f l⟩
  simp only [List.all_eq_true]
  intro c hc
  exact List.mem_takeWhile_imp hc

theorem tws_append (f : Char → Bool) (w r : List Char) (hw : w.all f = true)
    (hr : HeadNot f r) : takeWhileSplit f (w ++ r) = (w, r) := by
  induction w with
  | nil =>
    simp only [List.nil_append]
    cases r with
    | nil => rfl
    | cons c cs =>
      simp only [HeadNot] at hr
      simp [takeWhileSplit, List.takeWhile_cons_of_neg, List.dropWhile_cons_of_neg, hr]
  | cons a w2 ih =>
    simp only [List.all_cons, Bool.and_eq_true] at hw
    have := ih hw.2
    simp only [takeWhileSplit, Prod.mk.injEq] at this ⊢
    simp [List.takeWhile_cons_of_pos hw.1, List.dropWhile_cons_of_pos hw.1, this.1, this.2]

theorem ciPrefix_append (pat k r : List Char) (h : ciMatch k pat = true) :
    ciPrefix pat (k ++ r) = some r := by
  induction pat generalizing k with
  | nil => rw [ciMatch_nil k h]; rfl
  | cons p ps ih =>
    obtain ⟨c, k2, rfl, h1, h2⟩ := ciMatch_cons k p ps h
    simp [ciPrefix, h1, ih k2 h2]

theorem ciPrefix_some (pat l r : List Char) (h : ciPrefix pat l = some r) :
    ∃ k, l = k ++ r ∧ ciMatch k pat = true := by
  induction pat generalizing l with
  | nil =>
    simp only [ciPrefix, Option.some.injEq] at h
    exact ⟨[], by simp [h], rfl⟩
  | cons p ps ih =>
    cases l with
    | nil => simp [ciPrefix] at h
    | cons c cs =>
      simp only [ciPrefix] at h
      by_cases hc : ciEqChar p c = true
      · rw [if_pos hc] at h
        obtain ⟨k, rfl, hk⟩ := ih cs h
        exact ⟨c :: k, rfl, by simp [ciMatch, hc, hk]⟩
      · rw [if_neg hc] at h; cases h

theorem ciPrefixC_append (pat k r : List Char) (h : ciMatch k pat = true) :
    ciPrefixC pat (k ++ r) = some (k, r) := by
  induction pat generalizing k with
  | nil => rw [ciMatch_nil k h]; rfl
  | cons p ps ih =>
    obtain ⟨c, k2, rfl, h1, h2⟩ := ciMatch_cons k p ps h
    simp [ciPrefixC, h1, ih k2 h2]

theorem ciPrefixC_some (pat l k r : List Char) (h : ciPrefixC pat l = some (k, r)) :
    l = k ++ r ∧ ciMatch k pat = true := by
  induction pat generalizing l k with
  | nil =>
    simp only [ciPrefixC, Option.some.injEq, Prod.mk.injEq] at h
    obtain ⟨rfl, rfl⟩ := h
    exact ⟨rfl, rfl⟩
  | cons p ps ih =>
    cases l with
    | nil => simp [ciPrefixC] at h
    | cons c cs =>
      simp only [ciPrefixC] at h
      by_cases hc : ciEqChar p c = true
      · rw [if_pos hc] at h
        cases hcc : ciPrefixC ps cs with
        | none => rw [hcc] at h; cases h
        | some pr =>
          obtain ⟨t, r2⟩ := pr
          rw [hcc] at h
          simp only [Option.some.injEq, Prod.mk.injEq] at h
          obtain ⟨hk, hr⟩ := h
          subst hk
          subst hr
          obtain ⟨hl, hm⟩ := ih cs t hcc
          exact ⟨by simp [hl], by simp [ciMatch, hc, hm]⟩
      · rw [if_neg hc] at h; cases h

theorem nonB_prefix_split (P : List Char) : ∀ (rest e z : List Char), NonB P →
    P ++ rest = e ++ btick :: z →
    ∃ e2, e = P ++ e2 ∧ rest = e2 ++ btick :: z := by
  induction P with
  | nil =>
    intro rest e z _ h
    exact ⟨e, rfl, h⟩
  | cons c P ih =>
    intro rest e z hP h
    obtain ⟨hc, hP2⟩ := (NonB_cons_iff c P).mp hP
    cases e with
    | nil =>
      simp only [List.nil_append, List.cons_append, List.cons.injEq] at h
      rw [h.1] at hc
      simp at hc
    | cons a e2 =>
      simp only [List.cons_append, List.cons.injEq] at h
      obtain ⟨e3, he, hr⟩ := ih rest e2 z hP2 h.2
      exact ⟨e3, by simp [h.1.symm, he], hr⟩

theorem nonB_suffix_split (e : List Char) : ∀ (f P z : List Char), NonB f →
    e ++ f = P ++ btick :: z →
    ∃ z2, e = P ++ btick :: z2 ∧ z = z2 ++ f := by
  induction e with
  | nil =>
    intro f P z hf h
    simp only [List.nil_append] at h
    exfalso
    exact NonB_not_btick_mem f hf (h ▸ List.mem_append_right P (List.mem_cons_self _ _))
  | cons a e ih =>
    intro f P z hf h
    cases P with
    | nil =>
      simp only [List.nil_append, List.cons_append, List.cons.injEq] at h
      exact ⟨e, by simp [h.1], h.2.symm⟩
    | cons p P =>
      simp only [List.cons_append, List.cons.injEq] at h
      obtain ⟨z2, he, hz⟩ := ih f P z hf h.2
      exact ⟨z2, by simp [h.1, he], hz⟩

theorem leading_ws_unique (u : List Char) : ∀ (A v C : List Char), IsWs u → IsWs v →
    HeadNot isPyWs A → HeadNot isPyWs C → u ++ A = v ++ C →
    u = v ∧ A = C := by
  induction u with
  | nil =>
    intro A v C _ hv hA _ h
    cases v with
    | nil => simpa using h
    | cons b v2 =>
      obtain ⟨hb, _⟩ := (IsWs_cons_iff b v2).mp hv
      simp only [List.nil_append, List.cons_append] at h
      rw [h] at hA
      simp only [HeadNot] at hA
      rw [hb] at hA
      cases hA
  | cons a u2 ih =>
    intro A v C hu hv hA hC h
    obtain ⟨ha, hu2⟩ := (IsWs_cons_iff a u2).mp hu
    cases v with
    | nil =>
      simp only [List.cons_append, List.nil_append] at h
      rw [← h] at hC
      simp only [HeadNot] at hC
      rw [ha] at hC
      cases hC
    | cons b v2 =>
      obtain ⟨_, hv2⟩ := (IsWs_cons_iff b v2).mp hv
      simp only [List.cons_append, List.cons.injEq] at h
      obtain ⟨h1, h2⟩ := ih A v2 C hu2 hv2 hA hC h.2
      exact ⟨by rw [h.1, h1], h2⟩

theorem space_locate (p b s t : List Char) (h : p ++ ' ' :: b = s ++ t) :
    (∃ s2, s = p ++ ' ' :: s2 ∧ b = s2 ++ t) ∨
    (∃ p2, p = s ++ p2 ∧ t = p2 ++ ' ' :: b) := by
  rcases List.append_eq_append_iff.mp h with ⟨a, hs, hb⟩ | ⟨c, hp, ht⟩
  · cases a with
    | nil =>
      right
      refine ⟨[], ?_, ?_⟩
      · simpa using hs.symm
      · simpa using hb.symm
    | cons x a2 =>
      left
      simp only [List.cons_append, List.cons.injEq] at hb
      exact ⟨a2, by rw [hs, ← hb.1], hb.2⟩
  · right
    exact ⟨c, hp, ht⟩

theorem space_locate_tick (p b t : List Char) (h : p ++ ' ' :: b = btick :: t) :
    ∃ p2, p = btick :: p2 ∧ t = p2 ++ ' ' :: b := by
  cases p with
  | nil =>
    simp only [List.nil_append, List.cons.injEq] at h
    exact absurd h.1 (by decide)
  | cons c p2 =>
    simp only [List.cons_append, List.cons.injEq] at h
    exact ⟨p2, by rw [h.1], h.2.symm⟩

theorem IsCi_head_not_ws (k : List Char) (pat : String) (p : Char) (ps : List Char)
    (hp : pat.toList = p :: ps) (hlow : isPyWs p.toLower = false) (h : IsCi k pat) :
    ∃ c k2, k = c :: k2 ∧ isPyWs c = false := by
  simp only [IsCi, hp] at h
  obtain ⟨c, k2, rfl, h1, _⟩ := ciMatch_cons k p ps h
  exact ⟨c, k2, rfl, ciEq_not_ws p c hlow h1⟩

theorem headNot_ci_append (k X : List Char) (pat : String) (p : Char) (ps : List Char)
    (hp : pat.toList = p :: ps) (hlow : isPyWs p.toLower = false) (h : IsCi k pat) :
    HeadNot isPyWs (k ++ X) := by
  obtain ⟨c, k2, rfl, hc⟩ := IsCi_head_not_ws k pat p ps hp hlow h
  simpa [HeadNot] using hc

theorem headNot_btick (X : List Char) : HeadNot isPyWs (btick :: X) := by
  simp only [HeadNot]
  decide

theorem tryM3_dest (s g rest : List Char) (h : tryM3 s = some (g, rest)) :
    ∃ w kAS w2 kSel, s = w ++ (kAS ++ (w2 ++ (kSel ++ rest))) ∧
      g = kAS ++ w2 ++ kSel ∧ IsWs1 w ∧ IsCi kAS "AS" ∧ IsWs1 w2 ∧
      IsCi kSel "SELECT" := by
  unfold tryM3 at h
  rcases ht : takeWhileSplit isPyWs s with ⟨w, r1⟩
  rw [ht] at h
  dsimp only at h
  by_cases hw : w = []
  · rw [if_pos hw] at h; cases h
  · rw [if_neg hw] at h
    cases hAS : ciPrefixC "AS".toList r1 with
    | none => rw [hAS] at h; cases h
    | some pr =>
      obtain ⟨kAS, r2⟩ := pr
      rw [hAS] at h
      dsimp only at h
      rcases ht2 : takeWhileSplit isPyWs r2 with ⟨w2, r3⟩
      rw [ht2] at h
      dsimp only at h
      by_cases hw2 : w2 = []
      · rw [if_pos hw2] at h; cases h
      · rw [if_neg hw2] at h
        cases hSel : ciPrefixC "SELECT".toList r3 with
        | none => rw [hSel] at h; cases h
        | some pr2 =>
          obtain ⟨kSel, r4⟩ := pr2
          rw [hSel] at h
          dsimp only at h
          simp only [Option.some.injEq, Prod.mk.injEq] at h
          obtain ⟨hg, hrest⟩ := h
          obtain ⟨hs1, hall, _⟩ := tws_spec isPyWs s w r1 ht
          obtain ⟨hr1, hmAS⟩ := ciPrefixC_some "AS".toList r1 kAS r2 hAS
          obtain ⟨hr2, hall2, _⟩ := tws_spec isPyWs r2 w2 r3 ht2
          obtain ⟨hr3, hmSel⟩ := ciPrefixC_some "SELECT".toList r3 kSel r4 hSel
          subst hrest
          refine ⟨w, kAS, w2, kSel, ?_, hg.symm, ⟨hw, hall⟩, hmAS, ⟨hw2, hall2⟩, hmSel⟩
          rw [hs1, hr1, hr2, hr3]

theorem tryM3_build (w kAS w2 kSel rest : List Char) (hW : IsWs1 w)
    (hAS : IsCi kAS "AS") (hw2 : IsWs1 w2) (hSel : IsCi kSel "SELECT") :
    tryM3 (w ++ (kAS ++ (w2 ++ (kSel ++ rest)))) = some (kAS ++ w2 ++ kSel, rest) := by
  unfold tryM3
  rw [tws_append isPyWs w _ hW.2
    (headNot_ci_append kAS _ "AS" 'A' ['S'] (by decide) (by decide) hAS)]
  dsimp only
  rw [if_neg hW.1]
  rw [ciPrefixC_append "AS".toList kAS _ hAS]
  dsimp only
  rw [tws_append isPyWs w2 _ hw2.2
    (headNot_ci_append kSel _ "SELECT" 'S' "ELECT".toList (by decide) (by decide) hSel)]
  dsimp only
  rw [if_neg hw2.1]
  rw [ciPrefixC_append "SELECT".toList kSel rest hSel]

theorem tryM2_dest (s g rest : List Char) (h : tryM2 s = some (g, rest)) :
    ∃ k1 w1 k2 w2 k3 w3 k4 w4 z,
      s = k1 ++ (w1 ++ (k2 ++ (w2 ++ (k3 ++ (w3 ++ (k4 ++ (w4 ++ btick :: z))))))) ∧
      g = k1 ++ w1 ++ k2 ++ w2 ++ k3 ++ w3 ++ k4 ∧ rest = btick :: z ∧
      IsCi k1 "CREATE" ∧ IsWs1 w1 ∧ IsCi k2 "OR" ∧ IsWs1 w2 ∧ IsCi k3 "REPLACE" ∧
      IsWs1 w3 ∧ IsCi k4 "TABLE" ∧ IsWs1 w4 := by
  unfold tryM2 at h
  cases hc1 : ciPrefixC "CREATE".toList s with
  | none => rw [hc1] at h; cases h
  | some pr1 =>
    obtain ⟨k1, r1⟩ := pr1
    rw [hc1] at h
    dsimp only at h
    rcases ht1 : takeWhileSplit isPyWs r1 with ⟨w1, r2⟩
    rw [ht1] at h
    dsimp only at h
    by_cases hw1 : w1 = []
    · rw [if_pos hw1] at h; cases h
    · rw [if_neg hw1] at h
      cases hc2 : ciPrefixC "OR".toList r2 with
      | none => rw [hc2] at h; cases h
      | some pr2 =>
        obtain ⟨k2, r3⟩ := pr2
        rw [hc2] at h
        dsimp only at h
        rcases ht2 : takeWhileSplit isPyWs r3 with ⟨w2, r4⟩
        rw [ht2] at h
        dsimp only at h
        by_cases hw2 : w2 = []
        · rw [if_pos hw2] at h; cases h
        · rw [if_neg hw2] at h
          cases hc3 : ciPrefixC "REPLACE".toList r4 with
          | none => rw [hc3] at h; cases h
          | some pr3 =>
            obtain ⟨k3, r5⟩ := pr3
            rw [hc3] at h
            dsimp only at h
            rcases ht3 : takeWhileSplit isPyWs r5 with ⟨w3, r6⟩
            rw [ht3] at h
            dsimp only at h
            by_cases hw3 : w3 = []
            · rw [if_pos hw3] at h; cases h
            · rw [if_neg hw3] at h
              cases hc4 : ciPrefixC "TABLE".toList r6 with
              | none => rw [hc4] at h; cases h
              | some pr4 =>
                obtain ⟨k4, r7⟩ := pr4
                rw [hc4] at h
                dsimp only at h
                rcases ht4 : takeWhileSplit isPyWs r7 with ⟨w4, r8⟩
                rw [ht4] at h
                dsimp only at h
                by_cases hw4 : w4 = []
                · rw [if_pos hw4] at h; cases h
                · rw [if_neg hw4] at h
                  cases hr8 : r8 with
                  | nil => rw [hr8] at h; cases h
                  | cons c z =>
                    rw [hr8] at h
                    dsimp only at h
                    by_cases hcb : (c == btick) = true
                    · rw [if_pos hcb] at h
                      simp only [Option.some.injEq, Prod.mk.injEq] at h
                      obtain ⟨hg, hrest⟩ := h
                      have hcb2 : c = btick := by simpa using hcb
                      subst hcb2
                      obtain ⟨hs1, hm1⟩ := ciPrefixC_some "CREATE".toList s k1 r1 hc1
                      obtain ⟨hr1, ha1, _⟩ := tws_spec isPyWs r1 w1 r2 ht1
                      obtain ⟨hr2, hm2⟩ := ciPrefixC_some "OR".toList r2 k2 r3 hc2
                      obtain ⟨hr3, ha2, _⟩ := tws_spec isPyWs r3 w2 r4 ht2
                      obtain ⟨hr4, hm3⟩ := ciPrefixC_some "REPLACE".toList r4 k3 r5 hc3
                      obtain ⟨hr5, ha3, _⟩ := tws_spec isPyWs r5 w3 r6 ht3
                      obtain ⟨hr6, hm4⟩ := ciPrefixC_some "TABLE".toList r6 k4 r7 hc4
                      obtain ⟨hr7, ha4, _⟩ := tws_spec isPyWs r7 w4 r8 ht4
                      refine ⟨k1, w1, k2, w2, k3, w3, k4, w4, z, ?_, hg.symm, hrest.symm,
                        hm1, ⟨hw1, ha1⟩, hm2, ⟨hw2, ha2⟩, hm3, ⟨hw3, ha3⟩, hm4, ⟨hw4, ha4⟩⟩
                      rw [hs1, hr1, hr2, hr3, hr4, hr5, hr6, hr7, hr8]
                    · rw [if_neg hcb] at h; cases h

theorem tryM2_build (k1 w1 k2 w2 k3 w3 k4 w4 z : List Char)
    (hm1 : IsCi k1 "CREATE") (hw1 : IsWs1 w1) (hm2 : IsCi k2 "OR") (hw2 : IsWs1 w2)
    (hm3 : IsCi k3 "REPLACE") (hw3 : IsWs1 w3) (hm4 : IsCi k4 "TABLE")
    (hw4 : IsWs1 w4) :
    tryM2 (k1 ++ (w1 ++ (k2 ++ (w2 ++ (k3 ++ (w3 ++ (k4 ++ (w4 ++ btick :: z)))))))) =
      some (k1 ++ w1 ++ k2 ++ w2 ++ k3 ++ w3 ++ k4, btick :: z) := by
  unfold tryM2
  rw [ciPrefixC_append "CREATE".toList k1 _ hm1]
  dsimp only
  rw [tws_append isPyWs w1 _ hw1.2
    (headNot_ci_append k2 _ "OR" 'O' ['R'] (by decide) (by decide) hm2)]
  dsimp only
  rw [if_neg hw1.1]
  rw [ciPrefixC_append "OR".toList k2 _ hm2]
  dsimp only
  rw [tws_append isPyWs w2 _ hw2.2
    (headNot_ci_append k3 _ "REPLACE" 'R' "EPLACE".toList (by decide) (by decide) hm3)]
  dsimp only
  rw [if_neg hw2.1]
  rw [ciPrefixC_append "REPLACE".toList k3 _ hm3]
  dsimp only
  rw [tws_append isPyWs w3 _ hw3.2
    (headNot_ci_append k4 _ "TABLE" 'T' "ABLE".toList (by decide) (by decide) hm4)]
  dsimp only
  rw [if_neg hw3.1]
  rw [ciPrefixC_append "TABLE".toList k4 _ hm4]
  dsimp only
  rw [tws_append isPyWs w4 _ hw4.2 (headNot_btick z)]
  dsimp only
  rw [if_neg hw4.1]
  simp

theorem tryM1_dest (s g rest : List Char) (h : tryM1 s = some (g, rest)) :
    ∃ k1 w1 k2 w2 k3 w3 k4 w4 w5 k5,
      s = k1 ++ (w1 ++ (k2 ++ (w2 ++ (k3 ++ (w3 ++ (k4 ++ (w4 ++
        btick :: (g ++ btick :: (w5 ++ (k5 ++ rest)))))))))) ∧
      IsCi k1 "CREATE" ∧ IsWs1 w1 ∧ IsCi k2 "OR" ∧ IsWs1 w2 ∧ IsCi k3 "REPLACE" ∧
      IsWs1 w3 ∧ IsCi k4 "TABLE" ∧ IsWs w4 ∧ g ≠ [] ∧ NonB g ∧ IsWs w5 ∧
      IsCi k5 "AS" := by
  unfold tryM1 at h
  cases hc1 : ciPrefix "CREATE".toList s with
  | none => rw [hc1] at h; cases h
  | some r1 =>
    rw [hc1] at h
    dsimp only at h
    rcases ht1 : takeWhileSplit isPyWs r1 with ⟨w1, r2⟩
    rw [ht1] at h
    dsimp only at h
    by_cases hw1 : w1 = []
    · rw [if_pos hw1] at h; cases h
    · rw [if_neg hw1] at h
      cases hc2 : ciPrefix "OR".toList r2 with
      | none => rw [hc2] at h; cases h
      | some r3 =>
        rw [hc2] at h
        dsimp only at h
        rcases ht2 : takeWhileSplit isPyWs r3 with ⟨w2, r4⟩
        rw [ht2] at h
        dsimp only at h
        by_cases hw2 : w2 = []
        · rw [if_pos hw2] at h; cases h
        · rw [if_neg hw2] at h
          cases hc3 : ciPrefix "REPLACE".toList r4 with
          | none => rw [hc3] at h; cases h
          | some r5 =>
            rw [hc3] at h
            dsimp only at h
            rcases ht3 : takeWhileSplit isPyWs r5 with ⟨w3, r6⟩
            rw [ht3] at h
            dsimp only at h
            by_cases hw3 : w3 = []
            · rw [if_pos hw3] at h; cases h
            · rw [if_neg hw3] at h
              cases hc4 : ciPrefix "TABLE".toList r6 with
              | none => rw [hc4] at h; cases h
              | some r7 =>
                rw [hc4] at h
                dsimp only at h
                rcases ht4 : takeWhileSplit isPyWs r7 with ⟨w4, r8⟩
                rw [ht4] at h
                dsimp only at h
                cases hr8 : r8 with
                | nil => rw [hr8] at h; cases h
                | cons c r9 =>
                  rw [hr8] at h
                  dsimp only at h
                  by_cases hcb : (c == btick) = true
                  · rw [if_pos hcb] at h
                    rcases ht5 : takeWhileSplit (fun ch => !(ch == btick)) r9 with ⟨g0, r10⟩
                    rw [ht5] at h
                    dsimp only at h
                    by_cases hg0 : g0 = []
                    · rw [if_pos hg0] at h; cases h
                    · rw [if_neg hg0] at h
                      cases hr10 : r10 with
                      | nil => rw [hr10] at h; cases h
                      | cons c2 r11 =>
                        rw [hr10] at h
                        dsimp only at h
                        by_cases hcb2 : (c2 == btick) = true
                        · rw [if_pos hcb2] at h
                          rcases ht6 : takeWhileSplit isPyWs r11 with ⟨w5, r12⟩
                          rw [ht6] at h
                          dsimp only at h
                          cases hc5 : ciPrefix "AS".toList r12 with
                          | none => rw [hc5] at h; cases h
                          | some r13 =>
                            rw [hc5] at h
                            dsimp only at h
                            simp only [Option.some.injEq, Prod.mk.injEq] at h
                            obtain ⟨hg, hrest⟩ := h
                            subst hg
                            subst hrest
                            have hcbe : c = btick := by simpa using hcb
                            have hcbe2 : c2 = btick := by simpa using hcb2
                            subst hcbe
                            subst hcbe2
                            obtain ⟨kk1, hs1, hm1⟩ := ciPrefix_some "CREATE".toList s r1 hc1
                            obtain ⟨hr1, ha1, _⟩ := tws_spec isPyWs r1 w1 r2 ht1
                            obtain ⟨kk2, hr2, hm2⟩ := ciPrefix_some "OR".toList r2 r3 hc2
                            obtain ⟨hr3, ha2, _⟩ := tws_spec isPyWs r3 w2 r4 ht2
                            obtain ⟨kk3, hr4, hm3⟩ := ciPrefix_some "REPLACE".toList r4 r5 hc3
                            obtain ⟨hr5, ha3, _⟩ := tws_spec isPyWs r5 w3 r6 ht3
                            obtain ⟨kk4, hr6, hm4⟩ := ciPrefix_some "TABLE".toList r6 r7 hc4
                            obtain ⟨hr7, ha4, _⟩ := tws_spec isPyWs r7 w4 r8 ht4
                            obtain ⟨hr9, hag, _⟩ :=
                              tws_spec (fun ch => !(ch == btick)) r9 g0 r10 ht5
                            obtain ⟨hr11, ha5, _⟩ := tws_spec isPyWs r11 w5 r12 ht6
                            obtain ⟨kk5, hr12, hm5⟩ := ciPrefix_some "AS".toList r12 r13 hc5
                            refine ⟨kk1, w1, kk2, w2, kk3, w3, kk4, w4, w5, kk5, ?_,
                              hm1, ⟨hw1, ha1⟩, hm2, ⟨hw2, ha2⟩, hm3, ⟨hw3, ha3⟩, hm4, ha4,
                              hg0, hag, ha5, hm5⟩
                            rw [hs1, hr1, hr2, hr3, hr4, hr5, hr6, hr7, hr8, hr9, hr10,
                              hr11, hr12]
                        · rw [if_neg hcb2] at h; cases h
                  · rw [if_neg hcb] at h; cases h

theorem tryM1_build (k1 w1 k2 w2 k3 w3 k4 w4 g w5 k5 rest : List Char)
    (hm1 : IsCi k1 "CREATE") (hw1 : IsWs1 w1) (hm2 : IsCi k2 "OR") (hw2 : IsWs1 w2)
    (hm3 : IsCi k3 "REPLACE") (hw3 : IsWs1 w3) (hm4 : IsCi k4 "TABLE") (hw4 : IsWs w4)
    (hg : g ≠ []) (hgb : NonB g) (hw5 : IsWs w5) (hm5 : IsCi k5 "AS") :
    tryM1 (k1 ++ (w1 ++ (k2 ++ (w2 ++ (k3 ++ (w3 ++ (k4 ++ (w4 ++
      btick :: (g ++ btick :: (w5 ++ (k5 ++ rest))))))))))) = some (g, rest) := by
  unfold tryM1
  rw [ciPrefix_append "CREATE".toList k1 _ hm1]
  dsimp only
  rw [tws_append isPyWs w1 _ hw1.2
    (headNot_ci_append k2 _ "OR" 'O' ['R'] (by decide) (by decide) hm2)]
  dsimp only
  rw [if_neg hw1.1]
  rw [ciPrefix_append "OR".toList k2 _ hm2]
  dsimp only
  rw [tws_append isPyWs w2 _ hw2.2
    (headNot_ci_append k3 _ "REPLACE" 'R' "EPLACE".toList (by decide) (by decide) hm3)]
  dsimp only
  rw [if_neg hw2.1]
  rw [ciPrefix_append "REPLACE".toList k3 _ hm3]
  dsimp only
  rw [tws_append isPyWs w3 _ hw3.2
    (headNot_ci_append k4 _ "TABLE" 'T' "ABLE".toList (by decide) (by decide) hm4)]
  dsimp only
  rw [if_neg hw3.1]
  rw [ciPrefix_append "TABLE".toList k4 _ hm4]
  dsimp only
  rw [tws_append isPyWs w4 _ hw4 (headNot_btick _)]
  dsimp only
  simp only [beq_self_eq_true, if_true]
  have hgseg : takeWhileSplit (fun ch => !(ch == btick)) (g ++ btick :: (w5 ++ (k5 ++ rest)))
      = (g, btick :: (w5 ++ (k5 ++ rest))) := by
    refine tws_append _ g _ hgb ?_
    simp [HeadNot]
  rw [hgseg]
  dsimp only
  rw [if_neg hg]
  simp only [beq_self_eq_true, if_true]
  rw [tws_append isPyWs w5 _ hw5
    (headNot_ci_append k5 _ "AS" 'A' ['S'] (by decide) (by decide) hm5)]
  dsimp only
  rw [ciPrefix_append "AS".toList k5 rest hm5]

theorem IsCi_mem_not_ws (k : List Char) (pat : String)
    (hpat : pat.toList.all (fun p => !(isPyWs p.toLower)) = true)
    (h : IsCi k pat) : ∀ c ∈ k, isPyWs c = false := by
  intro c hc
  obtain ⟨p, hp, hpc⟩ := ciMatch_all k pat.toList h c hc
  simp only [List.all_eq_true] at hpat
  have h2 := hpat p hp
  exact ciEq_not_ws p c (by simpa using h2) hpc

theorem space_not_in_ci (k : List Char) (pat : String)
    (hpat : pat.toList.all (fun p => !(isPyWs p.toLower)) = true)
    (h : IsCi k pat) (a b2 : List Char) (hk : k = a ++ ' ' :: b2) : False := by
  have hmem : ' ' ∈ k := by
    rw [hk]
    exact List.mem_append_right a (List.mem_cons_self _ _)
  have h2 := IsCi_mem_not_ws k pat hpat h ' ' hmem
  exact absurd h2 (by decide)

theorem IsWs1_graft (p s2 W : List Char) (hW : IsWs1 W) (h : IsWs (p ++ ' ' :: s2)) :
    IsWs1 (p ++ (W ++ s2)) := by
  refine ⟨?_, ?_⟩
  · intro hx
    rcases List.append_eq_nil.mp hx with ⟨h1, h2⟩
    rcases List.append_eq_nil.mp h2 with ⟨h3, _⟩
    exact hW.1 h3
  · have hp : IsWs p := IsWs_of_append_left p (' ' :: s2) h
    have h2 : IsWs (' ' :: s2) := IsWs_of_append_right p (' ' :: s2) h
    exact IsWs_append p (W ++ s2) hp
      (IsWs_append W s2 hW.2 ((IsWs_cons_iff ' ' s2).mp h2).2)

theorem shrink3 (W p b : List Char) (hW : IsWs1 W)
    (h : tryM3 (p ++ (W ++ b)) = none) : tryM3 (p ++ ' ' :: b) = none := by
  cases hy : tryM3 (p ++ ' ' :: b) with
  | none => rfl
  | some pr =>
    exfalso
    obtain ⟨g, rest⟩ := pr
    obtain ⟨w, kAS, w2, kSel, hs, hg, hw, hAS, hw2, hSel⟩ :=
      tryM3_dest (p ++ ' ' :: b) g rest hy
    rcases space_locate p b w (kAS ++ (w2 ++ (kSel ++ rest))) hs with
      ⟨s2, hwseg, hb⟩ | ⟨p2, hp2, ht⟩
    · have hw1 : IsWs1 (p ++ (W ++ s2)) := IsWs1_graft p s2 W hW (by rw [← hwseg]; exact hw.2)
      have hb2 : tryM3 (p ++ (W ++ b)) = some (kAS ++ w2 ++ kSel, rest) := by
        have heq : p ++ (W ++ b) = (p ++ (W ++ s2)) ++ (kAS ++ (w2 ++ (kSel ++ rest))) := by
          rw [hb]; simp
        rw [heq]
        exact tryM3_build (p ++ (W ++ s2)) kAS w2 kSel rest hw1 hAS hw2 hSel
      rw [hb2] at h
      cases h
    · rcases space_locate p2 b kAS (w2 ++ (kSel ++ rest)) ht.symm with
        ⟨s2, hseg, hb⟩ | ⟨p3, hp3, ht2⟩
      · exact space_not_in_ci kAS "AS" (by decide) hAS p2 s2 hseg
      · rcases space_locate p3 b w2 (kSel ++ rest) ht2.symm with
          ⟨s2, hseg, hb⟩ | ⟨p4, hp4, ht3⟩
        · have hw2n : IsWs1 (p3 ++ (W ++ s2)) :=
            IsWs1_graft p3 s2 W hW (by rw [← hseg]; exact hw2.2)
          have hb2 : tryM3 (p ++ (W ++ b)) = some (kAS ++ (p3 ++ (W ++ s2)) ++ kSel, rest) := by
            have heq : p ++ (W ++ b) =
                w ++ (kAS ++ ((p3 ++ (W ++ s2)) ++ (kSel ++ rest))) := by
              rw [hp2, hp3, hb]; simp
            rw [heq]
            exact tryM3_build w kAS (p3 ++ (W ++ s2)) kSel rest hw hAS hw2n hSel
          rw [hb2] at h
          cases h
        · rcases space_locate p4 b kSel rest ht3.symm with
            ⟨s2, hseg, hb⟩ | ⟨p5, hp5, ht4⟩
          · exact space_not_in_ci kSel "SELECT" (by decide) hSel p4 s2 hseg
          · have hb2 : tryM3 (p ++ (W ++ b)) =
                some (kAS ++ w2 ++ kSel, p5 ++ (W ++ b)) := by
              have heq : p ++ (W ++ b) =
                  w ++ (kAS ++ (w2 ++ (kSel ++ (p5 ++ (W ++ b))))) := by
                rw [hp2, hp3, hp4, hp5]; simp
              rw [heq]
              exact tryM3_build w kAS w2 kSel (p5 ++ (W ++ b)) hw hAS hw2 hSel
            rw [hb2] at h
            cases h

theorem shrink2 (W p b : List Char) (hW : IsWs1 W)
    (h : tryM2 (p ++ (W ++ b)) = none) : tryM2 (p ++ ' ' :: b) = none := by
  cases hy : tryM2 (p ++ ' ' :: b) with
  | none => rfl
  | some pr =>
    exfalso
    obtain ⟨g, rest⟩ := pr
    obtain ⟨k1, w1, k2, w2, k3, w3, k4, w4, z, hs, hg, hrest,
      hm1, hw1, hm2, hw2, hm3, hw3, hm4, hw4⟩ := tryM2_dest (p ++ ' ' :: b) g rest hy
    rcases space_locate p b k1 _ hs with ⟨s2, hseg, hb⟩ | ⟨p2, hp2, ht⟩
    · exact space_not_in_ci k1 "CREATE" (by decide) hm1 p s2 hseg
    · rcases space_locate p2 b w1 _ ht.symm with ⟨s2, hseg, hb⟩ | ⟨p3, hp3, ht2⟩
      · have hn : IsWs1 (p2 ++ (W ++ s2)) := IsWs1_graft p2 s2 W hW (by rw [← hseg]; exact hw1.2)
        have hb2 := tryM2_build k1 (p2 ++ (W ++ s2)) k2 w2 k3 w3 k4 w4 z
          hm1 hn hm2 hw2 hm3 hw3 hm4 hw4
        rw [show p ++ (W ++ b) = k1 ++ ((p2 ++ (W ++ s2)) ++ (k2 ++ (w2 ++ (k3 ++ (w3 ++
          (k4 ++ (w4 ++ btick :: z))))))) by rw [hp2, hb]; simp] at h
        rw [show k1 ++ ((p2 ++ (W ++ s2)) ++ (k2 ++ (w2 ++ (k3 ++ (w3 ++
          (k4 ++ (w4 ++ btick :: z))))))) = k1 ++ ((p2 ++ (W ++ s2)) ++ (k2 ++ (w2 ++ (k3 ++
          (w3 ++ (k4 ++ ((w4 ++ btick :: z)))))))) by simp] at h
        rw [hb2] at h
        cases h
      · rcases space_locate p3 b k2 _ ht2.symm with ⟨s2, hseg, hb⟩ | ⟨p4, hp4, ht3⟩
        · exact space_not_in_ci k2 "OR" (by decide) hm2 p3 s2 hseg
        · rcases space_locate p4 b w2 _ ht3.symm with ⟨s2, hseg, hb⟩ | ⟨p5, hp5, ht4⟩
          · have hn : IsWs1 (p4 ++ (W ++ s2)) :=
              IsWs1_graft p4 s2 W hW (by rw [← hseg]; exact hw2.2)
            have hb2 := tryM2_build k1 w1 k2 (p4 ++ (W ++ s2)) k3 w3 k4 w4 z
              hm1 hw1 hm2 hn hm3 hw3 hm4 hw4
            rw [show p ++ (W ++ b) = k1 ++ (w1 ++ (k2 ++ ((p4 ++ (W ++ s2)) ++ (k3 ++ (w3 ++
              (k4 ++ (w4 ++ btick :: z))))))) by rw [hp2, hp3, hp4, hb]; simp] at h
            rw [hb2] at h
            cases h
          · rcases space_locate p5 b k3 _ ht4.symm with ⟨s2, hseg, hb⟩ | ⟨p6, hp6, ht5⟩
            · exact space_not_in_ci k3 "REPLACE" (by decide) hm3 p5 s2 hseg
            · rcases space_locate p6 b w3 _ ht5.symm with ⟨s2, hseg, hb⟩ | ⟨p7, hp7, ht6⟩
              · have hn : IsWs1 (p6 ++ (W ++ s2)) :=
                  IsWs1_graft p6 s2 W hW (by rw [← hseg]; exact hw3.2)
                have hb2 := tryM2_build k1 w1 k2 w2 k3 (p6 ++ (W ++ s2)) k4 w4 z
                  hm1 hw1 hm2 hw2 hm3 hn hm4 hw4
                rw [show p ++ (W ++ b) = k1 ++ (w1 ++ (k2 ++ (w2 ++ (k3 ++ ((p6 ++ (W ++ s2)) ++
                  (k4 ++ (w4 ++ btick :: z))))))) by rw [hp2, hp3, hp4, hp5, hp6, hb]; simp] at h
                rw [hb2] at h
                cases h
              · rcases space_locate p7 b k4 _ ht6.symm with ⟨s2, hseg, hb⟩ | ⟨p8, hp8, ht7⟩
                · exact space_not_in_ci k4 "TABLE" (by decide) hm4 p7 s2 hseg
                · rcases space_locate p8 b w4 _ ht7.symm with ⟨s2, hseg, hb⟩ | ⟨p9, hp9, ht8⟩
                  · have hn : IsWs1 (p8 ++ (W ++ s2)) :=
                      IsWs1_graft p8 s2 W hW (by rw [← hseg]; exact hw4.2)
                    have hb2 := tryM2_build k1 w1 k2 w2 k3 w3 k4 (p8 ++ (W ++ s2)) z
                      hm1 hw1 hm2 hw2 hm3 hw3 hm4 hn
                    rw [show p ++ (W ++ b) = k1 ++ (w1 ++ (k2 ++ (w2 ++ (k3 ++ (w3 ++ (k4 ++
                      ((p8 ++ (W ++ s2)) ++ btick :: z))))))) by
                        rw [hp2, hp3, hp4, hp5, hp6, hp7, hp8, hb]; simp] at h
                    rw [hb2] at h
                    cases h
                  · obtain ⟨p10, hp10, hz⟩ := space_locate_tick p9 b z ht8.symm
                    have hb2 := tryM2_build k1 w1 k2 w2 k3 w3 k4 w4 (p10 ++ (W ++ b))
                      hm1 hw1 hm2 hw2 hm3 hw3 hm4 hw4
                    rw [show p ++ (W ++ b) = k1 ++ (w1 ++ (k2 ++ (w2 ++ (k3 ++ (w3 ++ (k4 ++
                      (w4 ++ btick :: (p10 ++ (W ++ b))))))))) by
                        rw [hp2, hp3, hp4, hp5, hp6, hp7, hp8, hp9, hp10]; simp] at h
                    rw [hb2] at h
                    cases h

theorem NonB_graft (pg s2 W : List Char) (hW : IsWs1 W) (h : NonB (pg ++ ' ' :: s2)) :
    pg ++ (W ++ s2) ≠ [] ∧ NonB (pg ++ (W ++ s2)) := by
  constructor
  · intro hx
    rcases List.append_eq_nil.mp hx with ⟨h1, h2⟩
    rcases List.append_eq_nil.mp h2 with ⟨h3, _⟩
    exact hW.1 h3
  · have hp : NonB pg := NonB_of_append_left pg (' ' :: s2) h
    have h2 : NonB (' ' :: s2) := NonB_of_append_right pg (' ' :: s2) h
    exact NonB_append pg (W ++ s2) hp
      (NonB_append W s2 (IsWs_nonB W hW.2) ((NonB_cons_iff ' ' s2).mp h2).2)

theorem shrink1 (W p b : List Char) (hW : IsWs1 W)
    (h : tryM1 (p ++ (W ++ b)) = none) : tryM1 (p ++ ' ' :: b) = none := by
  cases hy : tryM1 (p ++ ' ' :: b) with
  | none => rfl
  | some pr =>
    exfalso
    obtain ⟨g, rest⟩ := pr
    obtain ⟨k1, w1, k2, w2, k3, w3, k4, w4, w5, k5, hs,
      hm1, hw1, hm2, hw2, hm3, hw3, hm4, hw4, hgne, hgb, hw5, hm5⟩ :=
      tryM1_dest (p ++ ' ' :: b) g rest hy
    rcases space_locate p b k1 _ hs with ⟨s2, hseg, hb⟩ | ⟨p2, hp2, ht⟩
    · exact space_not_in_ci k1 "CREATE" (by decide) hm1 p s2 hseg
    · rcases space_locate p2 b w1 _ ht.symm with ⟨s2, hseg, hb⟩ | ⟨p3, hp3, ht2⟩
      · have hn : IsWs1 (p2 ++ (W ++ s2)) := IsWs1_graft p2 s2 W hW (by rw [← hseg]; exact hw1.2)
        have hb2 := tryM1_build k1 (p2 ++ (W ++ s2)) k2 w2 k3 w3 k4 w4 g w5 k5 rest
          hm1 hn hm2 hw2 hm3 hw3 hm4 hw4 hgne hgb hw5 hm5
        rw [show p ++ (W ++ b) = k1 ++ ((p2 ++ (W ++ s2)) ++ (k2 ++ (w2 ++ (k3 ++ (w3 ++
          (k4 ++ (w4 ++ btick :: (g ++ btick :: (w5 ++ (k5 ++ rest)))))))))) by
            rw [hp2, hb]; simp] at h
        rw [hb2] at h
        cases h
      · rcases space_locate p3 b k2 _ ht2.symm with ⟨s2, hseg, hb⟩ | ⟨p4, hp4, ht3⟩
        · exact space_not_in_ci k2 "OR" (by decide) hm2 p3 s2 hseg
        · rcases space_locate p4 b w2 _ ht3.symm with ⟨s2, hseg, hb⟩ | ⟨p5, hp5, ht4⟩
          · have hn : IsWs1 (p4 ++ (W ++ s2)) :=
              IsWs1_graft p4 s2 W hW (by rw [← hseg]; exact hw2.2)
            have hb2 := tryM1_build k1 w1 k2 (p4 ++ (W ++ s2)) k3 w3 k4 w4 g w5 k5 rest
              hm1 hw1 hm2 hn hm3 hw3 hm4 hw4 hgne hgb hw5 hm5
            rw [show p ++ (W ++ b) = k1 ++ (w1 ++ (k2 ++ ((p4 ++ (W ++ s2)) ++ (k3 ++ (w3 ++
              (k4 ++ (w4 ++ btick :: (g ++ btick :: (w5 ++ (k5 ++ rest)))))))))) by
                rw [hp2, hp3, hp4, hb]; simp] at h
            rw [hb2] at h
            cases h
          · rcases space_locate p5 b k3 _ ht4.symm with ⟨s2, hseg, hb⟩ | ⟨p6, hp6, ht5⟩
            · exact space_not_in_ci k3 "REPLACE" (by decide) hm3 p5 s2 hseg
            · rcases space_locate p6 b w3 _ ht5.symm with ⟨s2, hseg, hb⟩ | ⟨p7, hp7, ht6⟩
              · have hn : IsWs1 (p6 ++ (W ++ s2)) :=
                  IsWs1_graft p6 s2 W hW (by rw [← hseg]; exact hw3.2)
                have hb2 := tryM1_build k1 w1 k2 w2 k3 (p6 ++ (W ++ s2)) k4 w4 g w5 k5 rest
                  hm1 hw1 hm2 hw2 hm3 hn hm4 hw4 hgne hgb hw5 hm5
                rw [show p ++ (W ++ b) = k1 ++ (w1 ++ (k2 ++ (w2 ++ (k3 ++ ((p6 ++ (W ++ s2)) ++
                  (k4 ++ (w4 ++ btick :: (g ++ btick :: (w5 ++ (k5 ++ rest)))))))))) by
                    rw [hp2, hp3, hp4, hp5, hp6, hb]; simp] at h
                rw [hb2] at h
                cases h
              · rcases space_locate p7 b k4 _ ht6.symm with ⟨s2, hseg, hb⟩ | ⟨p8, hp8, ht7⟩
                · exact space_not_in_ci k4 "TABLE" (by decide) hm4 p7 s2 hseg
                · rcases space_locate p8 b w4 _ ht7.symm with ⟨s2, hseg, hb⟩ | ⟨p9, hp9, ht8⟩
                  · have hn : IsWs (p8 ++ (W ++ s2)) :=
                      (IsWs1_graft p8 s2 W hW (by rw [← hseg]; exact hw4)).2
                    have hb2 := tryM1_build k1 w1 k2 w2 k3 w3 k4 (p8 ++ (W ++ s2)) g w5 k5 rest
                      hm1 hw1 hm2 hw2 hm3 hw3 hm4 hn hgne hgb hw5 hm5
                    rw [show p ++ (W ++ b) = k1 ++ (w1 ++ (k2 ++ (w2 ++ (k3 ++ (w3 ++ (k4 ++
                      ((p8 ++ (W ++ s2)) ++ btick :: (g ++ btick :: (w5 ++ (k5 ++ rest)))))))))) by
                        rw [hp2, hp3, hp4, hp5, hp6, hp7, hp8, hb]; simp] at h
                    rw [hb2] at h
                    cases h
                  · obtain ⟨p10, hp10, hz⟩ := space_locate_tick p9 b _ ht8.symm
                    rcases space_locate p10 b g (btick :: (w5 ++ (k5 ++ rest))) hz.symm with
                      ⟨s2, hseg, hb⟩ | ⟨p11, hp11, ht9⟩
                    · obtain ⟨hne2, hnb2⟩ := NonB_graft p10 s2 W hW (by rw [← hseg]; exact hgb)
                      have hb2 := tryM1_build k1 w1 k2 w2 k3 w3 k4 w4 (p10 ++ (W ++ s2)) w5 k5 rest
                        hm1 hw1 hm2 hw2 hm3 hw3 hm4 hw4 hne2 hnb2 hw5 hm5
                      rw [show p ++ (W ++ b) = k1 ++ (w1 ++ (k2 ++ (w2 ++ (k3 ++ (w3 ++ (k4 ++
                        (w4 ++ btick :: ((p10 ++ (W ++ s2)) ++ btick :: (w5 ++ (k5 ++ rest)))))))))) by
                          rw [hp2, hp3, hp4, hp5, hp6, hp7, hp8, hp9, hp10, hb]; simp] at h
                      rw [hb2] at h
                      cases h
                    · obtain ⟨p12, hp12, hz2⟩ := space_locate_tick p11 b _ ht9.symm
                      rcases space_locate p12 b w5 (k5 ++ rest) hz2.symm with
                        ⟨s2, hseg, hb⟩ | ⟨p13, hp13, ht10⟩
                      · have hn : IsWs (p12 ++ (W ++ s2)) :=
                          (IsWs1_graft p12 s2 W hW (by rw [← hseg]; exact hw5)).2
                        have hb2 := tryM1_build k1 w1 k2 w2 k3 w3 k4 w4 g (p12 ++ (W ++ s2)) k5 rest
                          hm1 hw1 hm2 hw2 hm3 hw3 hm4 hw4 hgne hgb hn hm5
                        rw [show p ++ (W ++ b) = k1 ++ (w1 ++ (k2 ++ (w2 ++ (k3 ++ (w3 ++ (k4 ++
                          (w4 ++ btick :: (g ++ btick :: ((p12 ++ (W ++ s2)) ++ (k5 ++ rest)))))))))) by
                            rw [hp2, hp3, hp4, hp5, hp6, hp7, hp8, hp9, hp10, hp11, hp12, hb]
                            simp] at h
                        rw [hb2] at h
                        cases h
                      · rcases space_locate p13 b k5 rest ht10.symm with
                          ⟨s2, hseg, hb⟩ | ⟨p14, hp14, ht11⟩
                        · exact space_not_in_ci k5 "AS" (by decide) hm5 p13 s2 hseg
                        · have hb2 := tryM1_build k1 w1 k2 w2 k3 w3 k4 w4 g w5 k5 (p14 ++ (W ++ b))
                            hm1 hw1 hm2 hw2 hm3 hw3 hm4 hw4 hgne hgb hw5 hm5
                          rw [show p ++ (W ++ b) = k1 ++ (w1 ++ (k2 ++ (w2 ++ (k3 ++ (w3 ++ (k4 ++
                            (w4 ++ btick :: (g ++ btick :: (w5 ++ (k5 ++ (p14 ++ (W ++ b)))))))))))) by
                              rw [hp2, hp3, hp4, hp5, hp6, hp7, hp8, hp9, hp10, hp11, hp12, hp13, hp14]
                              simp] at h
                          rw [hb2] at h
                          cases h

theorem sub1_cons_some (c : Char) (cs g rest : List Char)
    (h : tryM1 (c :: cs) = some (g, rest)) : sub1 (c :: cs) = canon1 g ++ rest := by
  simp only [sub1]
  rw [h]

theorem sub1_cons_none (c : Char) (cs : List Char) (h : tryM1 (c :: cs) = none) :
    sub1 (c :: cs) = c :: sub1 cs := by
  simp only [sub1]
  rw [h]

theorem sub2_cons_some (c : Char) (cs g rest : List Char)
    (h : tryM2 (c :: cs) = some (g, rest)) : sub2 (c :: cs) = g ++ ' ' :: rest := by
  simp only [sub2]
  rw [h]

theorem sub2_cons_none (c : Char) (cs : List Char) (h : tryM2 (c :: cs) = none) :
    sub2 (c :: cs) = c :: sub2 cs := by
  simp only [sub2]
  rw [h]

theorem sub3_cons_fire (p : Option Char) (c : Char) (cs g rest : List Char)
    (hp : p = some btick) (h : tryM3 (c :: cs) = some (g, rest)) :
    sub3 p (c :: cs) = ' ' :: (g ++ rest) := by
  simp only [sub3]
  rw [if_pos (by simp [hp]), h]

theorem sub3_cons_skip (p : Option Char) (c : Char) (cs : List Char)
    (h : p = some btick → tryM3 (c :: cs) = none) :
    sub3 p (c :: cs) = c :: sub3 (some c) cs := by
  simp only [sub3]
  by_cases hp : p = some btick
  · rw [if_pos (by simp [hp]), h hp]
  · rw [if_neg (by simpa using hp)]

theorem ciMatch_self (k : List Char) : ciMatch k k = true := by
  induction k with
  | nil => rfl
  | cons c cs ih => simp [ciMatch, ciEqChar, ih]

theorem ws_not_ciEq (p : Char) (hp : isPyWs p.toLower = false) (c : Char)
    (hc : isPyWs c = true) : ciEqChar p c = false := by
  cases he : ciEqChar p c with
  | false => rfl
  | true => rw [ciEq_not_ws p c hp he] at hc; cases hc

theorem btick_not_ciEq (p : Char) (hp : (p.toLower == btick) = false) :
    ciEqChar p btick = false := by
  cases he : ciEqChar p btick with
  | false => rfl
  | true =>
    have h2 := ciEq_not_btick p btick hp he
    simp at h2

theorem tryM1_head_fail (c : Char) (t : List Char) (hc : ciEqChar 'C' c = false) :
    tryM1 (c :: t) = none := by
  unfold tryM1
  have h1 : ciPrefix "CREATE".toList (c :: t) = none := by
    show ciPrefix ('C' :: "REATE".toList) (c :: t) = none
    simp [ciPrefix, hc]
  rw [h1]

theorem tryM2_head_fail (c : Char) (t : List Char) (hc : ciEqChar 'C' c = false) :
    tryM2 (c :: t) = none := by
  unfold tryM2
  have h1 : ciPrefixC "CREATE".toList (c :: t) = none := by
    show ciPrefixC ('C' :: "REATE".toList) (c :: t) = none
    simp [ciPrefixC, hc]
  rw [h1]

theorem tryM1_ws_head (c : Char) (t : List Char) (hc : isPyWs c = true) :
    tryM1 (c :: t) = none :=
  tryM1_head_fail c t (ws_not_ciEq 'C' (by decide) c hc)

theorem tryM2_ws_head (c : Char) (t : List Char) (hc : isPyWs c = true) :
    tryM2 (c :: t) = none :=
  tryM2_head_fail c t (ws_not_ciEq 'C' (by decide) c hc)

theorem tryM1_btick_head (t : List Char) : tryM1 (btick :: t) = none :=
  tryM1_head_fail btick t (btick_not_ciEq 'C' (by decide))

theorem tryM2_btick_head (t : List Char) : tryM2 (btick :: t) = none :=
  tryM2_head_fail btick t (btick_not_ciEq 'C' (by decide))

theorem tryM1_canon (g r : List Char) (hg : g ≠ []) (hb : NonB g) :
    tryM1 (canon1 g ++ r) = some (g, r) := by
  have heq : canon1 g ++ r = "CREATE".toList ++ ([' '] ++ ("OR".toList ++ ([' '] ++
      ("REPLACE".toList ++ ([' '] ++ ("TABLE".toList ++ ([' '] ++
      btick :: (g ++ btick :: ([' '] ++ ("AS".toList ++ r)))))))))) := by
    show ("CREATE OR REPLACE TABLE ".toList ++ btick :: (g ++ btick :: " AS".toList)) ++ r = _
    simp
  rw [heq]
  exact tryM1_build "CREATE".toList [' '] "OR".toList [' '] "REPLACE".toList [' ']
    "TABLE".toList [' '] g [' '] "AS".toList r
    (ciMatch_self _) ⟨by simp, rfl⟩ (ciMatch_self _) ⟨by simp, rfl⟩
    (ciMatch_self _) ⟨by simp, rfl⟩ (ciMatch_self _) rfl
    hg hb rfl (ciMatch_self _)

theorem tryM2_canonSite (k z : List Char) (hk : IsG2 k) :
    tryM2 (k ++ (' ' :: btick :: z)) = some (k, btick :: z) := by
  obtain ⟨k1, w1, k2, w2, k3, w3, k4, hkeq, hm1, hw1, hm2, hw2, hm3, hw3, hm4⟩ := hk
  have heq : k ++ (' ' :: btick :: z) = k1 ++ (w1 ++ (k2 ++ (w2 ++ (k3 ++ (w3 ++
      (k4 ++ ([' '] ++ btick :: z))))))) := by
    rw [hkeq]; simp
  rw [heq, hkeq]
  exact tryM2_build k1 w1 k2 w2 k3 w3 k4 [' '] z hm1 hw1 hm2 hw2 hm3 hw3 hm4
    ⟨by simp, rfl⟩

theorem tryM3_canonSite (g3 r : List Char) (hg : IsG3 g3) :
    tryM3 (' ' :: (g3 ++ r)) = some (g3, r) := by
  obtain ⟨kAS, w2, kSel, hgeq, hAS, hw2, hSel⟩ := hg
  have heq : ' ' :: (g3 ++ r) = [' '] ++ (kAS ++ (w2 ++ (kSel ++ r))) := by
    rw [hgeq]; simp
  rw [heq, hgeq]
  exact tryM3_build [' '] kAS w2 kSel r ⟨by simp, rfl⟩ hAS hw2 hSel

theorem tailsFail1_shift (d : List Char) : ∀ (a q : List Char),
    tailsFail1 (d ++ a) q ↔ tailsFail1 d (a ++ q) ∧ tailsFail1 a q := by
  induction d with
  | nil =>
    intro a q
    simp only [List.nil_append, tailsFail1]
    exact ⟨fun h => ⟨trivial, h⟩, fun h => h.2⟩
  | cons c d2 ih =>
    intro a q
    show (tryM1 (c :: (d2 ++ a ++ q)) = none ∧ tailsFail1 (d2 ++ a) q) ↔ _
    rw [ih a q, List.append_assoc]
    show _ ↔ (tryM1 (c :: (d2 ++ (a ++ q))) = none ∧ tailsFail1 d2 (a ++ q)) ∧ tailsFail1 a q
    tauto

theorem tailsFail2_shift (d : List Char) : ∀ (a q : List Char),
    tailsFail2 (d ++ a) q ↔ tailsFail2 d (a ++ q) ∧ tailsFail2 a q := by
  induction d with
  | nil =>
    intro a q
    simp only [List.nil_append, tailsFail2]
    exact ⟨fun h => ⟨trivial, h⟩, fun h => h.2⟩
  | cons c d2 ih =>
    intro a q
    show (tryM2 (c :: (d2 ++ a ++ q)) = none ∧ tailsFail2 (d2 ++ a) q) ↔ _
    rw [ih a q, List.append_assoc]
    show _ ↔ (tryM2 (c :: (d2 ++ (a ++ q))) = none ∧ tailsFail2 d2 (a ++ q)) ∧ tailsFail2 a q
    tauto

theorem getLast?_cons_isSome (e : Char) (d3 : List Char) :
    ∃ y, (e :: d3).getLast? = some y := by
  induction d3 generalizing e with
  | nil => exact ⟨e, rfl⟩
  | cons f d4 ih =>
    rw [List.getLast?_cons_cons]
    exact ih f

theorem prevAfter_cons (p : Option Char) (c : Char) (d2 : List Char) :
    prevAfter p (c :: d2) = prevAfter (some c) d2 := by
  cases d2 with
  | nil => rfl
  | cons e d3 =>
    obtain ⟨y, hy⟩ := getLast?_cons_isSome e d3
    show prevAfter p (c :: e :: d3) = prevAfter (some c) (e :: d3)
    unfold prevAfter
    rw [List.getLast?_cons_cons, hy]

theorem tailsFail3_shift (d : List Char) : ∀ (p : Option Char) (a q : List Char),
    tailsFail3 p (d ++ a) q ↔
      tailsFail3 p d (a ++ q) ∧ tailsFail3 (prevAfter p d) a q := by
  induction d with
  | nil =>
    intro p a q
    simp only [List.nil_append, tailsFail3, prevAfter]
    exact ⟨fun h => ⟨trivial, h⟩, fun h => h.2⟩
  | cons c d2 ih =>
    intro p a q
    show ((p = some btick → tryM3 (c :: (d2 ++ a ++ q)) = none) ∧
      tailsFail3 (some c) (d2 ++ a) q) ↔ _
    rw [ih (some c) a q, List.append_assoc, prevAfter_cons]
    show _ ↔ ((p = some btick → tryM3 (c :: (d2 ++ (a ++ q))) = none) ∧
      tailsFail3 (some c) d2 (a ++ q)) ∧ tailsFail3 (prevAfter (some c) d2) a q
    tauto

theorem tailsFail1_shrink (d : List Char) : ∀ (a W b : List Char), IsWs1 W →
    tailsFail1 d (a ++ (W ++ b)) → tailsFail1 d (a ++ (' ' :: b)) := by
  induction d with
  | nil => intro a W b _ _; trivial
  | cons c d2 ih =>
    intro a W b hW h
    obtain ⟨h1, h2⟩ := h
    refine ⟨?_, ih a W b hW h2⟩
    have h3 : tryM1 (((c :: d2) ++ a) ++ (W ++ b)) = none := by simpa using h1
    have h4 := shrink1 W ((c :: d2) ++ a) b hW h3
    simpa using h4

theorem tailsFail2_shrink (d : List Char) : ∀ (a W b : List Char), IsWs1 W →
    tailsFail2 d (a ++ (W ++ b)) → tailsFail2 d (a ++ (' ' :: b)) := by
  induction d with
  | nil => intro a W b _ _; trivial
  | cons c d2 ih =>
    intro a W b hW h
    obtain ⟨h1, h2⟩ := h
    refine ⟨?_, ih a W b hW h2⟩
    have h3 : tryM2 (((c :: d2) ++ a) ++ (W ++ b)) = none := by simpa using h1
    have h4 := shrink2 W ((c :: d2) ++ a) b hW h3
    simpa using h4

theorem tailsFail3_shrink (d : List Char) : ∀ (p : Option Char) (a W b : List Char),
    IsWs1 W → tailsFail3 p d (a ++ (W ++ b)) → tailsFail3 p d (a ++ (' ' :: b)) := by
  induction d with
  | nil => intro p a W b _ _; trivial
  | cons c d2 ih =>
    intro p a W b hW h
    obtain ⟨h1, h2⟩ := h
    refine ⟨?_, ih (some c) a W b hW h2⟩
    intro hp
    have h3 : tryM3 (((c :: d2) ++ a) ++ (W ++ b)) = none := by simpa using h1 hp
    have h4 := shrink3 W ((c :: d2) ++ a) b hW h3
    simpa using h4

theorem sub1_cases (x : List Char) :
    (sub1 x = x ∧ tailsFail1 x []) ∨
    ∃ d q g rest, x = d ++ q ∧ tryM1 q = some (g, rest) ∧ tailsFail1 d q ∧
      sub1 x = d ++ (canon1 g ++ rest) := by
  induction x with
  | nil => exact Or.inl ⟨rfl, trivial⟩
  | cons c cs ih =>
    cases hm : tryM1 (c :: cs) with
    | some pr =>
      obtain ⟨g, rest⟩ := pr
      right
      exact ⟨[], c :: cs, g, rest, rfl, hm, trivial, sub1_cons_some c cs g rest hm⟩
    | none =>
      rcases ih with ⟨hid, hfail⟩ | ⟨d, q, g, rest, hx, hq, hfail, hout⟩
      · left
        refine ⟨?_, by simpa using hm, hfail⟩
        rw [sub1_cons_none c cs hm, hid]
      · right
        refine ⟨c :: d, q, g, rest, by rw [hx]; rfl, hq, ⟨?_, hfail⟩, ?_⟩
        · rw [← hx]; simpa using hm
        · rw [sub1_cons_none c cs hm, hout]
          rfl

theorem sub2_cases (x : List Char) :
    (sub2 x = x ∧ tailsFail2 x []) ∨
    ∃ d q g rest, x = d ++ q ∧ tryM2 q = some (g, rest) ∧ tailsFail2 d q ∧
      sub2 x = d ++ (g ++ ' ' :: rest) := by
  induction x with
  | nil => exact Or.inl ⟨rfl, trivial⟩
  | cons c cs ih =>
    cases hm : tryM2 (c :: cs) with
    | some pr =>
      obtain ⟨g, rest⟩ := pr
      right
      exact ⟨[], c :: cs, g, rest, rfl, hm, trivial, sub2_cons_some c cs g rest hm⟩
    | none =>
      rcases ih with ⟨hid, hfail⟩ | ⟨d, q, g, rest, hx, hq, hfail, hout⟩
      · left
        refine ⟨?_, by simpa using hm, hfail⟩
        rw [sub2_cons_none c cs hm, hid]
      · right
        refine ⟨c :: d, q, g, rest, by rw [hx]; rfl, hq, ⟨?_, hfail⟩, ?_⟩
        · rw [← hx]; simpa using hm
        · rw [sub2_cons_none c cs hm, hout]
          rfl

theorem sub3_cases (x : List Char) : ∀ (p : Option Char),
    (sub3 p x = x ∧ tailsFail3 p x []) ∨
    ∃ a q g rest, x = a ++ q ∧ tryM3 q = some (g, rest) ∧
      ((a = [] ∧ p = some btick) ∨ ∃ a2, a = a2 ++ [btick]) ∧
      tailsFail3 p a q ∧ sub3 p x = a ++ (' ' :: (g ++ rest)) := by
  induction x with
  | nil => intro p; exact Or.inl ⟨rfl, trivial⟩
  | cons c cs ih =>
    intro p
    by_cases hp : p = some btick
    · cases hm : tryM3 (c :: cs) with
      | some pr =>
        obtain ⟨g, rest⟩ := pr
        right
        exact ⟨[], c :: cs, g, rest, rfl, hm, Or.inl ⟨rfl, hp⟩, trivial,
          sub3_cons_fire p c cs g rest hp hm⟩
      | none =>
        rcases ih (some c) with ⟨hid, hfail⟩ | ⟨a, q, g, rest, hx, hq, hab, hfail, hout⟩
        · left
          refine ⟨?_, fun _ => by simpa using hm, hfail⟩
          rw [sub3_cons_skip p c cs (fun _ => hm), hid]
        · right
          refine ⟨c :: a, q, g, rest, by rw [hx]; rfl, hq, ?_, ⟨?_, hfail⟩, ?_⟩
          · rcases hab with ⟨ha, hpc⟩ | ⟨a2, ha⟩
            · refine Or.inr ⟨[], ?_⟩
              have hc : c = btick := by injection hpc
              rw [ha, hc]
              rfl
            · exact Or.inr ⟨c :: a2, by rw [ha]; rfl⟩
          · intro _
            rw [← hx]
            simpa using hm
          · rw [sub3_cons_skip p c cs (fun _ => hm), hout]
            rfl
    · rcases ih (some c) with ⟨hid, hfail⟩ | ⟨a, q, g, rest, hx, hq, hab, hfail, hout⟩
      · left
        refine ⟨?_, fun hpp => absurd hpp hp, hfail⟩
        rw [sub3_cons_skip p c cs (fun hpp => absurd hpp hp), hid]
      · right
        refine ⟨c :: a, q, g, rest, by rw [hx]; rfl, hq, ?_, ⟨?_, hfail⟩, ?_⟩
        · rcases hab with ⟨ha, hpc⟩ | ⟨a2, ha⟩
          · refine Or.inr ⟨[], ?_⟩
            have hc : c = btick := by injection hpc
            rw [ha, hc]
            rfl
          · exact Or.inr ⟨c :: a2, by rw [ha]; rfl⟩
        · intro hpp
          exact absurd hpp hp
        · rw [sub3_cons_skip p c cs (fun hpp => absurd hpp hp), hout]
          rfl

theorem sub1_append_fail (d : List Char) : ∀ (q : List Char), tailsFail1 d q →
    sub1 (d ++ q) = d ++ sub1 q := by
  induction d with
  | nil => intro q _; rfl
  | cons c d2 ih =>
    intro q h
    obtain ⟨h1, h2⟩ := h
    show sub1 (c :: (d2 ++ q)) = c :: (d2 ++ sub1 q)
    rw [sub1_cons_none c (d2 ++ q) h1, ih q h2]

theorem sub2_append_fail (d : List Char) : ∀ (q : List Char), tailsFail2 d q →
    sub2 (d ++ q) = d ++ sub2 q := by
  induction d with
  | nil => intro q _; rfl
  | cons c d2 ih =>
    intro q h
    obtain ⟨h1, h2⟩ := h
    show sub2 (c :: (d2 ++ q)) = c :: (d2 ++ sub2 q)
    rw [sub2_cons_none c (d2 ++ q) h1, ih q h2]

theorem sub3_append_fail (d : List Char) : ∀ (p : Option Char) (q : List Char),
    tailsFail3 p d q → sub3 p (d ++ q) = d ++ sub3 (prevAfter p d) q := by
  induction d with
  | nil => intro p q _; rfl
  | cons c d2 ih =>
    intro p q h
    obtain ⟨h1, h2⟩ := h
    show sub3 p (c :: (d2 ++ q)) = c :: (d2 ++ sub3 (prevAfter p (c :: d2)) q)
    rw [prevAfter_cons, sub3_cons_skip p c (d2 ++ q) h1, ih (some c) q h2]

theorem sub1_fix (x : List Char) (h : Hyp1 x) : sub1 x = x := by
  rcases h with h | ⟨d, g, r, hx, hg, hb, hfail⟩
  · have h2 := sub1_append_fail x [] (by simpa using h)
    simpa [sub1] using h2
  · rw [hx, sub1_append_fail d (canon1 g ++ r) hfail]
    have h2 : sub1 (canon1 g ++ r) = canon1 g ++ r := by
      cases hc : canon1 g ++ r with
      | nil => rfl
      | cons c cs =>
        rw [sub1_cons_some c cs g r (by rw [← hc]; exact tryM1_canon g r hg hb)]
        exact hc
    rw [h2]

theorem sub2_fix (x : List Char) (h : Hyp2 x) : sub2 x = x := by
  rcases h with h | ⟨d, k, z, hx, hk, hfail⟩
  · have h2 := sub2_append_fail x [] (by simpa using h)
    simpa [sub2] using h2
  · rw [hx]
    rw [sub2_append_fail d (k ++ (' ' :: btick :: z)) (by simpa using hfail)]
    have h2 : sub2 (k ++ (' ' :: btick :: z)) = k ++ (' ' :: btick :: z) := by
      cases hc : k ++ (' ' :: btick :: z) with
      | nil => simp at hc
      | cons c cs =>
        rw [sub2_cons_some c cs k (btick :: z) (by rw [← hc]; exact tryM2_canonSite k z hk)]
        rw [← hc]
    rw [h2]

theorem sub3_fix (x : List Char) (h : Hyp3 x) : sub3 none x = x := by
  rcases h with h | ⟨a, g3, r, hx, ⟨a2, ha⟩, hg, hfail⟩
  · have h2 := sub3_append_fail x none [] (by simpa using h)
    simpa [sub3] using h2
  · rw [hx, sub3_append_fail a none (' ' :: (g3 ++ r)) hfail]
    have hpa : prevAfter none a = some btick := by
      rw [ha]
      simp [prevAfter, List.getLast?_concat]
    rw [hpa]
    rw [sub3_cons_fire (some btick) ' ' (g3 ++ r) g3 r rfl (tryM3_canonSite g3 r hg)]

theorem IsCi_NonB (k : List Char) (pat : String)
    (hpat : pat.toList.all (fun p => !(p.toLower == btick)) = true)
    (h : IsCi k pat) : NonB k := by
  simp only [NonB, List.all_eq_true]
  intro c hc
  obtain ⟨p, hp, hpc⟩ := ciMatch_all k pat.toList h c hc
  simp only [List.all_eq_true] at hpat
  have h2 := hpat p hp
  simpa using ciEq_not_btick p c (by simpa using h2) hpc

theorem IsWs_rev (w : List Char) (h : IsWs w) : IsWs w.reverse := by
  simpa [IsWs, List.all_reverse] using h

theorem ciMatch_rev_head (k : List Char) (pat : String) (pre : List Char) (p : Char)
    (hp : pat.toList = pre ++ [p]) (hlow : isPyWs p.toLower = false) (h : IsCi k pat) :
    ∃ c k2, k.reverse = c :: k2 ∧ isPyWs c = false := by
  simp only [IsCi, hp] at h
  obtain ⟨k2, c, rfl, _, hc⟩ := ciMatch_append_last pre p k h
  exact ⟨c, k2.reverse, by simp, ciEq_not_ws p c hlow hc⟩

theorem headNot_cons (f : Char → Bool) (c : Char) (r : List Char) (h : f c = false) :
    HeadNot f (c :: r) := h

theorem g2_align (e k1 w1 k2 w2 k3 w3 k4 w4 : List Char)
    (hm1 : IsCi k1 "CREATE") (hw1 : IsWs1 w1) (hm2 : IsCi k2 "OR") (hw2 : IsWs1 w2)
    (hm3 : IsCi k3 "REPLACE") (hw3 : IsWs1 w3) (hm4 : IsCi k4 "TABLE") (hw4 : IsWs w4)
    (heq : k1 ++ (w1 ++ (k2 ++ (w2 ++ (k3 ++ (w3 ++ (k4 ++ w4)))))) =
      e ++ "CREATE OR REPLACE TABLE ".toList) :
    e = [] ∧ w4 = [' '] ∧
      k1 ++ (w1 ++ (k2 ++ (w2 ++ (k3 ++ (w3 ++ k4))))) =
        "CREATE OR REPLACE TABLE".toList := by
  have hrev := congrArg List.reverse heq
  simp only [List.reverse_append] at hrev
  have hc24 : "CREATE OR REPLACE TABLE ".toList.reverse =
      [' '] ++ (['E','L','B','A','T'] ++ ([' '] ++ (['E','C','A','L','P','E','R'] ++
        ([' '] ++ (['R','O'] ++ ([' '] ++ ['E','T','A','E','R','C'])))))) := by decide
  rw [hc24] at hrev
  have hassoc1 : (([' '] ++ (['E','L','B','A','T'] ++ ([' '] ++ (['E','C','A','L','P','E','R'] ++
      ([' '] ++ (['R','O'] ++ ([' '] ++ ['E','T','A','E','R','C']))))))) ++ e.reverse) =
      [' '] ++ (['E','L','B','A','T'] ++ ([' '] ++ (['E','C','A','L','P','E','R'] ++
        ([' '] ++ (['R','O'] ++ ([' '] ++ (['E','T','A','E','R','C'] ++ e.reverse))))))) := by
    simp
  rw [hassoc1] at hrev
  have hassoc2 : w4.reverse ++ k4.reverse ++ w3.reverse ++ k3.reverse ++ w2.reverse ++
      k2.reverse ++ w1.reverse ++ k1.reverse =
      w4.reverse ++ (k4.reverse ++ (w3.reverse ++ (k3.reverse ++ (w2.reverse ++
        (k2.reverse ++ (w1.reverse ++ k1.reverse)))))) := by
    simp
  rw [hassoc2] at hrev
  obtain ⟨c4, k4b, hk4r, hc4⟩ := ciMatch_rev_head k4 "TABLE" "TABL".toList 'E'
    (by decide) (by decide) hm4
  have step1 := leading_ws_unique w4.reverse
    (k4.reverse ++ (w3.reverse ++ (k3.reverse ++ (w2.reverse ++
      (k2.reverse ++ (w1.reverse ++ k1.reverse)))))) [' ']
    (['E','L','B','A','T'] ++ ([' '] ++ (['E','C','A','L','P','E','R'] ++
      ([' '] ++ (['R','O'] ++ ([' '] ++ (['E','T','A','E','R','C'] ++ e.reverse)))))))
    (IsWs_rev w4 hw4) rfl
    (by rw [hk4r]; simpa [HeadNot] using hc4)
    (headNot_cons isPyWs 'E' _ (by decide)) hrev
  obtain ⟨hw4r, hrest1⟩ := step1
  have hk4len : k4.reverse.length = 5 := by
    simpa using ciMatch_length k4 "TABLE".toList hm4
  obtain ⟨hk4v, hrest2⟩ := List.append_inj hrest1 (by rw [hk4len]; rfl)
  obtain ⟨c3, k3b, hk3r, hc3⟩ := ciMatch_rev_head k3 "REPLACE" "REPLAC".toList 'E'
    (by decide) (by decide) hm3
  have step2 := leading_ws_unique w3.reverse
    (k3.reverse ++ (w2.reverse ++ (k2.reverse ++ (w1.reverse ++ k1.reverse)))) [' ']
    (['E','C','A','L','P','E','R'] ++ ([' '] ++ (['R','O'] ++ ([' '] ++
      (['E','T','A','E','R','C'] ++ e.reverse)))))
    (IsWs_rev w3 hw3.2) rfl
    (by rw [hk3r]; simpa [HeadNot] using hc3)
    (headNot_cons isPyWs 'E' _ (by decide)) hrest2
  obtain ⟨hw3r, hrest3⟩ := step2
  have hk3len : k3.reverse.length = 7 := by
    simpa using ciMatch_length k3 "REPLACE".toList hm3
  obtain ⟨hk3v, hrest4⟩ := List.append_inj hrest3 (by rw [hk3len]; rfl)
  obtain ⟨c2, k2b, hk2r, hc2⟩ := ciMatch_rev_head k2 "OR" "O".toList 'R'
    (by decide) (by decide) hm2
  have step3 := leading_ws_unique w2.reverse
    (k2.reverse ++ (w1.reverse ++ k1.reverse)) [' ']
    (['R','O'] ++ ([' '] ++ (['E','T','A','E','R','C'] ++ e.reverse)))
    (IsWs_rev w2 hw2.2) rfl
    (by rw [hk2r]; simpa [HeadNot] using hc2)
    (headNot_cons isPyWs 'R' _ (by decide)) hrest4
  obtain ⟨hw2r, hrest5⟩ := step3
  have hk2len : k2.reverse.length = 2 := by
    simpa using ciMatch_length k2 "OR".toList hm2
  obtain ⟨hk2v, hrest6⟩ := List.append_inj hrest5 (by rw [hk2len]; rfl)
  obtain ⟨c1, k1b, hk1r, hc1⟩ := ciMatch_rev_head k1 "CREATE" "CREAT".toList 'E'
    (by decide) (by decide) hm1
  have step4 := leading_ws_unique w1.reverse (k1.reverse) [' ']
    (['E','T','A','E','R','C'] ++ e.reverse)
    (IsWs_rev w1 hw1.2) rfl
    (by rw [hk1r]; simpa [HeadNot] using hc1)
    (headNot_cons isPyWs 'E' _ (by decide)) hrest6
  obtain ⟨hw1r, hrest7⟩ := step4
  have hk1len : k1.reverse.length = 6 := by
    simpa using ciMatch_length k1 "CREATE".toList hm1
  have herev : e.reverse = [] := by
    have hlen := congrArg List.length hrest7
    simp only [List.length_append, List.length_cons, List.length_nil, hk1len] at hlen
    have : e.reverse.length = 0 := by omega
    simpa using this
  have he : e = [] := by simpa using congrArg List.reverse herev
  refine ⟨he, ?_, ?_⟩
  · have := congrArg List.reverse hw4r
    simpa using this
  · have hk1v : k1.reverse = ['E','T','A','E','R','C'] := by
      rw [herev] at hrest7
      simpa using hrest7
    have e1 : k1 = "CREATE".toList := by
      have := congrArg List.reverse hk1v
      simpa using this
    have e2 : k2 = "OR".toList := by
      have := congrArg List.reverse hk2v
      simpa using this
    have e3 : k3 = "REPLACE".toList := by
      have := congrArg List.reverse hk3v
      simpa using this
    have e4 : k4 = "TABLE".toList := by
      have := congrArg List.reverse hk4v
      simpa using this
    have e5 : w1 = [' '] := by
      have := congrArg List.reverse hw1r
      simpa using this
    have e6 : w2 = [' '] := by
      have := congrArg List.reverse hw2r
      simpa using this
    have e7 : w3 = [' '] := by
      have := congrArg List.reverse hw3r
      simpa using this
    rw [e1, e2, e3, e4, e5, e6, e7]
    decide

theorem NonB_C24 : NonB "CREATE OR REPLACE TABLE ".toList := rfl

theorem replace1 (p rest g mk1 mw1 mk2 mw2 mk3 mw3 mk4 mw4 mw5 mk5 : List Char)
    (hn1 : IsCi mk1 "CREATE") (hnw1 : IsWs1 mw1) (hn2 : IsCi mk2 "OR") (hnw2 : IsWs1 mw2)
    (hn3 : IsCi mk3 "REPLACE") (hnw3 : IsWs1 mw3) (hn4 : IsCi mk4 "TABLE") (hnw4 : IsWs mw4)
    (hgne : g ≠ []) (hgb : NonB g) (hnw5 : IsWs mw5) (hn5 : IsCi mk5 "AS")
    (hp : p ≠ [])
    (h : tryM1 (p ++ (mk1 ++ (mw1 ++ (mk2 ++ (mw2 ++ (mk3 ++ (mw3 ++ (mk4 ++ (mw4 ++
      btick :: (g ++ btick :: (mw5 ++ (mk5 ++ rest)))))))))))) = none) :
    tryM1 (p ++ (canon1 g ++ rest)) = none := by
  cases hy : tryM1 (p ++ (canon1 g ++ rest)) with
  | none => rfl
  | some pr =>
    exfalso
    obtain ⟨G, R⟩ := pr
    obtain ⟨K1, W1, K2, W2, K3, W3, K4, W4, W5, K5, hs,
      hM1, hW1, hM2, hW2, hM3, hW3, hM4, hW4b, hGne, hGb, hW5b, hM5⟩ :=
      tryM1_dest _ G R hy
    have hPnb : NonB (K1 ++ (W1 ++ (K2 ++ (W2 ++ (K3 ++ (W3 ++ (K4 ++ W4))))))) := by
      refine NonB_append _ _ (IsCi_NonB K1 "CREATE" (by decide) hM1) ?_
      refine NonB_append _ _ (IsWs_nonB W1 hW1.2) ?_
      refine NonB_append _ _ (IsCi_NonB K2 "OR" (by decide) hM2) ?_
      refine NonB_append _ _ (IsWs_nonB W2 hW2.2) ?_
      refine NonB_append _ _ (IsCi_NonB K3 "REPLACE" (by decide) hM3) ?_
      refine NonB_append _ _ (IsWs_nonB W3 hW3.2) ?_
      exact NonB_append _ _ (IsCi_NonB K4 "TABLE" (by decide) hM4) (IsWs_nonB W4 hW4b)
    have hmpreNb : NonB (mk1 ++ (mw1 ++ (mk2 ++ (mw2 ++ (mk3 ++ (mw3 ++ (mk4 ++ mw4))))))) := by
      refine NonB_append _ _ (IsCi_NonB mk1 "CREATE" (by decide) hn1) ?_
      refine NonB_append _ _ (IsWs_nonB mw1 hnw1.2) ?_
      refine NonB_append _ _ (IsCi_NonB mk2 "OR" (by decide) hn2) ?_
      refine NonB_append _ _ (IsWs_nonB mw2 hnw2.2) ?_
      refine NonB_append _ _ (IsCi_NonB mk3 "REPLACE" (by decide) hn3) ?_
      refine NonB_append _ _ (IsWs_nonB mw3 hnw3.2) ?_
      exact NonB_append _ _ (IsCi_NonB mk4 "TABLE" (by decide) hn4) (IsWs_nonB mw4 hnw4)
    have hmpreNe : mk1 ++ (mw1 ++ (mk2 ++ (mw2 ++ (mk3 ++ (mw3 ++ (mk4 ++ mw4)))))) ≠ [] := by
      intro hx
      rcases List.append_eq_nil.mp hx with ⟨h1, _⟩
      exact IsCi_ne_nil mk1 "CREATE" (by decide) hn1 h1
    have hE : (K1 ++ (W1 ++ (K2 ++ (W2 ++ (K3 ++ (W3 ++ (K4 ++ W4))))))) ++
        (btick :: (G ++ btick :: (W5 ++ (K5 ++ R)))) =
        (p ++ "CREATE OR REPLACE TABLE ".toList) ++
          btick :: (g ++ btick :: (" AS".toList ++ rest)) := by
      have hL : p ++ (canon1 g ++ rest) = (p ++ "CREATE OR REPLACE TABLE ".toList) ++
          btick :: (g ++ btick :: (" AS".toList ++ rest)) := by
        show p ++ (("CREATE OR REPLACE TABLE ".toList ++
          btick :: (g ++ btick :: " AS".toList)) ++ rest) = _
        simp
      rw [← hL, hs]
      simp
    obtain ⟨e2, he2, hr2⟩ := nonB_prefix_split _ _ _ _ hPnb hE
    cases e2 with
    | nil =>
      simp only [List.append_nil] at he2
      have := g2_align p K1 W1 K2 W2 K3 W3 K4 W4 hM1 hW1 hM2 hW2 hM3 hW3 hM4 hW4b he2.symm
      exact hp this.1
    | cons c0 e3 =>
      simp only [List.cons_append, List.cons.injEq] at hr2
      obtain ⟨hc0, hr3⟩ := hr2
      rw [← hc0] at he2
      obtain ⟨z2, hz2, he3⟩ := nonB_suffix_split p "CREATE OR REPLACE TABLE ".toList
        (K1 ++ (W1 ++ (K2 ++ (W2 ++ (K3 ++ (W3 ++ (K4 ++ W4))))))) e3 NonB_C24 he2
      rw [he3] at hr3
      obtain ⟨e4, he4, hr4⟩ := nonB_prefix_split G (btick :: (W5 ++ (K5 ++ R)))
        (z2 ++ "CREATE OR REPLACE TABLE ".toList)
        (g ++ btick :: (" AS".toList ++ rest)) hGb (by rw [hr3])
      cases e4 with
      | nil =>
        simp only [List.append_nil] at he4
        simp only [List.nil_append, List.cons.injEq, true_and] at hr4
        obtain ⟨e5, he5, hr5⟩ := nonB_prefix_split (W5 ++ K5) R g (" AS".toList ++ rest)
          (NonB_append _ _ (IsWs_nonB W5 hW5b) (IsCi_NonB K5 "AS" (by decide) hM5))
          (by rw [List.append_assoc]; exact hr4)
        have hb2 := tryM1_build K1 W1 K2 W2 K3 W3 K4 W4
          (z2 ++ (mk1 ++ (mw1 ++ (mk2 ++ (mw2 ++ (mk3 ++ (mw3 ++ (mk4 ++ mw4)))))))) W5 K5
          (e5 ++ btick :: (mw5 ++ (mk5 ++ rest)))
          hM1 hW1 hM2 hW2 hM3 hW3 hM4 hW4b
          (by
            intro hx
            rcases List.append_eq_nil.mp hx with ⟨_, h2⟩
            exact hmpreNe h2)
          (by
            refine NonB_append _ _ ?_ hmpreNb
            have := he4 ▸ hGb
            exact NonB_of_append_left _ _ this)
          hW5b hM5
        rw [show p ++ (mk1 ++ (mw1 ++ (mk2 ++ (mw2 ++ (mk3 ++ (mw3 ++ (mk4 ++ (mw4 ++
            btick :: (g ++ btick :: (mw5 ++ (mk5 ++ rest))))))))))) =
          K1 ++ (W1 ++ (K2 ++ (W2 ++ (K3 ++ (W3 ++ (K4 ++ (W4 ++ btick :: ((z2 ++
            (mk1 ++ (mw1 ++ (mk2 ++ (mw2 ++ (mk3 ++ (mw3 ++ (mk4 ++ mw4)))))))) ++
            btick :: (W5 ++ (K5 ++ (e5 ++ btick :: (mw5 ++ (mk5 ++ rest))))))))))))) by
          rw [hz2, he5]
          simp] at h
        rw [hb2] at h
        cases h
      | cons c1 e5a =>
        simp only [List.nil_append, List.cons_append, List.cons.injEq] at hr4
        obtain ⟨hc1, hr5a⟩ := hr4
        rw [← hc1] at he4
        obtain ⟨z3, hz3, he5a⟩ := nonB_suffix_split z2 "CREATE OR REPLACE TABLE ".toList
          G e5a NonB_C24 he4
        rw [he5a] at hr5a
        obtain ⟨e6, he6, hr6⟩ := nonB_prefix_split (W5 ++ K5) R
          (z3 ++ "CREATE OR REPLACE TABLE ".toList) (g ++ btick :: (" AS".toList ++ rest))
          (NonB_append _ _ (IsWs_nonB W5 hW5b) (IsCi_NonB K5 "AS" (by decide) hM5))
          (by rw [List.append_assoc]; exact hr5a)
        rcases List.append_eq_append_iff.mp he6.symm with ⟨a, hz3a, he6a⟩ | ⟨a, hWK, hC24⟩
        · have hb2 := tryM1_build K1 W1 K2 W2 K3 W3 K4 W4 G W5 K5
            (a ++ (mk1 ++ (mw1 ++ (mk2 ++ (mw2 ++ (mk3 ++ (mw3 ++ (mk4 ++ (mw4 ++
              btick :: (g ++ btick :: (mw5 ++ (mk5 ++ rest))))))))))))
            hM1 hW1 hM2 hW2 hM3 hW3 hM4 hW4b hGne hGb hW5b hM5
          rw [show p ++ (mk1 ++ (mw1 ++ (mk2 ++ (mw2 ++ (mk3 ++ (mw3 ++ (mk4 ++ (mw4 ++
              btick :: (g ++ btick :: (mw5 ++ (mk5 ++ rest))))))))))) =
            K1 ++ (W1 ++ (K2 ++ (W2 ++ (K3 ++ (W3 ++ (K4 ++ (W4 ++ btick :: (G ++
              btick :: (W5 ++ (K5 ++ (a ++ (mk1 ++ (mw1 ++ (mk2 ++ (mw2 ++ (mk3 ++
              (mw3 ++ (mk4 ++ (mw4 ++ btick :: (g ++ btick :: (mw5 ++
                (mk5 ++ rest)))))))))))))))))))))) by
            rw [hz2, hz3, hz3a]
            simp] at h
          rw [hb2] at h
          cases h
        · cases a with
          | nil =>
            simp only [List.append_nil] at hWK
            have hb2 := tryM1_build K1 W1 K2 W2 K3 W3 K4 W4 G W5 K5
              ((mk1 ++ (mw1 ++ (mk2 ++ (mw2 ++ (mk3 ++ (mw3 ++ (mk4 ++ (mw4 ++
                btick :: (g ++ btick :: (mw5 ++ (mk5 ++ rest))))))))))))
              hM1 hW1 hM2 hW2 hM3 hW3 hM4 hW4b hGne hGb hW5b hM5
            rw [show p ++ (mk1 ++ (mw1 ++ (mk2 ++ (mw2 ++ (mk3 ++ (mw3 ++ (mk4 ++ (mw4 ++
                btick :: (g ++ btick :: (mw5 ++ (mk5 ++ rest))))))))))) =
              K1 ++ (W1 ++ (K2 ++ (W2 ++ (K3 ++ (W3 ++ (K4 ++ (W4 ++ btick :: (G ++
                btick :: (W5 ++ (K5 ++ ((mk1 ++ (mw1 ++ (mk2 ++ (mw2 ++ (mk3 ++ (mw3 ++
                (mk4 ++ (mw4 ++ btick :: (g ++ btick :: (mw5 ++
                  (mk5 ++ rest)))))))))))))))))))))) by
              rw [hz2, hz3, ← hWK]
              simp] at h
            rw [hb2] at h
            cases h
          | cons c2 a2 =>
            have hC24c : "CREATE OR REPLACE TABLE ".toList =
                'C' :: "REATE OR REPLACE TABLE ".toList := by decide
            rw [hC24c] at hC24
            simp only [List.cons_append, List.cons.injEq] at hC24
            have hmem : c2 ∈ W5 ++ K5 := by
              rw [hWK]
              exact List.mem_append_right z3 (List.mem_cons_self _ _)
            rw [← hC24.1] at hmem
            rcases List.mem_append.mp hmem with hm | hm
            · have hall : IsWs W5 := hW5b
              simp only [IsWs, List.all_eq_true] at hall
              have := hall _ hm
              exact absurd this (by decide)
            · obtain ⟨pc, hpc, hpcc⟩ := ciMatch_all K5 "AS".toList hM5 _ hm
              have hpcd : pc = 'A' ∨ pc = 'S' := by
                have h3 : pc ∈ ['A', 'S'] := by
                  have h4 : "AS".toList = ['A', 'S'] := by decide
                  rw [h4] at hpc
                  exact hpc
                simpa using h3
              rcases hpcd with rfl | rfl
              · exact absurd hpcc (by decide)
              · exact absurd hpcc (by decide)

theorem tailsFail1_replace (d : List Char) :
    ∀ (rest g mk1 mw1 mk2 mw2 mk3 mw3 mk4 mw4 mw5 mk5 : List Char),
    IsCi mk1 "CREATE" → IsWs1 mw1 → IsCi mk2 "OR" → IsWs1 mw2 → IsCi mk3 "REPLACE" →
    IsWs1 mw3 → IsCi mk4 "TABLE" → IsWs mw4 → g ≠ [] → NonB g → IsWs mw5 →
    IsCi mk5 "AS" →
    tailsFail1 d (mk1 ++ (mw1 ++ (mk2 ++ (mw2 ++ (mk3 ++ (mw3 ++ (mk4 ++ (mw4 ++
      btick :: (g ++ btick :: (mw5 ++ (mk5 ++ rest))))))))))) →
    tailsFail1 d (canon1 g ++ rest) := by
  induction d with
  | nil =>
    intro rest g mk1 mw1 mk2 mw2 mk3 mw3 mk4 mw4 mw5 mk5 _ _ _ _ _ _ _ _ _ _ _ _ _
    trivial
  | cons c d2 ih =>
    intro rest g mk1 mw1 mk2 mw2 mk3 mw3 mk4 mw4 mw5 mk5 hn1 hnw1 hn2 hnw2 hn3 hnw3
      hn4 hnw4 hgne hgb hnw5 hn5 h
    obtain ⟨h1, h2⟩ := h
    refine ⟨?_, ih rest g mk1 mw1 mk2 mw2 mk3 mw3 mk4 mw4 mw5 mk5 hn1 hnw1 hn2 hnw2
      hn3 hnw3 hn4 hnw4 hgne hgb hnw5 hn5 h2⟩
    have h3 := replace1 (c :: d2) rest g mk1 mw1 mk2 mw2 mk3 mw3 mk4 mw4 mw5 mk5
      hn1 hnw1 hn2 hnw2 hn3 hnw3 hn4 hnw4 hgne hgb hnw5 hn5 (by simp)
      (by simpa using h1)
    simpa using h3

theorem Hyp1_sub1 (l : List Char) : Hyp1 (sub1 l) := by
  rcases sub1_cases l with ⟨hid, hfail⟩ | ⟨d, q, g, rest, hx, hq, hfail, hout⟩
  · rw [hid]
    exact Or.inl hfail
  · obtain ⟨mk1, mw1, mk2, mw2, mk3, mw3, mk4, mw4, mw5, mk5, hqeq,
      hn1, hnw1, hn2, hnw2, hn3, hnw3, hn4, hnw4, hgne, hgb, hnw5, hn5⟩ :=
      tryM1_dest q g rest hq
    rw [hout]
    right
    refine ⟨d, g, rest, rfl, hgne, hgb, ?_⟩
    rw [hqeq] at hfail
    exact tailsFail1_replace d rest g mk1 mw1 mk2 mw2 mk3 mw3 mk4 mw4 mw5 mk5
      hn1 hnw1 hn2 hnw2 hn3 hnw3 hn4 hnw4 hgne hgb hnw5 hn5 hfail

theorem Hyp2_sub2 (x : List Char) : Hyp2 (sub2 x) := by
  rcases sub2_cases x with ⟨hid, hfail⟩ | ⟨d, q, g, rest, hx, hq, hfail, hout⟩
  · rw [hid]
    exact Or.inl hfail
  · obtain ⟨k1, w1, k2, w2, k3, w3, k4, w4, z, hqeq, hgeq, hrest,
      hm1, hw1, hm2, hw2, hm3, hw3, hm4, hw4⟩ := tryM2_dest q g rest hq
    rw [hout, hrest]
    right
    refine ⟨d, g, z, rfl, ⟨k1, w1, k2, w2, k3, w3, k4, hgeq, hm1, hw1, hm2, hw2, hm3,
      hw3, hm4⟩, ?_⟩
    have hq2 : q = g ++ (w4 ++ btick :: z) := by
      rw [hqeq, hgeq]
      simp
    rw [hq2] at hfail
    have h2 := tailsFail2_shrink d g w4 (btick :: z) hw4 hfail
    exact h2

theorem Hyp3_sub3 (v : List Char) : Hyp3 (sub3 none v) := by
  rcases sub3_cases v none with ⟨hid, hfail⟩ | ⟨a, q, g, rest, hx, hq, hab, hfail, hout⟩
  · rw [hid]
    exact Or.inl hfail
  · obtain ⟨w, kAS, w2, kSel, hqeq, hg, hw, hAS, hw2, hSel⟩ := tryM3_dest q g rest hq
    rw [hout]
    right
    have hends : ∃ a2, a = a2 ++ [btick] := by
      rcases hab with ⟨_, hpc⟩ | hres
      · cases hpc
      · exact hres
    refine ⟨a, g, rest, rfl, hends, ⟨kAS, w2, kSel, hg, hAS, hw2, hSel⟩, ?_⟩
    have hfail2 : tailsFail3 none a ([] ++ (w ++ (kAS ++ (w2 ++ (kSel ++ rest))))) := by
      rw [← hqeq]
      simpa using hfail
    have h2 := tailsFail3_shrink a none [] w (kAS ++ (w2 ++ (kSel ++ rest))) hw hfail2
    have h3 : (' ' :: (g ++ rest) : List Char) =
        [] ++ (' ' :: (kAS ++ (w2 ++ (kSel ++ rest)))) := by
      rw [hg]
      simp
    rw [h3]
    exact h2

theorem tryM2_canon (g r : List Char) :
    tryM2 (canon1 g ++ r) = some ("CREATE OR REPLACE TABLE".toList,
      btick :: (g ++ btick :: (" AS".toList ++ r))) := by
  have heq : canon1 g ++ r = "CREATE".toList ++ ([' '] ++ ("OR".toList ++ ([' '] ++
      ("REPLACE".toList ++ ([' '] ++ ("TABLE".toList ++ ([' '] ++
      btick :: (g ++ btick :: (" AS".toList ++ r))))))))) := by
    show ("CREATE OR REPLACE TABLE ".toList ++ btick :: (g ++ btick :: " AS".toList)) ++ r = _
    simp
  rw [heq]
  have hb := tryM2_build "CREATE".toList [' '] "OR".toList [' '] "REPLACE".toList [' ']
    "TABLE".toList [' '] (g ++ btick :: (" AS".toList ++ r))
    (ciMatch_self _) ⟨by simp, rfl⟩ (ciMatch_self _) ⟨by simp, rfl⟩ (ciMatch_self _)
    ⟨by simp, rfl⟩ (ciMatch_self _) ⟨by simp, rfl⟩
  rw [hb]
  have hg2 : "CREATE".toList ++ [' '] ++ "OR".toList ++ [' '] ++ "REPLACE".toList ++ [' ']
      ++ "TABLE".toList = "CREATE OR REPLACE TABLE".toList := by decide
  rw [hg2]

theorem tailsFail2_access (d ext q : List Char) (h : tailsFail2 (d ++ ext) q)
    (hne : ext ≠ []) : tryM2 (ext ++ q) = none := by
  obtain ⟨_, h2⟩ := (tailsFail2_shift d ext q).mp h
  cases ext with
  | nil => exact absurd rfl hne
  | cons c e2 => simpa using h2.1

theorem C23_space : "CREATE OR REPLACE TABLE".toList ++ [' '] =
    "CREATE OR REPLACE TABLE ".toList := by decide

theorem Hyp1_sub2 (x : List Char) (hx : Hyp1 x) : Hyp1 (sub2 x) := by
  rcases sub2_cases x with ⟨hid, _⟩ | ⟨d2, q2, G2, r2, hxeq, hq2, hfail2, hout⟩
  · rw [hid]
    exact hx
  · obtain ⟨K1, W1, K2, W2, K3, W3, K4, W4, z, hq2eq, hG2eq, hr2eq,
      hm1, hw1, hm2, hw2, hm3, hw3, hm4, hw4⟩ := tryM2_dest q2 G2 r2 hq2
    rcases hx with hAll | ⟨d, g, r, hxc, hgne, hgb, hcfail⟩
    · left
      rw [hout, hr2eq]
      have hx2 : x = (d2 ++ G2) ++ (W4 ++ btick :: z) := by
        rw [hxeq, hq2eq, hG2eq]
        simp
      rw [hx2] at hAll
      obtain ⟨hA1, hA2⟩ := (tailsFail1_shift (d2 ++ G2) (W4 ++ btick :: z) []).mp hAll
      have hS : tailsFail1 (d2 ++ G2) ([] ++ (' ' :: (btick :: z ++ []))) := by
        refine tailsFail1_shrink (d2 ++ G2) [] W4 (btick :: z ++ []) hw4 ?_
        simpa using hA1
      obtain ⟨_, hbz⟩ := (tailsFail1_shift W4 (btick :: z) []).mp hA2
      have hz : tailsFail1 z [] := hbz.2
      have hgoal : d2 ++ (G2 ++ ' ' :: btick :: z) = (d2 ++ G2) ++ (' ' :: btick :: z) := by
        simp
      rw [hgoal]
      refine (tailsFail1_shift (d2 ++ G2) (' ' :: btick :: z) []).mpr ⟨?_, ?_⟩
      · simpa using hS
      · refine ⟨?_, ?_, hz⟩
        · exact tryM1_ws_head ' ' _ (by decide)
        · exact tryM1_btick_head _
    · rcases List.append_eq_append_iff.mp (hxeq.symm.trans hxc) with
        ⟨dd, hdd, hq2c⟩ | ⟨a, hd2a, hQa⟩
      · cases dd with
        | nil =>
          simp only [List.append_nil] at hdd
          simp only [List.nil_append] at hq2c
          have hcomp := tryM2_canon g r
          rw [← hq2c, hq2] at hcomp
          simp only [Option.some.injEq, Prod.mk.injEq] at hcomp
          obtain ⟨hG2v, hr2v⟩ := hcomp
          have hsame : sub2 x = x := by
            rw [hout, hG2v, hr2v, hxc, hdd]
            rw [show canon1 g ++ r = ("CREATE OR REPLACE TABLE".toList ++ [' ']) ++
              btick :: (g ++ btick :: (" AS".toList ++ r)) from by
                rw [C23_space]
                show ("CREATE OR REPLACE TABLE ".toList ++ btick :: (g ++ btick :: " AS".toList)) ++ r = _
                simp]
            simp
          rw [hsame]
          right
          exact ⟨d, g, r, hxc, hgne, hgb, hcfail⟩
        | cons c dt2 =>
          have hP2 : q2 = (K1 ++ (W1 ++ (K2 ++ (W2 ++ (K3 ++ (W3 ++ (K4 ++ W4))))))) ++
              (btick :: z) := by
            rw [hq2eq]
            simp
          have hcanonx : canon1 g ++ r = "CREATE OR REPLACE TABLE ".toList ++
              btick :: (g ++ btick :: (" AS".toList ++ r)) := by
            show ("CREATE OR REPLACE TABLE ".toList ++ btick :: (g ++ btick :: " AS".toList)) ++ r = _
            simp
          have hPnb : NonB (K1 ++ (W1 ++ (K2 ++ (W2 ++ (K3 ++ (W3 ++ (K4 ++ W4))))))) := by
            refine NonB_append _ _ (IsCi_NonB K1 "CREATE" (by decide) hm1) ?_
            refine NonB_append _ _ (IsWs_nonB W1 hw1.2) ?_
            refine NonB_append _ _ (IsCi_NonB K2 "OR" (by decide) hm2) ?_
            refine NonB_append _ _ (IsWs_nonB W2 hw2.2) ?_
            refine NonB_append _ _ (IsCi_NonB K3 "REPLACE" (by decide) hm3) ?_
            refine NonB_append _ _ (IsWs_nonB W3 hw3.2) ?_
            exact NonB_append _ _ (IsCi_NonB K4 "TABLE" (by decide) hm4) (IsWs_nonB W4 hw4.2)
          have hEq2 : (K1 ++ (W1 ++ (K2 ++ (W2 ++ (K3 ++ (W3 ++ (K4 ++ W4))))))) ++
              (btick :: z) = ((c :: dt2) ++ "CREATE OR REPLACE TABLE ".toList) ++
              btick :: (g ++ btick :: (" AS".toList ++ r)) := by
            rw [← hP2, hq2c, hcanonx]
            simp
          obtain ⟨e2, he2, hr2s⟩ := nonB_prefix_split _ _ _ _ hPnb hEq2
          cases e2 with
          | nil =>
            simp only [List.append_nil] at he2
            have := g2_align (c :: dt2) K1 W1 K2 W2 K3 W3 K4 W4
              hm1 hw1 hm2 hw2 hm3 hw3 hm4 hw4.2 he2.symm
            cases this.1
          | cons c0 e3 =>
            simp only [List.cons_append, List.cons.injEq] at hr2s
            obtain ⟨hc0, hzeq⟩ := hr2s
            rw [← hc0] at he2
            obtain ⟨z2, hz2, he3⟩ := nonB_suffix_split (c :: dt2)
              "CREATE OR REPLACE TABLE ".toList
              (K1 ++ (W1 ++ (K2 ++ (W2 ++ (K3 ++ (W3 ++ (K4 ++ W4))))))) e3 NonB_C24 he2
            rw [he3] at hzeq
            right
            refine ⟨d2 ++ (G2 ++ (' ' :: (btick :: z2))), g, r, ?_, hgne, hgb, ?_⟩
            · rw [hout, hr2eq, hzeq, hcanonx]
              simp
            · have hd : d = (d2 ++ G2) ++ (W4 ++ (btick :: z2)) := by
                rw [hdd, hz2, hG2eq]
                simp
              rw [hd] at hcfail
              obtain ⟨hT1, hT2⟩ := (tailsFail1_shift (d2 ++ G2) (W4 ++ (btick :: z2))
                (canon1 g ++ r)).mp hcfail
              have hS : tailsFail1 (d2 ++ G2)
                  ([] ++ (' ' :: ((btick :: z2) ++ (canon1 g ++ r)))) := by
                refine tailsFail1_shrink (d2 ++ G2) [] W4 _ hw4 ?_
                simpa using hT1
              obtain ⟨_, hbz⟩ := (tailsFail1_shift W4 (btick :: z2) (canon1 g ++ r)).mp hT2
              have hz2f : tailsFail1 z2 (canon1 g ++ r) := hbz.2
              have hgoal : d2 ++ (G2 ++ (' ' :: (btick :: z2))) =
                  (d2 ++ G2) ++ (' ' :: (btick :: z2)) := by
                simp
              rw [hgoal]
              refine (tailsFail1_shift (d2 ++ G2) (' ' :: (btick :: z2))
                (canon1 g ++ r)).mpr ⟨?_, ?_⟩
              · simpa using hS
              · refine ⟨?_, ?_, hz2f⟩
                · exact tryM1_ws_head ' ' _ (by decide)
                · exact tryM1_btick_head _
      · cases a with
        | nil =>
          simp only [List.append_nil] at hd2a
          simp only [List.nil_append] at hQa
          have hcomp := tryM2_canon g r
          rw [hQa, hq2] at hcomp
          simp only [Option.some.injEq, Prod.mk.injEq] at hcomp
          obtain ⟨hG2v, hr2v⟩ := hcomp
          have hsame : sub2 x = x := by
            rw [hout, hG2v, hr2v, hxc, hd2a]
            rw [show canon1 g ++ r = ("CREATE OR REPLACE TABLE".toList ++ [' ']) ++
              btick :: (g ++ btick :: (" AS".toList ++ r)) from by
                rw [C23_space]
                show ("CREATE OR REPLACE TABLE ".toList ++ btick :: (g ++ btick :: " AS".toList)) ++ r = _
                simp]
            simp
          rw [hsame]
          right
          exact ⟨d, g, r, hxc, hgne, hgb, hcfail⟩
        | cons c a2 =>
          exfalso
          have hacc := tailsFail2_access d (c :: a2) q2 (by rw [← hd2a]; exact hfail2)
            (by simp)
          rw [← hQa] at hacc
          rw [tryM2_canon g r] at hacc
          cases hacc

theorem canon_split (g r : List Char) : canon1 g ++ r =
    "CREATE OR REPLACE TABLE ".toList ++
      (btick :: (g ++ btick :: (" AS".toList ++ r))) := by
  show ("CREATE OR REPLACE TABLE ".toList ++ btick :: (g ++ btick :: " AS".toList)) ++ r = _
  simp

theorem canon_head (g r : List Char) : canon1 g ++ r =
    'C' :: ("REATE OR REPLACE TABLE ".toList ++
      (btick :: (g ++ btick :: (" AS".toList ++ r)))) := by
  rw [canon_split]
  rw [show "CREATE OR REPLACE TABLE ".toList = 'C' :: "REATE OR REPLACE TABLE ".toList from
    by decide]
  simp

theorem Hyp1_sub3 (x : List Char) (hx : Hyp1 x) : Hyp1 (sub3 none x) := by
  rcases sub3_cases x none with ⟨hid, _⟩ | ⟨a, q, g, r3, hxa, hq, hab, hfail3, hout⟩
  · rw [hid]
    exact hx
  · obtain ⟨w, kAS, w2, kSel, hqeq, hgeq, hW, hAS, hw2, hSel⟩ := tryM3_dest q g r3 hq
    obtain ⟨a2, ha2⟩ : ∃ a2, a = a2 ++ [btick] := by
      rcases hab with ⟨_, hpc⟩ | h
      · exact absurd hpc (by simp)
      · exact h
    rcases hx with hAll | ⟨d, gc, r, hxc, hgne, hgb, hcfail⟩
    · left
      rw [hout]
      rw [hxa] at hAll
      obtain ⟨h1, h2⟩ := (tailsFail1_shift a q []).mp hAll
      have hgr : g ++ r3 = kAS ++ (w2 ++ (kSel ++ r3)) := by
        rw [hgeq]
        simp
      have hS : tailsFail1 a ([] ++ (' ' :: (kAS ++ (w2 ++ (kSel ++ r3))))) := by
        refine tailsFail1_shrink a [] w _ hW ?_
        simpa [hqeq] using h1
      refine (tailsFail1_shift a (' ' :: (g ++ r3)) []).mpr ⟨?_, ?_⟩
      · simpa [hgr] using hS
      · refine ⟨tryM1_ws_head ' ' _ (by decide), ?_⟩
        rw [hqeq] at h2
        obtain ⟨_, hB⟩ := (tailsFail1_shift w (kAS ++ (w2 ++ (kSel ++ r3))) []).mp h2
        rw [hgr]
        exact hB
    · have hx2 : x = a2 ++ (btick :: q) := by
        rw [hxa, ha2]
        simp
      have hE := hx2.symm.trans hxc
      rcases List.append_eq_append_iff.mp hE with ⟨dd, hdd, hq1⟩ | ⟨cc, hacc, hQcc⟩
      · cases dd with
        | nil =>
          exfalso
          simp only [List.nil_append] at hq1
          rw [canon_head gc r] at hq1
          simp only [List.cons.injEq] at hq1
          exact absurd hq1.1 (by decide)
        | cons c0 dz =>
          simp only [List.cons_append, List.cons.injEq] at hq1
          obtain ⟨hc0, hqdz⟩ := hq1
          have hE2 : w ++ (kAS ++ (w2 ++ (kSel ++ r3))) = dz ++ (canon1 gc ++ r) := by
            rw [← hqeq]
            exact hqdz
          rcases List.append_eq_append_iff.mp hE2 with ⟨u, hdzu, hBu⟩ | ⟨u, hwu, hQu⟩
          · right
            refine ⟨a2 ++ (btick :: (' ' :: u)), gc, r, ?_, hgne, hgb, ?_⟩
            · have hgr3 : g ++ r3 = u ++ (canon1 gc ++ r) := by
                rw [hgeq, ← hBu]
                simp
              rw [hout, ha2, hgr3]
              simp
            · have hd : d = (a2 ++ [btick]) ++ (w ++ u) := by
                rw [hdd, ← hc0, hdzu]
                simp
              rw [hd] at hcfail
              obtain ⟨hT1, hT2⟩ := (tailsFail1_shift (a2 ++ [btick]) (w ++ u)
                (canon1 gc ++ r)).mp hcfail
              have hS : tailsFail1 (a2 ++ [btick])
                  ([] ++ (' ' :: (u ++ (canon1 gc ++ r)))) := by
                refine tailsFail1_shrink (a2 ++ [btick]) [] w _ hW ?_
                simpa using hT1
              obtain ⟨_, hu⟩ := (tailsFail1_shift w u (canon1 gc ++ r)).mp hT2
              have hgoal : a2 ++ (btick :: (' ' :: u)) = (a2 ++ [btick]) ++ (' ' :: u) := by
                simp
              rw [hgoal]
              refine (tailsFail1_shift (a2 ++ [btick]) (' ' :: u)
                (canon1 gc ++ r)).mpr ⟨?_, ?_⟩
              · simpa using hS
              · exact ⟨tryM1_ws_head ' ' _ (by decide), hu⟩
          · exfalso
            cases u with
            | nil =>
              simp only [List.nil_append] at hQu
              rw [canon_head gc r] at hQu
              have hAS2 : ciMatch kAS ('A' :: ['S']) = true := by
                have h5 := hAS
                simp only [IsCi] at h5
                rwa [show "AS".toList = 'A' :: ['S'] from by decide] at h5
              obtain ⟨cA, ks, hkeq, hciA, _⟩ := ciMatch_cons kAS 'A' ['S'] hAS2
              rw [hkeq] at hQu
              simp only [List.cons_append, List.cons.injEq] at hQu
              rw [← hQu.1] at hciA
              exact absurd hciA (by decide)
            | cons cu u2 =>
              have hcu : isPyWs cu = true := by
                have h5 := hW.2
                rw [hwu] at h5
                simp only [List.all_append, List.all_cons, Bool.and_eq_true] at h5
                exact h5.2.1
              rw [canon_head gc r] at hQu
              simp only [List.cons_append, List.cons.injEq] at hQu
              rw [← hQu.1] at hcu
              exact absurd hcu (by decide)
      · have hCeq : "CREATE OR REPLACE TABLE ".toList ++
            (btick :: (gc ++ btick :: (" AS".toList ++ r))) = cc ++ btick :: q := by
          rw [← canon_split gc r]
          exact hQcc
        obtain ⟨e2, hcc2, hY2⟩ := nonB_prefix_split "CREATE OR REPLACE TABLE ".toList
          (btick :: (gc ++ btick :: (" AS".toList ++ r))) cc q NonB_C24 hCeq
        cases e2 with
        | nil =>
          simp only [List.append_nil] at hcc2
          simp only [List.nil_append] at hY2
          have hqY : q = gc ++ btick :: (" AS".toList ++ r) := by
            injection hY2 with _ h
            exact h.symm
          have hP3 : (w ++ (kAS ++ (w2 ++ kSel))) ++ r3 =
              gc ++ btick :: (" AS".toList ++ r) := by
            rw [← hqY, hqeq]
            simp
          have hP3nb : NonB (w ++ (kAS ++ (w2 ++ kSel))) := by
            refine NonB_append _ _ (IsWs_nonB w hW.2) ?_
            refine NonB_append _ _ (IsCi_NonB kAS "AS" (by decide) hAS) ?_
            exact NonB_append _ _ (IsWs_nonB w2 hw2.2)
              (IsCi_NonB kSel "SELECT" (by decide) hSel)
          obtain ⟨e4, hgc4, hr34⟩ := nonB_prefix_split (w ++ (kAS ++ (w2 ++ kSel)))
            r3 gc (" AS".toList ++ r) hP3nb hP3
          right
          refine ⟨d, ' ' :: ((kAS ++ (w2 ++ kSel)) ++ e4), r, ?_, by simp, ?_, ?_⟩
          · rw [hout, ha2, hacc, hcc2, hgeq, hr34, canon_split]
            simp
          · show NonB (' ' :: ((kAS ++ (w2 ++ kSel)) ++ e4))
            refine NonB_append [' '] _ rfl ?_
            refine NonB_append _ _ ?_ ?_
            · refine NonB_append _ _ (IsCi_NonB kAS "AS" (by decide) hAS) ?_
              exact NonB_append _ _ (IsWs_nonB w2 hw2.2)
                (IsCi_NonB kSel "SELECT" (by decide) hSel)
            · have h6 := hgb
              rw [hgc4] at h6
              exact NonB_of_append_right _ _ h6
          · have hold : canon1 gc ++ r = ("CREATE OR REPLACE TABLE ".toList ++ [btick]) ++
                (w ++ (((kAS ++ (w2 ++ kSel)) ++ e4) ++ (btick :: (" AS".toList ++ r)))) := by
              rw [canon_split gc r, hgc4]
              simp
            rw [hold] at hcfail
            have hS := tailsFail1_shrink d ("CREATE OR REPLACE TABLE ".toList ++ [btick]) w
              (((kAS ++ (w2 ++ kSel)) ++ e4) ++ (btick :: (" AS".toList ++ r))) hW hcfail
            have hnew : ("CREATE OR REPLACE TABLE ".toList ++ [btick]) ++
                (' ' :: (((kAS ++ (w2 ++ kSel)) ++ e4) ++ (btick :: (" AS".toList ++ r)))) =
                canon1 (' ' :: ((kAS ++ (w2 ++ kSel)) ++ e4)) ++ r := by
              rw [canon_split]
              simp
            rw [hnew] at hS
            exact hS
        | cons c0 e3 =>
          simp only [List.cons_append, List.cons.injEq] at hY2
          obtain ⟨hc0, hYe3⟩ := hY2
          obtain ⟨e4, he34, hbq⟩ := nonB_prefix_split gc (btick :: (" AS".toList ++ r))
            e3 q hgb hYe3
          cases e4 with
          | nil =>
            simp only [List.nil_append] at hbq
            simp only [List.append_nil] at he34
            have hq5 : q = " AS".toList ++ r := by
              injection hbq with _ h
              exact h.symm
            have hq6 : w ++ (kAS ++ (w2 ++ (kSel ++ r3))) = ' ' :: ('A' :: ('S' :: r)) := by
              rw [← hqeq, hq5]
              rw [show (" AS".toList : List Char) = ' ' :: ('A' :: ('S' :: [])) from by decide]
              simp
            cases hwc : w with
            | nil => exact absurd hwc hW.1
            | cons cw w1 =>
              rw [hwc] at hq6
              simp only [List.cons_append, List.cons.injEq] at hq6
              obtain ⟨hcw, hq7⟩ := hq6
              cases hw1c : w1 with
              | cons c2 w3 =>
                exfalso
                rw [hw1c] at hq7
                simp only [List.cons_append, List.cons.injEq] at hq7
                have hc2 : isPyWs c2 = true := by
                  have h5 := hW.2
                  rw [hwc, hw1c] at h5
                  simp only [List.all_cons, Bool.and_eq_true] at h5
                  exact h5.2.1
                rw [hq7.1] at hc2
                exact absurd hc2 (by decide)
              | nil =>
                have hsame : sub3 none x = x := by
                  rw [hout, hxa, hqeq, hwc, hw1c, hcw, hgeq]
                  simp
                rw [hsame]
                right
                exact ⟨d, gc, r, hxc, hgne, hgb, hcfail⟩
          | cons c1 e5 =>
            simp only [List.cons_append, List.cons.injEq] at hbq
            obtain ⟨hc1, hASr⟩ := hbq
            rw [show (" AS".toList : List Char) = ' ' :: ('A' :: ('S' :: [])) from by decide]
              at hASr
            simp only [List.cons_append, List.nil_append] at hASr
            cases e5 with
            | nil =>
              exfalso
              simp only [List.nil_append, List.cons.injEq] at hASr
              exact absurd hASr.1 (by decide)
            | cons c2 e6 =>
              simp only [List.cons_append, List.cons.injEq] at hASr
              obtain ⟨hsp, hASr2⟩ := hASr
              cases e6 with
              | nil =>
                exfalso
                simp only [List.nil_append, List.cons.injEq] at hASr2
                exact absurd hASr2.1 (by decide)
              | cons c3 e7 =>
                simp only [List.cons_append, List.cons.injEq] at hASr2
                obtain ⟨hA3, hASr3⟩ := hASr2
                cases e7 with
                | nil =>
                  exfalso
                  simp only [List.nil_append, List.cons.injEq] at hASr3
                  exact absurd hASr3.1 (by decide)
                | cons c4 e8 =>
                  simp only [List.cons_append, List.cons.injEq] at hASr3
                  obtain ⟨hS4, hre8⟩ := hASr3
                  right
                  refine ⟨d, gc, e8 ++ (btick :: (' ' :: (g ++ r3))), ?_, hgne, hgb, ?_⟩
                  · rw [hout, ha2, hacc, hcc2, ← hc0, he34, ← hc1, ← hsp, ← hA3, ← hS4,
                      canon_split gc (e8 ++ (btick :: (' ' :: (g ++ r3))))]
                    rw [show (" AS".toList : List Char) = ' ' :: ('A' :: ('S' :: []))
                      from by decide]
                    simp
                  · have hold : canon1 gc ++ r = (canon1 gc ++ (e8 ++ [btick])) ++
                        (w ++ (kAS ++ (w2 ++ (kSel ++ r3)))) := by
                      rw [hre8, hqeq]
                      simp
                    rw [hold] at hcfail
                    have hS := tailsFail1_shrink d (canon1 gc ++ (e8 ++ [btick])) w
                      (kAS ++ (w2 ++ (kSel ++ r3))) hW hcfail
                    have hnew : (canon1 gc ++ (e8 ++ [btick])) ++
                        (' ' :: (kAS ++ (w2 ++ (kSel ++ r3)))) =
                        canon1 gc ++ (e8 ++ (btick :: (' ' :: (g ++ r3)))) := by
                      rw [hgeq]
                      simp
                    rw [hnew] at hS
                    exact hS

theorem IsG2_head (k : List Char) (h : IsG2 k) :
    ∃ c k2, k = c :: k2 ∧ ciEqChar 'C' c = true := by
  obtain ⟨k1, w1, k2, w2, k3, w3, k4, hk, hm1, _⟩ := h
  have hm1b : ciMatch k1 ('C' :: "REATE".toList) = true := by
    have h5 := hm1
    simp only [IsCi] at h5
    rwa [show "CREATE".toList = 'C' :: "REATE".toList from by decide] at h5
  obtain ⟨c, ks, hk1, hci, _⟩ := ciMatch_cons k1 'C' "REATE".toList hm1b
  refine ⟨c, ks ++ w1 ++ k2 ++ w2 ++ k3 ++ w3 ++ k4, ?_, hci⟩
  rw [hk, hk1]
  simp

theorem IsG2_NonB (k : List Char) (h : IsG2 k) : NonB k := by
  obtain ⟨k1, w1, k2, w2, k3, w3, k4, hk, hm1, hw1, hm2, hw2, hm3, hw3, hm4⟩ := h
  rw [hk]
  refine NonB_append _ _ (NonB_append _ _ (NonB_append _ _ (NonB_append _ _
    (NonB_append _ _ (NonB_append _ _ (IsCi_NonB k1 "CREATE" (by decide) hm1)
      (IsWs_nonB w1 hw1.2)) (IsCi_NonB k2 "OR" (by decide) hm2))
    (IsWs_nonB w2 hw2.2)) (IsCi_NonB k3 "REPLACE" (by decide) hm3))
    (IsWs_nonB w3 hw3.2)) (IsCi_NonB k4 "TABLE" (by decide) hm4)

theorem ciEq_CA_false (c : Char) (h1 : ciEqChar 'C' c = true)
    (h2 : ciEqChar 'A' c = true) : False := by
  simp only [ciEqChar, beq_iff_eq] at h1 h2
  rw [← h1] at h2
  exact absurd h2 (by decide)

theorem Hyp2_sub3 (x : List Char) (hx : Hyp2 x) : Hyp2 (sub3 none x) := by
  rcases sub3_cases x none with ⟨hid, _⟩ | ⟨a, q, g, r3, hxa, hq, hab, hfail3, hout⟩
  · rw [hid]
    exact hx
  · obtain ⟨w, kAS, w2, kSel, hqeq, hgeq, hW, hAS, hw2, hSel⟩ := tryM3_dest q g r3 hq
    obtain ⟨a2, ha2⟩ : ∃ a2, a = a2 ++ [btick] := by
      rcases hab with ⟨_, hpc⟩ | h
      · exact absurd hpc (by simp)
      · exact h
    rcases hx with hAll | ⟨d2, K, z, hxc, hG2, hfail⟩
    · left
      rw [hout]
      rw [hxa] at hAll
      obtain ⟨h1, h2⟩ := (tailsFail2_shift a q []).mp hAll
      have hgr : g ++ r3 = kAS ++ (w2 ++ (kSel ++ r3)) := by
        rw [hgeq]
        simp
      have hS : tailsFail2 a ([] ++ (' ' :: (kAS ++ (w2 ++ (kSel ++ r3))))) := by
        refine tailsFail2_shrink a [] w _ hW ?_
        simpa [hqeq] using h1
      refine (tailsFail2_shift a (' ' :: (g ++ r3)) []).mpr ⟨?_, ?_⟩
      · simpa [hgr] using hS
      · refine ⟨tryM2_ws_head ' ' _ (by decide), ?_⟩
        rw [hqeq] at h2
        obtain ⟨_, hB⟩ := (tailsFail2_shift w (kAS ++ (w2 ++ (kSel ++ r3))) []).mp h2
        rw [hgr]
        exact hB
    · have hx2 : x = a2 ++ (btick :: q) := by
        rw [hxa, ha2]
        simp
      have hE := hx2.symm.trans hxc
      rcases List.append_eq_append_iff.mp hE with ⟨dd, hdd, hq1⟩ | ⟨cc, hacc, hQcc⟩
      · cases dd with
        | nil =>
          exfalso
          simp only [List.nil_append] at hq1
          obtain ⟨cC, K2, hKeq, hciC⟩ := IsG2_head K hG2
          rw [hKeq] at hq1
          simp only [List.cons_append, List.cons.injEq] at hq1
          rw [← hq1.1] at hciC
          exact absurd hciC (by decide)
        | cons c0 dz =>
          simp only [List.cons_append, List.cons.injEq] at hq1
          obtain ⟨hc0, hqdz⟩ := hq1
          have hE2 : w ++ (kAS ++ (w2 ++ (kSel ++ r3))) =
              dz ++ (K ++ ' ' :: btick :: z) := by
            rw [← hqeq]
            exact hqdz
          rcases List.append_eq_append_iff.mp hE2 with ⟨u, hdzu, hBu⟩ | ⟨u, hwu, hQu⟩
          · right
            refine ⟨a2 ++ (btick :: (' ' :: u)), K, z, ?_, hG2, ?_⟩
            · have hgr3 : g ++ r3 = u ++ (K ++ ' ' :: btick :: z) := by
                rw [hgeq, ← hBu]
                simp
              rw [hout, ha2, hgr3]
              simp
            · have hd : d2 = (a2 ++ [btick]) ++ (w ++ u) := by
                rw [hdd, ← hc0, hdzu]
                simp
              rw [hd] at hfail
              obtain ⟨hT1, hT2⟩ := (tailsFail2_shift (a2 ++ [btick]) (w ++ u)
                (K ++ ' ' :: btick :: z)).mp hfail
              have hS : tailsFail2 (a2 ++ [btick])
                  ([] ++ (' ' :: (u ++ (K ++ ' ' :: btick :: z)))) := by
                refine tailsFail2_shrink (a2 ++ [btick]) [] w _ hW ?_
                simpa using hT1
              obtain ⟨_, hu⟩ := (tailsFail2_shift w u (K ++ ' ' :: btick :: z)).mp hT2
              have hgoal : a2 ++ (btick :: (' ' :: u)) = (a2 ++ [btick]) ++ (' ' :: u) := by
                simp
              rw [hgoal]
              refine (tailsFail2_shift (a2 ++ [btick]) (' ' :: u)
                (K ++ ' ' :: btick :: z)).mpr ⟨?_, ?_⟩
              · simpa using hS
              · exact ⟨tryM2_ws_head ' ' _ (by decide), hu⟩
          · exfalso
            obtain ⟨cC, K2, hKeq, hciC⟩ := IsG2_head K hG2
            cases u with
            | nil =>
              simp only [List.nil_append] at hQu
              have hAS2 : ciMatch kAS ('A' :: ['S']) = true := by
                have h5 := hAS
                simp only [IsCi] at h5
                rwa [show "AS".toList = 'A' :: ['S'] from by decide] at h5
              obtain ⟨cA, ks, hkeq2, hciA, _⟩ := ciMatch_cons kAS 'A' ['S'] hAS2
              rw [hKeq, hkeq2] at hQu
              simp only [List.cons_append, List.cons.injEq] at hQu
              rw [hQu.1] at hciC
              exact ciEq_CA_false cA hciC hciA
            | cons cu u2 =>
              have hcu : isPyWs cu = true := by
                have h5 := hW.2
                rw [hwu] at h5
                simp only [List.all_append, List.all_cons, Bool.and_eq_true] at h5
                exact h5.2.1
              rw [hKeq] at hQu
              simp only [List.cons_append, List.cons.injEq] at hQu
              rw [hQu.1] at hciC
              have h7 := ciEq_not_ws 'C' cu (by decide) hciC
              rw [h7] at hcu
              exact absurd hcu (by decide)
      · have hKnb : NonB (K ++ [' ']) := NonB_append _ _ (IsG2_NonB K hG2) rfl
        have hCeq : (K ++ [' ']) ++ (btick :: z) = cc ++ btick :: q := by
          rw [← hQcc]
          simp
        obtain ⟨e2, hcc2, hz2⟩ := nonB_prefix_split (K ++ [' ']) (btick :: z) cc q hKnb hCeq
        cases e2 with
        | nil =>
          simp only [List.append_nil] at hcc2
          simp only [List.nil_append] at hz2
          have hzq : z = q := by
            simpa using hz2
          right
          refine ⟨d2, K, ' ' :: (g ++ r3), ?_, hG2, ?_⟩
          · rw [hout, ha2, hacc, hcc2]
            simp
          · have hold : K ++ ' ' :: btick :: z = (K ++ (' ' :: [btick])) ++
                (w ++ (kAS ++ (w2 ++ (kSel ++ r3)))) := by
              rw [hzq, hqeq]
              simp
            rw [hold] at hfail
            have hS := tailsFail2_shrink d2 (K ++ (' ' :: [btick])) w
              (kAS ++ (w2 ++ (kSel ++ r3))) hW hfail
            have hnew : (K ++ (' ' :: [btick])) ++ (' ' :: (kAS ++ (w2 ++ (kSel ++ r3)))) =
                K ++ ' ' :: btick :: (' ' :: (g ++ r3)) := by
              rw [hgeq]
              simp
            rw [hnew] at hS
            exact hS
        | cons c0 e3 =>
          simp only [List.cons_append, List.cons.injEq] at hz2
          obtain ⟨hc0, hze3⟩ := hz2
          right
          refine ⟨d2, K, e3 ++ (btick :: (' ' :: (g ++ r3))), ?_, hG2, ?_⟩
          · rw [hout, ha2, hacc, hcc2, ← hc0]
            simp
          · have hold : K ++ ' ' :: btick :: z =
                (K ++ (' ' :: (btick :: (e3 ++ [btick])))) ++
                (w ++ (kAS ++ (w2 ++ (kSel ++ r3)))) := by
              rw [hze3, hqeq]
              simp
            rw [hold] at hfail
            have hS := tailsFail2_shrink d2 (K ++ (' ' :: (btick :: (e3 ++ [btick])))) w
              (kAS ++ (w2 ++ (kSel ++ r3))) hW hfail
            have hnew : (K ++ (' ' :: (btick :: (e3 ++ [btick])))) ++
                (' ' :: (kAS ++ (w2 ++ (kSel ++ r3)))) =
                K ++ ' ' :: btick :: (e3 ++ (btick :: (' ' :: (g ++ r3)))) := by
              rw [hgeq]
              simp
            rw [hnew] at hS
            exact hS

theorem sub123_idem (l : List Char) :
    sub3 none (sub2 (sub1 (sub3 none (sub2 (sub1 l))))) =
      sub3 none (sub2 (sub1 l)) := by
  have h1 : sub1 (sub3 none (sub2 (sub1 l))) = sub3 none (sub2 (sub1 l)) :=
    sub1_fix _ (Hyp1_sub3 _ (Hyp1_sub2 _ (Hyp1_sub1 l)))
  rw [h1]
  have h2 : sub2 (sub3 none (sub2 (sub1 l))) = sub3 none (sub2 (sub1 l)) :=
    sub2_fix _ (Hyp2_sub3 _ (Hyp2_sub2 (sub1 l)))
  rw [h2]
  exact sub3_fix _ (Hyp3_sub3 (sub2 (sub1 l)))

theorem startsWithL_head (s : List Char) (h : startsWithL "`" s = false) :
    HeadNot (fun c => c == btick) s := by
  cases s with
  | nil => trivial
  | cons c t =>
    show (c == btick) = false
    have e : startsWithL "`" (c :: t) = (btick == c && List.isPrefixOf [] t) := rfl
    have e2 : List.isPrefixOf ([] : List Char) t = true := by
      cases t <;> rfl
    rw [e, e2, Bool.and_true] at h
    cases hcb : c == btick with
    | false => rfl
    | true =>
      exfalso
      rw [beq_iff_eq] at hcb
      rw [hcb] at h
      simp at h

theorem headNB_sub1 (l : List Char) (h : HeadNot (fun c => c == btick) l) :
    HeadNot (fun c => c == btick) (sub1 l) := by
  rcases sub1_cases l with ⟨hid, _⟩ | ⟨d, q, g, rest, hx, hq, hfail, hout⟩
  · rw [hid]
    exact h
  · rw [hout]
    cases d with
    | nil =>
      rw [List.nil_append, canon_head]
      show (('C' : Char) == btick) = false
      decide
    | cons c d2 =>
      rw [List.cons_append]
      show (c == btick) = false
      rw [hx] at h
      exact h

theorem headNB_sub2 (l : List Char) (h : HeadNot (fun c => c == btick) l) :
    HeadNot (fun c => c == btick) (sub2 l) := by
  rcases sub2_cases l with ⟨hid, _⟩ | ⟨d, q, g, rest, hx, hq, hfail, hout⟩
  · rw [hid]
    exact h
  · obtain ⟨k1, w1, k2, w2, k3, w3, k4, w4, z, hqeq, hgeq, hrest, hm1, _⟩ :=
      tryM2_dest q g rest hq
    rw [hout]
    cases d with
    | nil =>
      rw [List.nil_append]
      have hm1b : ciMatch k1 ('C' :: "REATE".toList) = true := by
        have h5 := hm1
        simp only [IsCi] at h5
        rwa [show "CREATE".toList = 'C' :: "REATE".toList from by decide] at h5
      obtain ⟨cC, ks, hk1, hci, _⟩ := ciMatch_cons k1 'C' "REATE".toList hm1b
      rw [hgeq, hk1]
      show (cC == btick) = false
      exact ciEq_not_btick 'C' cC (by decide) hci
    | cons c d2 =>
      rw [List.cons_append]
      show (c == btick) = false
      rw [hx] at h
      exact h

theorem headNB_sub3 (l : List Char) (h : HeadNot (fun c => c == btick) l) :
    HeadNot (fun c => c == btick) (sub3 none l) := by
  rcases sub3_cases l none with ⟨hid, _⟩ | ⟨a, q, g, r3, hxa, hq, hab, hfail3, hout⟩
  · rw [hid]
    exact h
  · obtain ⟨a2, ha2⟩ : ∃ a2, a = a2 ++ [btick] := by
      rcases hab with ⟨_, hpc⟩ | h2
      · exact absurd hpc (by simp)
      · exact h2
    rw [hout]
    cases ha2c : a2 with
    | nil =>
      exfalso
      rw [hxa, ha2, ha2c] at h
      have h3 : ((btick == btick) = false) := h
      simp at h3
    | cons c a3 =>
      rw [ha2, ha2c, List.cons_append, List.cons_append]
      show (c == btick) = false
      rw [hxa, ha2, ha2c] at h
      exact h

theorem backtickStrip_id (l : List Char) (h : HeadNot (fun c => c == btick) l) :
    backtickStrip l = l := by
  cases l with
  | nil => rfl
  | cons c t =>
    have hc : (c == btick) = false := h
    have hne : ¬ (btick = c) := by
      intro he
      rw [← he] at hc
      simp at hc
    have hbc : (btick == c) = false := beq_eq_false_iff_ne.mpr hne
    unfold backtickStrip
    have h2 : startsWithL "``" (c :: t) = false := by
      have e : startsWithL "``" (c :: t) =
          (btick == c && List.isPrefixOf [btick] t) := rfl
      rw [e, hbc, Bool.false_and]
    have h1 : startsWithL "`" (c :: t) = false := by
      have e : startsWithL "`" (c :: t) = (btick == c && List.isPrefixOf [] t) := rfl
      rw [e, hbc, Bool.false_and]
    rw [h2, h1]
    simp

theorem apply_fixes_eq (s : String) (hs : ¬ s = "") :
    apply_programmatic_fixes s =
      ⟨backtickStrip (sub3 none (sub2 (sub1 s.toList)))⟩ := by
  unfold apply_programmatic_fixes
  rw [if_neg hs]

/-- Claim C4 (counterexample): `_apply_programmatic_fixes` is not
idempotent. On the input consisting of four backticks, the final
leading-backtick strip removes two backticks the first time (leaving two)
and removes the remaining two on a second application, so applying the
function twice differs from applying it once. -/
theorem claim_C4_counterexample :
    apply_programmatic_fixes "````" = "``" ∧
    apply_programmatic_fixes (apply_programmatic_fixes "````") = "" ∧
    apply_programmatic_fixes (apply_programmatic_fixes "````") ≠
      apply_programmatic_fixes "````" := by
  refine ⟨rfl, rfl, ?_⟩
  decide

/-- Claim C4 (amended): `_apply_programmatic_fixes` is idempotent on every
input that does not begin with a backtick. The three `re.sub`
normalisations compose to an idempotent transformation that preserves a
non-backtick first character, so the final backtick strip never fires. -/
theorem claim_C4_amended (s : String) (h : startsWithL "`" s.toList = false) :
    apply_programmatic_fixes (apply_programmatic_fixes s) =
      apply_programmatic_fixes s := by
  by_cases hs : s = ""
  · subst hs
    rfl
  · have hhead := startsWithL_head s.toList h
    have hT : HeadNot (fun c => c == btick) (sub3 none (sub2 (sub1 s.toList))) :=
      headNB_sub3 _ (headNB_sub2 _ (headNB_sub1 _ hhead))
    have hstrip := backtickStrip_id _ hT
    have h1 : apply_programmatic_fixes s =
        ⟨sub3 none (sub2 (sub1 s.toList))⟩ := by
      rw [apply_fixes_eq s hs, hstrip]
    rw [h1]
    by_cases ht : sub3 none (sub2 (sub1 s.toList)) = []
    · rw [ht]
      rfl
    · have hne : ¬ ((⟨sub3 none (sub2 (sub1 s.toList))⟩ : String) = "") := by
        intro hcon
        exact ht (congrArg String.toList hcon)
      rw [apply_fixes_eq _ hne]
      show (⟨backtickStrip
        (sub3 none (sub2 (sub1 (sub3 none (sub2 (sub1 s.toList))))))⟩ : String) = _
      rw [sub123_idem, hstrip]

/-- Witness for the amended claim C4 at a concrete query whose spacing is
normalised by the first substitution. -/
theorem claim_C4_amended_witness :
    startsWithL "`" ("CREATE  OR REPLACE TABLE `t` AS SELECT 1").toList = false ∧
    apply_programmatic_fixes
        (apply_programmatic_fixes "CREATE  OR REPLACE TABLE `t` AS SELECT 1") =
      apply_programmatic_fixes "CREATE  OR REPLACE TABLE `t` AS SELECT 1" :=
  ⟨by decide, claim_C4_amended "CREATE  OR REPLACE TABLE `t` AS SELECT 1" (by decide)⟩

end PSearch

